import Mathlib

/-!
# Keplerian star/planet system (`starry2/kepler.h`)

A shallow embedding of the Kepler solver, the `Body` base class with its
flux bookkeeping, the `Primary`, and the `Secondary` with its orbital
elements, orbit step and sky projection.

The C++ code is a template over the scalar type.  The embedding keeps that
genericity: every definition is written over an arbitrary linearly ordered
field `S`, and the members of `utils.h` the code calls (`pi`, `mach_eps`,
`mod2pi`, the elementary functions) are collected in a record `Utils S`.
Arithmetic is the exact arithmetic of `S`; rounding is not modelled.  The one
non-finite value the code stores on purpose, `INFINITY` for the rotation
period of a non-rotating body, is modelled by the type `ExtScalar`.  The map
(`maps.h`) and the rotation matrices (`rotation.h`) are external as well: the
members the code calls are collected in a record `Collaborators S`.
-/

namespace kepler

/-! ## Units, errors and the external utilities -/

namespace units

/-- Seconds in a day: `units::DayToSeconds = 86400.0`. -/
def DayToSeconds {S : Type} [LinearOrderedField S] : S := 86400

end units

/-- The two error kinds of `errors.h` raised by this file. -/
inductive Error where
  | ConvergenceError
  | ValueError
  deriving DecidableEq, Repr

/-- The members of `utils.h` (and of `<cmath>`) that `kepler.h` calls, for the
scalar type `S`, together with the compile-time constant
`STARRY_KEPLER_MAX_ITER`.  They are not defined in `kepler.h`, so they are
taken as parameters. -/
structure Utils (S : Type) where
  /-- The constant `pi<S>()`. -/
  pi : S
  /-- The constant `mach_eps<S>()`. -/
  mach_eps : S
  /-- The function `sin`. -/
  sin : S → S
  /-- The function `cos`. -/
  cos : S → S
  /-- The function `sqrt`. -/
  sqrt : S → S
  /-- The function `atan2(y, x)`. -/
  atan2 : S → S → S
  /-- The angle wrap `mod2pi`. -/
  mod2pi : S → S
  /-- The macro `STARRY_KEPLER_MAX_ITER`; the loop counter runs over
  `0, 1, ..., STARRY_KEPLER_MAX_ITER`. -/
  STARRY_KEPLER_MAX_ITER : Nat

/-- A scalar that is either finite or the literal `INFINITY`. -/
inductive ExtScalar (S : Type) where
  | fin (value : S)
  | INFINITY
  deriving DecidableEq, Repr

namespace ExtScalar

variable {S : Type} [LinearOrderedField S]

/-- The test `p == INFINITY`. -/
def isInfinity : ExtScalar S → Bool
  | fin _ => false
  | INFINITY => true

/-- The quotient `p / d` for a finite positive `d`: `INFINITY / d = INFINITY`. -/
def divScalar (p : ExtScalar S) (d : S) : ExtScalar S :=
  match p with
  | fin x => fin (x / d)
  | INFINITY => INFINITY

/-- The quotient `x / p` for a finite `x`: `x / INFINITY = 0`. -/
def scalarDiv (x : S) (p : ExtScalar S) : S :=
  match p with
  | fin y => x / y
  | INFINITY => 0

end ExtScalar

/-! ## The Kepler solver -/

section Solver

variable {S : Type} [LinearOrderedField S]

/-- One Newton update, line 51:
`E - (E - ecc * sin(E) - M) / (1. - ecc * cos(E))`. -/
def newtonStep (u : Utils S) (M ecc E : S) : S :=
  E - (E - ecc * u.sin E - M) / (1 - ecc * u.cos E)

/-- The quantity tested on line 52: `abs(E - ecc * sin(E) - M)`. -/
def residual (u : Utils S) (M ecc E : S) : S :=
  |E - ecc * u.sin E - M|

/-- The `for` loop of `EccentricAnomaly` with `fuel` passes left, started at
the iterate `E`; `n` counts the updates performed so far and is returned with
the value.  Running out of passes is the `throw` after the loop. -/
def newtonLoop (u : Utils S) (M ecc tol : S) : Nat → S → Nat → Except Error (S × Nat)
  | 0, _, _ => Except.error Error.ConvergenceError
  | fuel + 1, E, n =>
    let E1 := newtonStep u M ecc E
    if residual u M ecc E1 ≤ tol then Except.ok (E1, n + 1)
    else newtonLoop u M ecc tol fuel E1 (n + 1)

/-- The function `EccentricAnomaly(M, ecc)`, returning the eccentric anomaly
together with the number of Newton updates that were performed. -/
def EccentricAnomalyCount (u : Utils S) (M ecc : S) : Except Error (S × Nat) :=
  let E := M
  let tol := 10 * u.mach_eps
  if ecc > 0 then
    newtonLoop u M ecc tol (u.STARRY_KEPLER_MAX_ITER + 1) E 0
  else
    Except.ok (E, 0)

/-- The function `EccentricAnomaly(M, ecc)` (lines 43-58). -/
def EccentricAnomaly (u : Utils S) (M ecc : S) : Except Error S :=
  match EccentricAnomalyCount u M ecc with
  | Except.ok (E, _) => Except.ok E
  | Except.error e => Except.error e

/-- The `k`-th Newton iterate from the initial condition `E = M`. -/
def newtonIterate (u : Utils S) (M ecc : S) (k : Nat) : S :=
  (newtonStep u M ecc)^[k] M

/-- An `Eigen::AutoDiffScalar`: a value and a vector of derivatives, which may
have size zero. -/
structure AutoDiffScalar (S : Type) where
  value : S
  derivatives : List S

/-- The factor `norm1 = 1. / (1. - ecc_value * cosE_value)`. -/
def norm1 (u : Utils S) (ecc_value E_value : S) : S :=
  1 / (1 - ecc_value * u.cos E_value)

/-- The factor `norm2 = sinE_value * norm1`. -/
def norm2 (u : Utils S) (ecc_value E_value : S) : S :=
  u.sin E_value * norm1 u ecc_value E_value

/-- The overload of `EccentricAnomaly` for `AutoDiffScalar` (lines 64-84).
Vector sums and scalings are entrywise. -/
def EccentricAnomalyAD (u : Utils S) (M ecc : AutoDiffScalar S) :
    Except Error (AutoDiffScalar S) :=
  let M_value := M.value
  let ecc_value := ecc.value
  match EccentricAnomaly u M_value ecc_value with
  | Except.error e => Except.error e
  | Except.ok E_value =>
    let n1 := norm1 u ecc_value E_value
    let n2 := norm2 u ecc_value E_value
    if M.derivatives.length ≠ 0 ∧ ecc.derivatives.length ≠ 0 then
      Except.ok ⟨E_value,
        List.zipWith (fun a b => a + b) (M.derivatives.map (fun d => d * n1))
          (ecc.derivatives.map (fun d => d * n2))⟩
    else if M.derivatives.length ≠ 0 then
      Except.ok ⟨E_value, M.derivatives.map (fun d => d * n1)⟩
    else if ecc.derivatives.length ≠ 0 then
      Except.ok ⟨E_value, ecc.derivatives.map (fun d => d * n2)⟩
    else
      Except.ok ⟨E_value, M.derivatives⟩

/-- The `i`-th entry of a derivative vector; a vector of size zero carries no
tangent and reads as zero. -/
def tangent (d : List S) (i : Nat) : S := d.getD i 0

end Solver

/-! ## The map and the rotation collaborators -/

/-- The part of a `maps::Map` that `kepler.h` reads and writes: the two
construction parameters and the coefficient storage `y`, which has
`(lmax + 1)^2` rows and `nwav` columns and is read by row and column index. -/
structure Map (S : Type) where
  /-- Largest spherical harmonic degree of the map. -/
  lmax : Nat
  /-- Number of wavelength channels of the map. -/
  nwav : Nat
  /-- The spherical harmonic coefficients, entry `(row, column)`. -/
  y : Nat → Nat → S

/-- Modelled from the spec: the member `Map::setY(coefficients)` of `maps.h`,
which replaces the coefficients of the map by the given ones. -/
def Map.setY {S : Type} (m : Map S) (y_ : Nat → Nat → S) : Map S :=
  { m with y := y_ }

/-- The two unit vectors of `utils.h` that `Secondary` instantiates. -/
inductive Axis where
  | xhat
  | zhat
  deriving DecidableEq, Repr

/-- The members of `maps.h` and `rotation.h` that `kepler.h` calls.  They are
not defined in `kepler.h`, so they are taken as parameters. -/
structure Collaborators (S : Type) where
  /-- The member `Map::flux(theta, xo, yo, ro, gradient)`: one value per
  wavelength channel. -/
  flux : Map S → S → S → S → S → Bool → List S
  /-- The blocks `R[l]` that `Wigner::compute(c, s)` stores for a `Wigner`
  object of the given axis. -/
  wignerR : Axis → S → S → (l : Nat) → Matrix (Fin (2 * l + 1)) (Fin (2 * l + 1)) S

/-- The part of a `rotation::Wigner` object that `kepler.h` reads: its axis
and the blocks `R[l]`. -/
structure Wigner (S : Type) where
  /-- The rotation axis given at construction. -/
  axis : Axis
  /-- The rotation matrix blocks, one per degree. -/
  R : (l : Nat) → Matrix (Fin (2 * l + 1)) (Fin (2 * l + 1)) S

/-- The member `Wigner::compute(c, s)`. -/
def Wigner.compute {S : Type} (c : Collaborators S) (W : Wigner S) (a b : S) : Wigner S :=
  { W with R := c.wignerR W.axis a b }

section Rows

variable {S : Type} [LinearOrderedField S]

/-- The function `setZero` of `utils.h` on a row: every entry becomes zero. -/
def setZero (v : List S) : List S := v.map (fun _ => 0)

/-- The product of a scalar and a row. -/
def rowScale (c : S) (v : List S) : List S := v.map (fun x => c * x)

/-- The entrywise sum of two rows. -/
def rowAdd (v w : List S) : List S := List.zipWith (fun a b => a + b) v w

/-- The entrywise difference of two rows. -/
def rowSub (v w : List S) : List S := List.zipWith (fun a b => a - b) v w

/-- The value of a row in the wavelength channel `k`; a row has no values
beyond its size, where the reading is zero. -/
def channel (v : List S) (k : Nat) : S := v.getD k 0

/-- The view `Y.block(l * l, 0, 2 * l + 1, n)` of a coefficient storage: the
rows of degree `l`. -/
def block (Y : Nat → Nat → S) (l n : Nat) : Matrix (Fin (2 * l + 1)) (Fin n) S :=
  fun i j => Y (l * l + i.val) j.val

/-- The assignment `Y.block(l * l, 0, 2 * l + 1, n) = B`. -/
def setBlock (Y : Nat → Nat → S) (l n : Nat) (B : Matrix (Fin (2 * l + 1)) (Fin n) S) :
    Nat → Nat → S :=
  fun i j =>
    if h : (l * l ≤ i ∧ i < l * l + (2 * l + 1)) ∧ j < n then
      B ⟨i - l * l, by omega⟩ ⟨j, h.2⟩
    else Y i j

end Rows

/-! ## Member calls as statement sequences

A member function that may throw is also given as a statement sequence on the
object, so that the state in which an exception leaves the object is the state
reached by the assignments that ran before the `throw`. -/

/-- The outcome of the member call `call` on the object `self`: whether it
returned or threw, and the object after the call. -/
def runCall {σ : Type} (call : ExceptT Error (StateM σ) Unit) (self : σ) :
    Except Error Unit × σ :=
  (call.run).run self

/-! ## Body -/

/-- The data members of `Body` (lines 105-116), on top of the map it derives
from. -/
structure Body (S : Type) extends Map S where
  /-- Body radius in units of primary radius. -/
  r : S
  /-- Body luminosity in units of primary luminosity. -/
  L : S
  /-- Body rotation period in seconds. -/
  prot : ExtScalar S
  /-- Reference time in seconds. -/
  tref : S
  /-- Body initial rotation angle in radians. -/
  theta0 : S
  /-- Body rotational angular velocity in radians / second. -/
  angvelrot : S
  /-- Reference point for retarded time calculation. -/
  z0 : S
  /-- The light travel time delay in seconds. -/
  delay : S
  /-- Current flux visible from the body. -/
  flux_cur : List S
  /-- Total flux from the body. -/
  flux_tot : List S

namespace Body

variable {S : Type} [LinearOrderedField S]

/-- The base implementation of the virtual `computeTheta0` (lines 130-132). -/
def computeTheta0 (b : Body S) : Body S :=
  { b with theta0 := 0 }

/-- The member `Body::theta` (lines 175-181). -/
def theta (u : Utils S) (b : Body S) (time : S) : S :=
  if b.prot.isInfinity then b.theta0
  else u.mod2pi (b.theta0 + b.angvelrot * (time - b.tref - b.delay))

/-- The member `Body::setRadius` (lines 208-212). -/
def setRadius (b : Body S) (r_ : S) : Except Error (Body S) :=
  if r_ > 0 then Except.ok { b with r := r_ }
  else Except.error Error.ValueError

/-- The member `Body::getRadius`. -/
def getRadius (b : Body S) : S := b.r

/-- The member `Body::setLuminosity` (lines 221-225). -/
def setLuminosity (b : Body S) (L_ : S) : Except Error (Body S) :=
  if L_ ≥ 0 then Except.ok { b with L := L_ }
  else Except.error Error.ValueError

/-- The member `Body::getLuminosity`. -/
def getLuminosity (b : Body S) : S := b.L

/-- The member `Body::setRotPer` (lines 234-241) for an object of dynamic type
`B` whose `Body` part is read by `get` and written by `set`; the virtual
`computeTheta0` of that type is called last. -/
def setRotPerWith {B : Type} (get : B → Body S) (set : B → Body S → B)
    (hook : B → B) (u : Utils S) (self : B) (prot_ : S) : Except Error B :=
  let store := fun (p : ExtScalar S) =>
    hook (set self { get self with
      prot := p, angvelrot := ExtScalar.scalarDiv (2 * u.pi) p })
  if prot_ > 0 then Except.ok (store (ExtScalar.fin (prot_ * units.DayToSeconds)))
  else if prot_ = 0 then Except.ok (store ExtScalar.INFINITY)
  else Except.error Error.ValueError

/-- The member `Body::setRotPer` on an object whose dynamic type does not
override `computeTheta0`. -/
def setRotPer (u : Utils S) (b : Body S) (prot_ : S) : Except Error (Body S) :=
  setRotPerWith id (fun _ b1 => b1) computeTheta0 u b prot_

/-- The member `Body::getRotPer` (lines 244-247). -/
def getRotPer (b : Body S) : ExtScalar S :=
  b.prot.divScalar units.DayToSeconds

/-- The member `Body::setRefTime` (lines 250-253). -/
def setRefTime (b : Body S) (tref_ : S) : Body S :=
  { b with tref := tref_ * units.DayToSeconds }

/-- The member `Body::getRefTime` (lines 256-259). -/
def getRefTime (b : Body S) : S :=
  b.tref / units.DayToSeconds

/-- The virtual member `Body::getFlux` (lines 124-127): the flux of the map
the body derives from. -/
def getFlux (c : Collaborators S) (b : Body S) (theta xo yo ro : S) (gradient : Bool) :
    List S :=
  c.flux b.toMap theta xo yo ro gradient

/-- The member `Body::computeTotal` (lines 184-191); `getFlux` is the virtual
member of the dynamic type, bound to the object. -/
def computeTotalWith (getFlux : S → S → S → S → Bool → List S) (u : Utils S)
    (b : Body S) (time : S) : Body S :=
  let b1 :=
    if b.L ≠ 0 then { b with flux_tot := rowScale b.L (getFlux (theta u b time) 0 0 0 false) }
    else { b with flux_tot := setZero b.flux_tot }
  { b1 with flux_cur := b1.flux_tot }

/-- The member `Body::computeTotal` on an object whose dynamic type does not
override `getFlux`. -/
def computeTotal (c : Collaborators S) (u : Utils S) (b : Body S) (time : S) : Body S :=
  computeTotalWith (getFlux c b) u b time

/-- The member `Body::occult` (lines 194-200); `getFlux` is the virtual member
of the dynamic type, bound to the object. -/
def occultWith (getFlux : S → S → S → S → Bool → List S) (u : Utils S)
    (b : Body S) (time xo yo ro : S) : Body S :=
  if b.L ≠ 0 then
    { b with flux_cur :=
        rowAdd b.flux_cur (rowSub (rowScale b.L (getFlux (theta u b time) xo yo ro false))
          b.flux_tot) }
  else b

/-- The member `Body::occult` on an object whose dynamic type does not
override `getFlux`. -/
def occult (c : Collaborators S) (u : Utils S) (b : Body S) (time xo yo ro : S) : Body S :=
  occultWith (getFlux c b) u b time xo yo ro

/-- The calls `occult(time, xo, yo, ro)` for a list of occultors
`(xo, yo, ro)`, one after the other. -/
def occultAllWith (getFlux : S → S → S → S → Bool → List S) (u : Utils S)
    (b : Body S) (time : S) (occultors : List (S × S × S)) : Body S :=
  occultors.foldl (fun b1 o => occultWith getFlux u b1 time o.1 o.2.1 o.2.2) b

/-- The calls `occult(time, xo, yo, ro)` for a list of occultors on an object
whose dynamic type does not override `getFlux`. -/
def occultAll (c : Collaborators S) (u : Utils S) (b : Body S) (time : S)
    (occultors : List (S × S × S)) : Body S :=
  occultors.foldl (fun b1 o => occult c u b1 time o.1 o.2.1 o.2.2) b

/-- The member `Body::setRadius` as a statement sequence. -/
def setRadiusCall (r_ : S) : ExceptT Error (StateM (Body S)) Unit := do
  if r_ > 0 then modify fun b => { b with r := r_ }
  else throw Error.ValueError

/-- The member `Body::setLuminosity` as a statement sequence. -/
def setLuminosityCall (L_ : S) : ExceptT Error (StateM (Body S)) Unit := do
  if L_ ≥ 0 then modify fun b => { b with L := L_ }
  else throw Error.ValueError

/-- The member `Body::setRotPer` as a statement sequence, for an object of
dynamic type `B` as in `setRotPerWith`. -/
def setRotPerCallWith {B : Type} (get : B → Body S) (set : B → Body S → B)
    (hook : B → B) (u : Utils S) (prot_ : S) : ExceptT Error (StateM B) Unit := do
  if prot_ > 0 then
    modify fun self => set self { get self with prot := ExtScalar.fin (prot_ * units.DayToSeconds) }
  else if prot_ = 0 then
    modify fun self => set self { get self with prot := ExtScalar.INFINITY }
  else throw Error.ValueError
  modify fun self =>
    set self { get self with angvelrot := ExtScalar.scalarDiv (2 * u.pi) (get self).prot }
  modify hook

/-- The member `Body::setRotPer` as a statement sequence on an object whose
dynamic type does not override `computeTheta0`. -/
def setRotPerCall (u : Utils S) (prot_ : S) : ExceptT Error (StateM (Body S)) Unit :=
  setRotPerCallWith id (fun _ b1 => b1) computeTheta0 u prot_

/-- The constructor `Body(lmax, nwav)` (lines 135-153).  The argument `raw` is
the object once the constructor of the map has run: its map is constructed and
its other members are indeterminate. -/
def construct (u : Utils S) (raw : Body S) : Except Error (Body S) := do
  let b := { raw with
    flux_cur := setZero (List.replicate raw.nwav 0),
    flux_tot := setZero (List.replicate raw.nwav 0) }
  let b := { b with z0 := 0 }
  let b := { b with delay := 0 }
  let b := computeTheta0 b
  let b ← setRadius b 1
  let b ← setLuminosity b 1
  let b ← setRotPer u b 0
  pure (setRefTime b 0)

end Body

/-! ## Primary -/

/-- The class `Primary` (lines 272-297): a `Body` without further members. -/
abbrev Primary (S : Type) := Body S

namespace Primary

variable {S : Type} [LinearOrderedField S]

/-- The constructor `Primary(lmax, nwav)` (lines 284-295). -/
def construct (u : Utils S) (raw : Body S) : Except Error (Primary S) := do
  let b ← Body.construct u raw
  let b ← Body.setRadius b 1
  let b ← Body.setLuminosity b 1
  let b ← Body.setRotPer u b 0
  pure (Body.setRefTime b 0)

/-- The members of a `Primary` that an external caller can reach:
`setRadius` and `setLuminosity` are made protected by the `using`
declarations of the class. -/
inductive Op (S : Type) where
  | setRotPer (prot_ : S)
  | getRotPer
  | setRefTime (tref_ : S)
  | getRefTime
  | getRadius
  | getLuminosity

/-- The object after one call from outside; a call that throws leaves the
object as the statements before the `throw` left it, and the getters are
`const`. -/
def step (u : Utils S) (b : Primary S) : Op S → Primary S
  | Op.setRotPer prot_ => (runCall (Body.setRotPerCall u prot_) b).2
  | Op.setRefTime tref_ => Body.setRefTime b tref_
  | Op.getRotPer => b
  | Op.getRefTime => b
  | Op.getRadius => b
  | Op.getLuminosity => b

/-- The object after a sequence of calls from outside. -/
def run (u : Utils S) (b : Primary S) (ops : List (Op S)) : Primary S :=
  ops.foldl (step u) b

end Primary

/-! ## Secondary -/

/-- The data members of `Secondary` (lines 334-377), on top of those of
`Body`. -/
structure Secondary (S : Type) extends Body S where
  /-- An internal copy of the map, rotated into the sky plane. -/
  skyMap : Map S
  /-- The skyMap spherical harmonic vector of coefficients. -/
  skyY : Nat → Nat → S
  /-- Instance of the xhat unit vector. -/
  axis1 : Axis
  /-- Instance of the zhat unit vector. -/
  axis2 : Axis
  /-- First sky transform (xhat). -/
  W1 : Wigner S
  /-- Second sky transform (zhat). -/
  W2 : Wigner S
  /-- The rotation matrix into the sky plane, one block per degree. -/
  RSky : (l : Nat) → Matrix (Fin (2 * l + 1)) (Fin (2 * l + 1)) S
  /-- The semi-major axis in units of the primary radius. -/
  a : S
  /-- The orbital period in seconds. -/
  porb : S
  /-- The inclination in radians. -/
  inc : S
  /-- The orbital eccentricity. -/
  ecc : S
  /-- The longitude of pericenter (varpi) in radians. -/
  w : S
  /-- The longitude of ascending node in radians. -/
  Omega : S
  /-- The mean longitude at the reference time in radians. -/
  lambda0 : S
  /-- Mean anomaly in radians. -/
  M : S
  /-- Eccentric anomaly in radians. -/
  E : S
  /-- True anomaly in radians. -/
  f : S
  /-- Instantaneous orbital radius in units of the primary radius. -/
  rorb : S
  /-- The value `cos(w + f)`. -/
  cwf : S
  /-- The value `sin(w + f)`. -/
  swf : S
  /-- Current Cartesian x position. -/
  x_cur : S
  /-- Current Cartesian y position. -/
  y_cur : S
  /-- Current Cartesian z position. -/
  z_cur : S
  /-- Value of the mean anomaly at the reference time. -/
  M0 : S
  /-- The value `cos(inc)`. -/
  cosi : S
  /-- The value `sin(inc)`. -/
  sini : S
  /-- The value `cos(Omega)`. -/
  cosO : S
  /-- The value `sin(Omega)`. -/
  sinO : S
  /-- The value `sqrt(1 + ecc)`. -/
  sqrtonepluse : S
  /-- The value `sqrt(1 - ecc)`. -/
  sqrtoneminuse : S
  /-- The value `ecc * ecc`. -/
  ecc2 : S
  /-- The value `cos(Omega) * cos(inc)`. -/
  cosOcosi : S
  /-- The value `sin(Omega) * cos(inc)`. -/
  sinOcosi : S
  /-- The value `ecc * cos(w)`. -/
  ecw : S
  /-- The value `ecc * sin(w)`. -/
  esw : S
  /-- Orbital angular velocity in radians / second. -/
  angvelorb : S
  /-- Orbital velocity amplitude for time delay expansion. -/
  vamp : S
  /-- Orbital acceleration amplitude for time delay expansion. -/
  aamp : S

namespace Secondary

variable {S : Type} [LinearOrderedField S]

/-- The override `Secondary::computeTheta0` (lines 518-529). -/
def computeTheta0 (u : Utils S) (s : Secondary S) : Secondary S :=
  match s.prot with
  | ExtScalar.INFINITY => { s with theta0 := 0 }
  | ExtScalar.fin prot =>
    let f_eclipse := (3 / 2) * u.pi - s.w
    let E_eclipse := u.atan2 (u.sqrt (1 - s.ecc2) * u.sin f_eclipse)
      (s.ecc + u.cos f_eclipse)
    let M_eclipse := E_eclipse - s.ecc * u.sin E_eclipse
    { s with theta0 := -(s.porb / prot) * (M_eclipse - s.M0) }

/-- The member `Body::setRotPer` called on a `Secondary`. -/
def setRotPer (u : Utils S) (s : Secondary S) (prot_ : S) :
    Except Error (Secondary S) :=
  Body.setRotPerWith Secondary.toBody (fun s1 b => { s1 with toBody := b })
    (computeTheta0 u) u s prot_

/-- The member `Secondary::setSemi` (lines 632-637). -/
def setSemi (u : Utils S) (s : Secondary S) (a_ : S) : Except Error (Secondary S) :=
  if a_ > 0 then
    let s1 := { s with a := a_ }
    Except.ok { s1 with vamp := s1.angvelorb * s1.a / u.sqrt (1 - s1.ecc2) }
  else Except.error Error.ValueError

/-- The member `Secondary::getSemi`. -/
def getSemi (s : Secondary S) : S := s.a

/-- The member `Secondary::setOrbPer` (lines 646-653). -/
def setOrbPer (u : Utils S) (s : Secondary S) (porb_ : S) :
    Except Error (Secondary S) :=
  if porb_ > 0 then
    let s1 := { s with porb := porb_ * units.DayToSeconds }
    let s2 := { s1 with angvelorb := (2 * u.pi) / s1.porb }
    let s3 := { s2 with vamp := s2.angvelorb * s2.a / u.sqrt (1 - s2.ecc2) }
    Except.ok (computeTheta0 u s3)
  else Except.error Error.ValueError

/-- The member `Secondary::getOrbPer` (lines 656-659). -/
def getOrbPer (s : Secondary S) : S := s.porb

/-- The member `Secondary::setInc` (lines 662-670). -/
def setInc (u : Utils S) (s : Secondary S) (inc_ : S) : Except Error (Secondary S) :=
  if inc_ ≥ 0 ∧ inc_ < 180 then
    let s1 := { s with inc := inc_ * u.pi / 180 }
    let s2 := { s1 with cosi := u.cos s1.inc, sini := u.sin s1.inc }
    Except.ok { s2 with cosOcosi := s2.cosO * s2.cosi, sinOcosi := s2.sinO * s2.cosi }
  else Except.error Error.ValueError

/-- The member `Secondary::getInc` (lines 673-676). -/
def getInc (u : Utils S) (s : Secondary S) : S :=
  s.inc * 180 / u.pi

/-- The member `Secondary::setEcc` (lines 679-690). -/
def setEcc (u : Utils S) (s : Secondary S) (ecc_ : S) : Except Error (Secondary S) :=
  if ecc_ ≥ 0 ∧ ecc_ < 1 then
    let s1 := { s with ecc := ecc_ }
    let s2 := { s1 with
      sqrtonepluse := u.sqrt (1 + s1.ecc),
      sqrtoneminuse := u.sqrt (1 - s1.ecc),
      ecc2 := s1.ecc * s1.ecc,
      ecw := s1.ecc * u.cos s1.w,
      esw := s1.ecc * u.sin s1.w }
    let s3 := { s2 with vamp := s2.angvelorb * s2.a / u.sqrt (1 - s2.ecc2) }
    Except.ok (computeTheta0 u s3)
  else Except.error Error.ValueError

/-- The member `Secondary::getEcc`. -/
def getEcc (s : Secondary S) : S := s.ecc

/-- The member `Secondary::setVarPi` (lines 699-706). -/
def setVarPi (u : Utils S) (s : Secondary S) (w_ : S) : Secondary S :=
  let s1 := { s with w := u.mod2pi w_ * u.pi / 180 }
  let s2 := { s1 with
    M0 := s1.lambda0 - s1.w,
    ecw := s1.ecc * u.cos s1.w,
    esw := s1.ecc * u.sin s1.w }
  computeTheta0 u s2

/-- The member `Secondary::getVarPi` (lines 709-712). -/
def getVarPi (u : Utils S) (s : Secondary S) : S :=
  s.w * 180 / u.pi

/-- The member `Secondary::setOmega` (lines 715-722). -/
def setOmega (u : Utils S) (s : Secondary S) (Om_ : S) : Secondary S :=
  let s1 := { s with Omega := u.mod2pi Om_ * u.pi / 180 }
  let s2 := { s1 with cosO := u.cos s1.Omega, sinO := u.sin s1.Omega }
  { s2 with cosOcosi := s2.cosO * s2.cosi, sinOcosi := s2.sinO * s2.cosi }

/-- The member `Secondary::getOmega` (lines 725-728). -/
def getOmega (u : Utils S) (s : Secondary S) : S :=
  s.Omega * 180 / u.pi

/-- The member `Secondary::setLambda0` (lines 731-736). -/
def setLambda0 (u : Utils S) (s : Secondary S) (lambda0_ : S) : Secondary S :=
  let s1 := { s with lambda0 := u.mod2pi lambda0_ * u.pi / 180 }
  let s2 := { s1 with M0 := s1.lambda0 - s1.w }
  computeTheta0 u s2

/-- The member `Secondary::getLambda0` (lines 739-742). -/
def getLambda0 (u : Utils S) (s : Secondary S) : S :=
  s.lambda0 * 180 / u.pi

/-- The member `Body::setRadius` called on a `Secondary`. -/
def setRadius (s : Secondary S) (r_ : S) : Except Error (Secondary S) := do
  let b ← Body.setRadius s.toBody r_
  pure { s with toBody := b }

/-- The member `Body::setLuminosity` called on a `Secondary`. -/
def setLuminosity (s : Secondary S) (L_ : S) : Except Error (Secondary S) := do
  let b ← Body.setLuminosity s.toBody L_
  pure { s with toBody := b }

/-- The member `Body::setRefTime` called on a `Secondary`. -/
def setRefTime (s : Secondary S) (tref_ : S) : Secondary S :=
  { s with toBody := Body.setRefTime s.toBody tref_ }

/-- The override `Secondary::getFlux` (lines 500-507): the flux of the
sky-projected map. -/
def getFlux (c : Collaborators S) (s : Secondary S) (theta xo yo ro : S)
    (gradient : Bool) : List S :=
  c.flux s.skyMap theta xo yo ro gradient

/-- The member `Body::computeTotal` called on a `Secondary`. -/
def computeTotal (c : Collaborators S) (u : Utils S) (s : Secondary S) (time : S) :
    Secondary S :=
  { s with toBody := Body.computeTotalWith (getFlux c s) u s.toBody time }

/-- The member `Body::occult` called on a `Secondary`. -/
def occult (c : Collaborators S) (u : Utils S) (s : Secondary S) (time xo yo ro : S) :
    Secondary S :=
  { s with toBody := Body.occultWith (getFlux c s) u s.toBody time xo yo ro }

/-- The calls `occult(time, xo, yo, ro)` on a `Secondary` for a list of
occultors `(xo, yo, ro)`, one after the other. -/
def occultAll (c : Collaborators S) (u : Utils S) (s : Secondary S) (time : S)
    (occultors : List (S × S × S)) : Secondary S :=
  occultors.foldl (fun s1 o => occult c u s1 time o.1 o.2.1 o.2.2) s

/-- One pass of the loop of the rotating branch of `syncSkyMap`
(lines 473-477). -/
def syncRotateStep (s : Secondary S) (l : Nat) : Secondary S :=
  let s1 := { s with RSky := Function.update s.RSky l (s.W1.R l * s.W2.R l) }
  { s1 with skyY := setBlock s1.skyY l s1.nwav (s1.RSky l * block s1.y l s1.nwav) }

/-- One pass of the loop of the identity branch of `syncSkyMap`
(lines 485-486). -/
def syncIdentityStep (s : Secondary S) (l : Nat) : Secondary S :=
  { s with RSky := Function.update s.RSky l 1 }

/-- The member `Secondary::syncSkyMap` (lines 462-493). -/
def syncSkyMap (c : Collaborators S) (u : Utils S) (s : Secondary S) : Secondary S :=
  if s.Omega ≠ 0 ∨ s.sini < 1 - 2 * u.mach_eps then
    let s1 := { s with W1 := s.W1.compute c s.sini s.cosi }
    let s2 := { s1 with W2 := s1.W2.compute c s1.cosO s1.sinO }
    let s3 := (List.range (s2.lmax + 1)).foldl syncRotateStep s2
    { s3 with skyMap := s3.skyMap.setY s3.skyY }
  else
    let s1 := (List.range (s.lmax + 1)).foldl syncIdentityStep s
    { s1 with skyMap := s1.skyMap.setY s1.y }

/-- The member `Secondary::orbitStep` (lines 536-560); the code that is
commented out in the source is not part of it. -/
def orbitStep (u : Utils S) (s : Secondary S) (time : S) : Except Error (Secondary S) := do
  let s := { s with M := u.mod2pi (s.M0 + s.angvelorb * (time - s.tref)) }
  let s ←
    if s.ecc = 0 then
      let s := { s with f := s.M }
      pure { s with rorb := s.a }
    else do
      let E ← EccentricAnomaly u s.M s.ecc
      let s := { s with E := E }
      let s := { s with
        f := 2 * u.atan2 (s.sqrtonepluse * u.sin (s.E / 2)) (s.sqrtoneminuse * u.cos (s.E / 2)) }
      pure { s with rorb := s.a * (1 - s.ecc2) / (1 + s.ecc * u.cos s.f) }
  let s := { s with cwf := u.cos (s.w + s.f) }
  let s := { s with swf := u.sin (s.w + s.f) }
  let s := { s with x_cur := -s.rorb * (s.cosO * s.cwf - s.sinOcosi * s.swf) }
  let s := { s with y_cur := -s.rorb * (s.sinO * s.cwf + s.cosOcosi * s.swf) }
  pure { s with z_cur := s.rorb * s.swf * s.sini }

/-- The cached quantities that `orbitStep` reads are those of the current
elements: `cosO`, `sinO`, `sini`, `cosOcosi`, `sinOcosi`, `sqrtonepluse`,
`sqrtoneminuse` and `ecc2`. -/
def OrbitCache (u : Utils S) (s : Secondary S) : Prop :=
  s.cosO = u.cos s.Omega ∧ s.sinO = u.sin s.Omega ∧ s.sini = u.sin s.inc ∧
  s.cosOcosi = u.cos s.Omega * u.cos s.inc ∧ s.sinOcosi = u.sin s.Omega * u.cos s.inc ∧
  s.sqrtonepluse = u.sqrt (1 + s.ecc) ∧ s.sqrtoneminuse = u.sqrt (1 - s.ecc) ∧
  s.ecc2 = s.ecc * s.ecc

/-- The closed form of the Cartesian sky position in section 4.4 of the
specification, for the orbital radius `rorb`, the elements `Omega`, `inc`, `w`
and the true anomaly `f`. -/
def specSkyPosition (u : Utils S) (rorb Omega inc w f : S) : S × S × S :=
  (-rorb * (u.cos Omega * u.cos (w + f) - u.sin Omega * u.cos inc * u.sin (w + f)),
   -rorb * (u.sin Omega * u.cos (w + f) + u.cos Omega * u.cos inc * u.sin (w + f)),
   rorb * u.sin (w + f) * u.sin inc)

/-- The member `Secondary::setSemi` as a statement sequence. -/
def setSemiCall (u : Utils S) (a_ : S) : ExceptT Error (StateM (Secondary S)) Unit := do
  if a_ > 0 then modify fun s => { s with a := a_ }
  else throw Error.ValueError
  modify fun s => { s with vamp := s.angvelorb * s.a / u.sqrt (1 - s.ecc2) }

/-- The member `Secondary::setOrbPer` as a statement sequence. -/
def setOrbPerCall (u : Utils S) (porb_ : S) : ExceptT Error (StateM (Secondary S)) Unit := do
  if porb_ > 0 then modify fun s => { s with porb := porb_ * units.DayToSeconds }
  else throw Error.ValueError
  modify fun s => { s with angvelorb := (2 * u.pi) / s.porb }
  modify fun s => { s with vamp := s.angvelorb * s.a / u.sqrt (1 - s.ecc2) }
  modify (computeTheta0 u)

/-- The member `Secondary::setInc` as a statement sequence. -/
def setIncCall (u : Utils S) (inc_ : S) : ExceptT Error (StateM (Secondary S)) Unit := do
  if inc_ ≥ 0 ∧ inc_ < 180 then modify fun s => { s with inc := inc_ * u.pi / 180 }
  else throw Error.ValueError
  modify fun s => { s with cosi := u.cos s.inc }
  modify fun s => { s with sini := u.sin s.inc }
  modify fun s => { s with cosOcosi := s.cosO * s.cosi }
  modify fun s => { s with sinOcosi := s.sinO * s.cosi }

/-- The member `Secondary::setEcc` as a statement sequence. -/
def setEccCall (u : Utils S) (ecc_ : S) : ExceptT Error (StateM (Secondary S)) Unit := do
  if ecc_ ≥ 0 ∧ ecc_ < 1 then modify fun s => { s with ecc := ecc_ }
  else throw Error.ValueError
  modify fun s => { s with sqrtonepluse := u.sqrt (1 + s.ecc) }
  modify fun s => { s with sqrtoneminuse := u.sqrt (1 - s.ecc) }
  modify fun s => { s with ecc2 := s.ecc * s.ecc }
  modify fun s => { s with ecw := s.ecc * u.cos s.w }
  modify fun s => { s with esw := s.ecc * u.sin s.w }
  modify fun s => { s with vamp := s.angvelorb * s.a / u.sqrt (1 - s.ecc2) }
  modify (computeTheta0 u)

/-- The constructor `Secondary(lmax, nwav)` (lines 407-443).  The argument
`raw` is the object once the constructors of its two maps have run: the maps
are constructed and the other members are indeterminate. -/
def construct (c : Collaborators S) (u : Utils S) (raw : Secondary S) :
    Except Error (Secondary S) := do
  let b ← Body.construct u raw.toBody
  let s := { raw with toBody := b }
  let s := { s with skyMap := { s.skyMap with lmax := s.lmax, nwav := s.nwav } }
  let s := { s with axis1 := Axis.xhat }
  let s := { s with axis2 := Axis.zhat }
  let s := { s with W1 := { s.W1 with axis := s.axis1 } }
  let s := { s with W2 := { s.W2 with axis := s.axis2 } }
  let s ← setRadius s (1 / 10)
  let s ← setLuminosity s 0
  let s ← setRotPer u s 0
  let s := setRefTime s 0
  let s ← setSemi u s 50
  let s ← setOrbPer u s 1
  let s ← setInc u s 90
  let s ← setEcc u s 0
  let s := setVarPi u s 90
  let s := setOmega u s 0
  let s := setLambda0 u s 90
  pure (syncSkyMap c u s)

/-- The initial rotation angle in the words of section 4.4 of the
specification, from the current elements: `0` for a body that does not rotate,
else `-(porb / prot) * (M_eclipse - M0)` with `f_eclipse = 1.5 * pi - w`,
`E_eclipse = atan2(sqrt(1 - ecc^2) * sin f_eclipse, ecc + cos f_eclipse)` and
`M_eclipse = E_eclipse - ecc * sin E_eclipse`. -/
def specTheta0 (u : Utils S) (s : Secondary S) : S :=
  match s.prot with
  | ExtScalar.INFINITY => 0
  | ExtScalar.fin prot =>
    let f_eclipse := (3 / 2) * u.pi - s.w
    let E_eclipse := u.atan2 (u.sqrt (1 - s.ecc ^ 2) * u.sin f_eclipse)
      (s.ecc + u.cos f_eclipse)
    let M_eclipse := E_eclipse - s.ecc * u.sin E_eclipse;
    -(s.porb / prot) * (M_eclipse - s.M0)

/-- Cache consistency of a `Secondary`: every cached quantity of section 3 of
the specification has the value that the current elements give it. -/
def CacheConsistent (u : Utils S) (s : Secondary S) : Prop :=
  s.angvelorb = 2 * u.pi / s.porb ∧ s.M0 = s.lambda0 - s.w ∧
  s.cosi = u.cos s.inc ∧ s.sini = u.sin s.inc ∧
  s.cosO = u.cos s.Omega ∧ s.sinO = u.sin s.Omega ∧
  s.cosOcosi = s.cosO * s.cosi ∧ s.sinOcosi = s.sinO * s.cosi ∧
  s.sqrtonepluse = u.sqrt (1 + s.ecc) ∧ s.sqrtoneminuse = u.sqrt (1 - s.ecc) ∧
  s.ecc2 = s.ecc ^ 2 ∧ s.ecw = s.ecc * u.cos s.w ∧ s.esw = s.ecc * u.sin s.w ∧
  s.vamp = s.angvelorb * s.a / u.sqrt (1 - s.ecc2) ∧
  s.theta0 = specTheta0 u s

/-- The setters of a `Secondary`, those of `Body` included, each with its
argument. -/
inductive Setter (S : Type) where
  | setSemi (a_ : S)
  | setOrbPer (porb_ : S)
  | setInc (inc_ : S)
  | setEcc (ecc_ : S)
  | setVarPi (w_ : S)
  | setOmega (Om_ : S)
  | setLambda0 (lambda0_ : S)
  | setRotPer (prot_ : S)
  | setRefTime (tref_ : S)
  | setRadius (r_ : S)
  | setLuminosity (L_ : S)

/-- The call of a setter on the object `s`: the object after the call, or the
exception. -/
def call (u : Utils S) (s : Secondary S) : Setter S → Except Error (Secondary S)
  | Setter.setSemi a_ => setSemi u s a_
  | Setter.setOrbPer porb_ => setOrbPer u s porb_
  | Setter.setInc inc_ => setInc u s inc_
  | Setter.setEcc ecc_ => setEcc u s ecc_
  | Setter.setVarPi w_ => Except.ok (setVarPi u s w_)
  | Setter.setOmega Om_ => Except.ok (setOmega u s Om_)
  | Setter.setLambda0 lambda0_ => Except.ok (setLambda0 u s lambda0_)
  | Setter.setRotPer prot_ => setRotPer u s prot_
  | Setter.setRefTime tref_ => Except.ok (setRefTime s tref_)
  | Setter.setRadius r_ => setRadius s r_
  | Setter.setLuminosity L_ => setLuminosity s L_

/-- The object after one setter call from outside: every setter validates its
argument before its first assignment, so a call that throws leaves the object
as it was. -/
def step (u : Utils S) (s : Secondary S) (op : Setter S) : Secondary S :=
  match call u s op with
  | Except.ok s1 => s1
  | Except.error _ => s

/-- The object after a sequence of setter calls from outside. -/
def run (u : Utils S) (s : Secondary S) (ops : List (Setter S)) : Secondary S :=
  ops.foldl (step u) s

end Secondary

/-! ## The real instance -/

/-- Modelled from the spec: the angle wrap to `[0, 2π)` of `utils.h`, for the
real numbers. -/
noncomputable def realMod2pi (x : ℝ) : ℝ :=
  x - (2 * Real.pi) * ⌊x / (2 * Real.pi)⌋

/-- The utilities for the scalar type of real numbers: the real elementary
functions, the double-precision value `2^(-52)` for `mach_eps` and the
iteration cap `100`. -/
noncomputable def realUtils : Utils ℝ where
  pi := Real.pi
  mach_eps := 1 / 2 ^ 52
  sin := Real.sin
  cos := Real.cos
  sqrt := Real.sqrt
  atan2 := fun y x => Complex.arg ⟨x, y⟩
  mod2pi := realMod2pi
  STARRY_KEPLER_MAX_ITER := 100

/-- The utilities for the real numbers built with the iteration cap
`STARRY_KEPLER_MAX_ITER = 1`. -/
noncomputable def shortUtils : Utils ℝ :=
  { realUtils with STARRY_KEPLER_MAX_ITER := 1 }

/-- The solution `E` of Kepler's equation `E - ecc * sin E = M` over the reals,
as a function of `M` and `ecc`. -/
noncomputable def keplerSolution (M ecc : ℝ) : ℝ :=
  Function.invFun (fun E : ℝ => E - ecc * Real.sin E) M

/-- Collaborators on which the operations can be evaluated.  The flux of a map
is, in each channel, its first coefficient, reduced by the factor `1 - ro^2`
when the centre of the occultor lies on the unit disk.  The rotation block of
degree 0 is the identity, the block of degree 1 is the rotation of the real
harmonics of degree 1 (ordered as the directions y, z, x) about the axis by
the angle of cosine `a` and sine `b`, and the blocks of higher degree are left
as the identity. -/
def sampleCollaborators {S : Type} [LinearOrderedField S] : Collaborators S where
  flux := fun m _ xo yo ro _ =>
    (List.range m.nwav).map (fun n =>
      if xo * xo + yo * yo ≤ 1 then m.y 0 n * (1 - ro * ro) else m.y 0 n)
  wignerR := fun axis a b l =>
    match l with
    | 0 => 1
    | 1 =>
      match axis with
      | Axis.xhat => Matrix.of ![![a, -b, 0], ![b, a, 0], ![0, 0, 1]]
      | Axis.zhat => Matrix.of ![![a, 0, b], ![0, 1, 0], ![-b, 0, a]]
    | _ + 2 => 1

/-- A body state with unit radius and luminosity and a finite rotation period
of one second, on which the operations can be evaluated. -/
def sampleBody {S : Type} [LinearOrderedField S] : Body S where
  lmax := 2
  nwav := 1
  y := fun _ _ => 0
  r := 1
  L := 1
  prot := ExtScalar.fin 1
  tref := 0
  theta0 := 0
  angvelrot := 0
  z0 := 0
  delay := 0
  flux_cur := [0]
  flux_tot := [0]

/-- A secondary state over `sampleBody` with every orbital member zero. -/
def sampleSecondary {S : Type} [LinearOrderedField S] : Secondary S where
  toBody := sampleBody
  skyMap := ⟨2, 1, fun _ _ => 0⟩
  skyY := fun _ _ => 0
  axis1 := Axis.xhat
  axis2 := Axis.zhat
  W1 := ⟨Axis.xhat, fun _ => 0⟩
  W2 := ⟨Axis.zhat, fun _ => 0⟩
  RSky := fun _ => 0
  a := 0
  porb := 0
  inc := 0
  ecc := 0
  w := 0
  Omega := 0
  lambda0 := 0
  M := 0
  E := 0
  f := 0
  rorb := 0
  cwf := 0
  swf := 0
  x_cur := 0
  y_cur := 0
  z_cur := 0
  M0 := 0
  cosi := 0
  sini := 0
  cosO := 0
  sinO := 0
  sqrtonepluse := 0
  sqrtoneminuse := 0
  ecc2 := 0
  cosOcosi := 0
  sinOcosi := 0
  ecw := 0
  esw := 0
  angvelorb := 0
  vamp := 0
  aamp := 0


/-! ## Theorems: the Kepler solver -/

section SolverTheorems

variable {S : Type} [LinearOrderedField S]

/-- The loop returns a value exactly when some update within the remaining
passes meets the tolerance, and then it returns the first such iterate. -/
theorem newtonLoop_ok_iff (u : Utils S) (M ecc tol : S) (fuel : Nat) (E0 : S)
    (n0 : Nat) (E : S) (n : Nat) :
    newtonLoop u M ecc tol fuel E0 n0 = Except.ok (E, n) ↔
      ∃ k, 1 ≤ k ∧ k ≤ fuel ∧ E = (newtonStep u M ecc)^[k] E0 ∧ n = n0 + k ∧
        residual u M ecc ((newtonStep u M ecc)^[k] E0) ≤ tol ∧
        ∀ j, 1 ≤ j → j < k → ¬ residual u M ecc ((newtonStep u M ecc)^[j] E0) ≤ tol := by
  induction fuel generalizing E0 n0 with
  | zero =>
    simp only [newtonLoop]
    constructor
    · intro h; cases h
    · rintro ⟨k, hk1, hk0, _⟩; omega
  | succ fuel ih =>
    simp only [newtonLoop]
    by_cases hres : residual u M ecc (newtonStep u M ecc E0) ≤ tol
    · rw [if_pos hres]
      constructor
      · intro h
        injection h with h
        injection h with hE hn
        refine ⟨1, le_refl 1, by omega, ?_, ?_, ?_, ?_⟩
        · simpa using hE.symm
        · omega
        · simpa using hres
        · intro j hj1 hj2; omega
      · rintro ⟨k, hk1, _, hE, hn, hk, hfirst⟩
        have hk1eq : k = 1 := by
          by_contra hne
          exact hfirst 1 (le_refl 1) (by omega) (by simpa using hres)
        subst hk1eq
        simp only [Function.iterate_one] at hE
        rw [hE, hn]
    · rw [if_neg hres, ih]
      constructor
      · rintro ⟨k, hk1, hk2, hE, hn, hk, hfirst⟩
        refine ⟨k + 1, by omega, by omega, ?_, by omega, ?_, ?_⟩
        · simpa [Function.iterate_succ_apply] using hE
        · simpa [Function.iterate_succ_apply] using hk
        · intro j hj1 hj2
          rcases Nat.lt_or_ge 1 j with hgt | hle
          · obtain ⟨i, rfl⟩ : ∃ i, j = i + 1 := ⟨j - 1, by omega⟩
            have := hfirst i (by omega) (by omega)
            simpa [Function.iterate_succ_apply] using this
          · have hj : j = 1 := by omega
            subst hj
            simpa using hres
      · rintro ⟨k, hk1, hk2, hE, hn, hk, hfirst⟩
        have hk2lt : 1 < k := by
          rcases Nat.lt_or_ge 1 k with hgt | hle
          · exact hgt
          · exfalso
            have hk1eq : k = 1 := by omega
            subst hk1eq
            exact hres (by simpa using hk)
        obtain ⟨i, rfl⟩ : ∃ i, k = i + 1 := ⟨k - 1, by omega⟩
        refine ⟨i, by omega, by omega, ?_, by omega, ?_, ?_⟩
        · simpa [Function.iterate_succ_apply] using hE
        · simpa [Function.iterate_succ_apply] using hk
        · intro j hj1 hj2
          have := hfirst (j + 1) (by omega) (by omega)
          simpa [Function.iterate_succ_apply] using this

/-- The loop throws exactly when no update within the remaining passes meets
the tolerance, and the only error it throws is the convergence error. -/
theorem newtonLoop_error_iff (u : Utils S) (M ecc tol : S) (fuel : Nat) (E0 : S)
    (n0 : Nat) (e : Error) :
    newtonLoop u M ecc tol fuel E0 n0 = Except.error e ↔
      e = Error.ConvergenceError ∧
        ∀ k, 1 ≤ k → k ≤ fuel →
          ¬ residual u M ecc ((newtonStep u M ecc)^[k] E0) ≤ tol := by
  induction fuel generalizing E0 n0 with
  | zero =>
    simp only [newtonLoop]
    constructor
    · intro h
      injection h with h
      exact ⟨h.symm, fun k hk1 hk0 => by omega⟩
    · rintro ⟨rfl, _⟩; rfl
  | succ fuel ih =>
    simp only [newtonLoop]
    by_cases hres : residual u M ecc (newtonStep u M ecc E0) ≤ tol
    · rw [if_pos hres]
      constructor
      · intro h; cases h
      · rintro ⟨_, hall⟩
        exact absurd (by simpa using hres) (hall 1 (le_refl 1) (by omega))
    · rw [if_neg hres, ih]
      constructor
      · rintro ⟨he, hall⟩
        refine ⟨he, fun k hk1 hk2 => ?_⟩
        rcases Nat.lt_or_ge 1 k with hgt | hle
        · obtain ⟨i, rfl⟩ : ∃ i, k = i + 1 := ⟨k - 1, by omega⟩
          have := hall i (by omega) (by omega)
          simpa [Function.iterate_succ_apply] using this
        · have hk : k = 1 := by omega
          subst hk
          simpa using hres
      · rintro ⟨he, hall⟩
        refine ⟨he, fun k hk1 hk2 => ?_⟩
        have := hall (k + 1) (by omega) (by omega)
        simpa [Function.iterate_succ_apply] using this

/-- The value-only solver returns `E` exactly when the counting solver returns
`E` with some count. -/
theorem EccentricAnomaly_ok_iff (u : Utils S) (M ecc E : S) :
    EccentricAnomaly u M ecc = Except.ok E ↔
      ∃ n, EccentricAnomalyCount u M ecc = Except.ok (E, n) := by
  unfold EccentricAnomaly
  cases h : EccentricAnomalyCount u M ecc with
  | error e => simp
  | ok p =>
    obtain ⟨E1, n1⟩ := p
    simp only [Except.ok.injEq, Prod.mk.injEq]
    constructor
    · intro hE; exact ⟨n1, hE, rfl⟩
    · rintro ⟨n, hE, _⟩; exact hE

/-- The value-only solver throws exactly when the counting solver throws. -/
theorem EccentricAnomaly_error_iff (u : Utils S) (M ecc : S) (e : Error) :
    EccentricAnomaly u M ecc = Except.error e ↔
      EccentricAnomalyCount u M ecc = Except.error e := by
  unfold EccentricAnomaly
  cases h : EccentricAnomalyCount u M ecc with
  | error e1 => simp
  | ok p => obtain ⟨E1, n1⟩ := p; simp

/-- Claim C1: for every mean anomaly `M` and eccentricity `0 ≤ ecc < 1`, any
value `E` that `EccentricAnomaly(M, ecc)` returns satisfies
`|E - ecc * sin E - M| ≤ 10 * mach_eps` (for a machine epsilon that is not
negative). -/
theorem EccentricAnomaly_residual_le (u : Utils S) (M ecc E : S)
    (heps : 0 ≤ u.mach_eps) (h0 : 0 ≤ ecc) (h1 : ecc < 1)
    (h : EccentricAnomaly u M ecc = Except.ok E) :
    |E - ecc * u.sin E - M| ≤ 10 * u.mach_eps := by
  obtain ⟨n, hn⟩ := (EccentricAnomaly_ok_iff u M ecc E).1 h
  unfold EccentricAnomalyCount at hn
  by_cases hpos : ecc > 0
  · simp only [if_pos hpos] at hn
    obtain ⟨k, _, _, hE, _, hk, _⟩ := (newtonLoop_ok_iff u M ecc _ _ _ _ _ _).1 hn
    rw [← hE] at hk
    exact hk
  · simp only [if_neg hpos] at hn
    injection hn with hn
    injection hn with hE _
    have hz : ecc = 0 := le_antisymm (not_lt.1 hpos) h0
    subst hz
    subst hE
    have h10 : (0 : S) ≤ 10 * u.mach_eps := mul_nonneg (by norm_num) heps
    simpa using h10

/-- Claim C2: for every `M`, `EccentricAnomaly(M, 0)` returns exactly `M`; the
counting solver shows that no Newton update was performed, and no error is
raised. -/
theorem EccentricAnomaly_zero_ecc (u : Utils S) (M : S) :
    EccentricAnomaly u M 0 = Except.ok M ∧
      EccentricAnomalyCount u M 0 = Except.ok (M, 0) := by
  simp [EccentricAnomaly, EccentricAnomalyCount]

/-- The solver in terms of the iterates of `newtonStep`: for `ecc > 0` it
returns the first of the iterates `1, ..., STARRY_KEPLER_MAX_ITER + 1` that
passes the test of line 52, and throws the convergence error, and no other,
exactly when none of them passes it. -/
theorem EccentricAnomaly_iterates (u : Utils S) (M ecc : S) (hecc : 0 < ecc) :
    (∀ E, EccentricAnomaly u M ecc = Except.ok E ↔
      ∃ k, 1 ≤ k ∧ k ≤ u.STARRY_KEPLER_MAX_ITER + 1 ∧
        E = newtonIterate u M ecc k ∧
        residual u M ecc (newtonIterate u M ecc k) ≤ 10 * u.mach_eps ∧
        ∀ j, 1 ≤ j → j < k →
          ¬ residual u M ecc (newtonIterate u M ecc j) ≤ 10 * u.mach_eps) ∧
    (EccentricAnomaly u M ecc = Except.error Error.ConvergenceError ↔
      ∀ k, 1 ≤ k → k ≤ u.STARRY_KEPLER_MAX_ITER + 1 →
        ¬ residual u M ecc (newtonIterate u M ecc k) ≤ 10 * u.mach_eps) ∧
    (∀ e, EccentricAnomaly u M ecc = Except.error e → e = Error.ConvergenceError) ∧
    (∀ E n, EccentricAnomalyCount u M ecc = Except.ok (E, n) →
      EccentricAnomaly u M ecc = Except.ok E ∧ 1 ≤ n ∧
        n ≤ u.STARRY_KEPLER_MAX_ITER + 1 ∧ E = newtonIterate u M ecc n ∧
        residual u M ecc E ≤ 10 * u.mach_eps) := by
  have hcount : EccentricAnomalyCount u M ecc =
      newtonLoop u M ecc (10 * u.mach_eps) (u.STARRY_KEPLER_MAX_ITER + 1) M 0 := by
    unfold EccentricAnomalyCount
    simp only [gt_iff_lt, if_pos hecc]
  refine ⟨fun E => ?_, ?_, fun e he => ?_, fun E n h => ?_⟩
  · rw [EccentricAnomaly_ok_iff, hcount]
    constructor
    · rintro ⟨n, hn⟩
      obtain ⟨k, hk1, hk2, hE, _, hk, hfirst⟩ := (newtonLoop_ok_iff u M ecc _ _ _ _ _ _).1 hn
      exact ⟨k, hk1, hk2, hE, hk, hfirst⟩
    · rintro ⟨k, hk1, hk2, hE, hk, hfirst⟩
      exact ⟨0 + k, (newtonLoop_ok_iff u M ecc _ _ _ _ _ _).2
        ⟨k, hk1, hk2, hE, rfl, hk, hfirst⟩⟩
  · rw [EccentricAnomaly_error_iff, hcount, newtonLoop_error_iff]
    constructor
    · rintro ⟨_, hall⟩; exact hall
    · intro hall; exact ⟨rfl, hall⟩
  · rw [EccentricAnomaly_error_iff, hcount, newtonLoop_error_iff] at he
    exact he.1
  · have h2 := h
    rw [hcount] at h2
    obtain ⟨k, hk1, hk2, hE, hn, hk, _⟩ := (newtonLoop_ok_iff u M ecc _ _ _ _ _ _).1 h2
    have hnk : n = k := by omega
    subst hnk
    refine ⟨(EccentricAnomaly_ok_iff u M ecc E).2 ⟨n, h⟩, hk1, hk2, hE, ?_⟩
    rw [hE]
    exact hk


/-- The solver over the reals at `M = 0`, `ecc = 1/2`: the first update lands
on `0`, whose residual is `0`. -/
theorem realCount_zero_half :
    EccentricAnomalyCount realUtils 0 (1 / 2) = Except.ok (0, 1) := by
  simp [EccentricAnomalyCount, newtonLoop, newtonStep, residual, realUtils]

/-- The value-only solver over the reals at `M = 0`, `ecc = 1/2`. -/
theorem realSolver_zero_half :
    EccentricAnomaly realUtils 0 (1 / 2) = Except.ok 0 := by
  unfold EccentricAnomaly
  rw [realCount_zero_half]

/-- Witness for claim C1, at `M = 0`, `ecc = 1/2` over the reals. -/
theorem EccentricAnomaly_residual_le_witness :
    EccentricAnomaly realUtils 0 (1 / 2) = Except.ok 0 ∧
      |(0 : ℝ) - (1 / 2) * realUtils.sin 0 - 0| ≤ 10 * realUtils.mach_eps :=
  ⟨realSolver_zero_half,
    EccentricAnomaly_residual_le realUtils 0 (1 / 2) 0
      (by simp [realUtils]) (by norm_num) (by norm_num) realSolver_zero_half⟩

/-- Reading an entry of a scaled derivative vector. -/
theorem tangent_map_mul (d : List S) (c : S) (i : Nat) :
    tangent (d.map (fun x => x * c)) i = tangent d i * c := by
  induction d generalizing i with
  | nil => simp [tangent]
  | cons x xs ih =>
    cases i with
    | zero => simp [tangent]
    | succ i => simpa [tangent] using ih i

/-- Reading an entry of the sum of two derivative vectors of equal size. -/
theorem tangent_zipWith_add (d1 d2 : List S) (h : d1.length = d2.length) (i : Nat) :
    tangent (List.zipWith (fun a b => a + b) d1 d2) i = tangent d1 i + tangent d2 i := by
  induction d1 generalizing d2 i with
  | nil =>
    cases d2 with
    | nil => simp [tangent]
    | cons y ys => simp at h
  | cons x xs ih =>
    cases d2 with
    | nil => simp at h
    | cons y ys =>
      cases i with
      | zero => simp [tangent]
      | succ i =>
        have hlen : xs.length = ys.length := by simpa using h
        simpa [tangent] using ih ys hlen i

/-- A derivative vector of size zero reads as zero everywhere. -/
theorem tangent_of_length_zero (d : List S) (h : d.length = 0) (i : Nat) :
    tangent d i = 0 := by
  have hd : d = [] := List.length_eq_zero.1 h
  subst hd
  simp [tangent]

/-- Claim C4: for autodiff inputs whose derivative vectors, when both present,
have the same size, the derivative-carrying solver fails exactly when the
value-only solver fails on the values; otherwise its value is the value-only
result `E` and each entry of its tangent is
`dM * 1/(1 - e*cos E) + de * sin E/(1 - e*cos E)`, an input without tangent
contributing zero. -/
theorem EccentricAnomalyAD_tangent (u : Utils S) (M ecc : AutoDiffScalar S)
    (hlen : M.derivatives.length = 0 ∨ ecc.derivatives.length = 0 ∨
      M.derivatives.length = ecc.derivatives.length) :
    (∀ e, EccentricAnomalyAD u M ecc = Except.error e ↔
      EccentricAnomaly u M.value ecc.value = Except.error e) ∧
    (∀ E, EccentricAnomaly u M.value ecc.value = Except.ok E →
      ∃ r, EccentricAnomalyAD u M ecc = Except.ok r ∧ r.value = E ∧
        r.derivatives.length = max M.derivatives.length ecc.derivatives.length ∧
        ∀ i, tangent r.derivatives i =
          tangent M.derivatives i * (1 / (1 - ecc.value * u.cos E)) +
          tangent ecc.derivatives i * (u.sin E / (1 - ecc.value * u.cos E))) := by
  constructor
  · intro e
    unfold EccentricAnomalyAD
    cases h : EccentricAnomaly u M.value ecc.value with
    | error e1 => simp [h]
    | ok E =>
      simp only [h]
      split_ifs <;> simp
  · intro E hE
    have hn2 : ∀ i, tangent ecc.derivatives i * norm2 u ecc.value E =
        tangent ecc.derivatives i * (u.sin E / (1 - ecc.value * u.cos E)) := by
      intro i
      simp [norm2, norm1, div_eq_mul_inv]
    unfold EccentricAnomalyAD
    simp only [hE]
    by_cases hM : M.derivatives.length = 0
    · by_cases hecc : ecc.derivatives.length = 0
      · refine ⟨⟨E, M.derivatives⟩, by simp [hM, hecc], rfl, by simp [hM, hecc], ?_⟩
        intro i
        simp [tangent_of_length_zero _ hM, tangent_of_length_zero _ hecc]
      · refine ⟨⟨E, ecc.derivatives.map (fun d => d * norm2 u ecc.value E)⟩,
          by simp [hM, hecc], rfl, by simp [hM], ?_⟩
        intro i
        simp only [tangent_map_mul, tangent_of_length_zero _ hM, hn2]
        ring
    · by_cases hecc : ecc.derivatives.length = 0
      · refine ⟨⟨E, M.derivatives.map (fun d => d * norm1 u ecc.value E)⟩,
          by simp [hM, hecc], rfl, by simp [hecc], ?_⟩
        intro i
        simp only [tangent_map_mul, tangent_of_length_zero _ hecc, norm1]
        ring
      · have heq : M.derivatives.length = ecc.derivatives.length := by
          rcases hlen with h | h | h
          · exact absurd h hM
          · exact absurd h hecc
          · exact h
        refine ⟨⟨E, List.zipWith (fun a b => a + b)
            (M.derivatives.map (fun d => d * norm1 u ecc.value E))
            (ecc.derivatives.map (fun d => d * norm2 u ecc.value E))⟩,
          by simp [hM, hecc], rfl, by simp [heq], ?_⟩
        intro i
        rw [tangent_zipWith_add _ _ (by simp [heq])]
        simp only [tangent_map_mul, hn2, norm1]

/-- Witness for claim C4: `M = (0, [1, 0])` and `ecc = (1/2, [0, 1])` over the
reals, where the value-only solver returns `0`. -/
theorem EccentricAnomalyAD_tangent_witness :
    EccentricAnomaly realUtils 0 (1 / 2) = Except.ok 0 ∧
      ∃ r, EccentricAnomalyAD realUtils ⟨0, [1, 0]⟩ ⟨1 / 2, [0, 1]⟩ = Except.ok r ∧
        r.value = 0 ∧
        r.derivatives.length = max 2 2 ∧
        ∀ i, tangent r.derivatives i =
          tangent [1, 0] i * (1 / (1 - (1 / 2) * realUtils.cos 0)) +
          tangent [0, 1] i * (realUtils.sin 0 / (1 - (1 / 2) * realUtils.cos 0)) :=
  ⟨realSolver_zero_half,
    (EccentricAnomalyAD_tangent realUtils ⟨0, [1, 0]⟩ ⟨1 / 2, [0, 1]⟩
      (Or.inr (Or.inr rfl))).2 0 realSolver_zero_half⟩

end SolverTheorems


/-! ## Theorems: the differentiation rule -/

section Derivative

open Filter Topology

/-- The sine is 1-Lipschitz. -/
theorem abs_sin_sub_sin_le (a b : ℝ) : |Real.sin a - Real.sin b| ≤ |a - b| := by
  have hs : |Real.sin ((a - b) / 2)| ≤ |(a - b) / 2| := Real.abs_sin_le_abs
  have hc : |Real.cos ((a + b) / 2)| ≤ 1 := Real.abs_cos_le_one _
  have h2 : |(2 : ℝ)| = 2 := abs_of_pos (by norm_num)
  rw [Real.sin_sub_sin a b, abs_mul, abs_mul, h2]
  rw [abs_div, h2] at hs
  nlinarith [abs_nonneg (Real.cos ((a + b) / 2)), abs_nonneg (a - b),
    abs_nonneg (Real.sin ((a - b) / 2))]

/-- Difference quotients of the sine are bounded by one. -/
theorem abs_dslope_sin_le_one (a b : ℝ) : |dslope Real.sin a b| ≤ 1 := by
  by_cases h : b = a
  · subst h
    rw [dslope_same, Real.deriv_sin]
    exact Real.abs_cos_le_one _
  · rw [dslope_of_ne _ h, slope_def_field, abs_div]
    have hpos : 0 < |b - a| := abs_pos.2 (sub_ne_zero.2 h)
    rw [div_le_one hpos]
    exact abs_sin_sub_sin_le b a

/-- A difference of sines as an increment times the difference quotient. -/
theorem sin_sub_sin_eq_dslope (a b : ℝ) :
    Real.sin b - Real.sin a = (b - a) * dslope Real.sin a b := by
  have := sub_smul_dslope Real.sin a b
  simpa [smul_eq_mul] using this.symm

/-- The denominator `1 - c * D` is positive for `0 ≤ c < 1` and `|D| ≤ 1`. -/
theorem kepler_denominator_pos (c D : ℝ) (hc0 : 0 ≤ c) (hc1 : c < 1) (hD : |D| ≤ 1) :
    0 < 1 - c * D := by
  have h1 : D ≤ 1 := (abs_le.1 hD).2
  nlinarith

/-- A function that solves an increment form of Kepler's equation on `s` is
continuous at `x0` within `s`. -/
theorem kepler_continuousWithinAt (s : Set ℝ) (x0 : ℝ) (F N : ℝ → ℝ) (c : ℝ)
    (hc0 : 0 ≤ c) (hc1 : c < 1) (hN : ∀ x ∈ s, |N x| ≤ 1)
    (heq : ∀ x ∈ s, (F x - F x0) - c * (Real.sin (F x) - Real.sin (F x0)) = (x - x0) * N x) :
    ContinuousWithinAt F s x0 := by
  have hbound : ∀ x ∈ s, dist (F x) (F x0) ≤ (1 - c)⁻¹ * |x - x0| := by
    intro x hx
    have h1 := heq x hx
    have h2 := abs_sin_sub_sin_le (F x) (F x0)
    have h3 : |(x - x0) * N x| ≤ |x - x0| := by
      rw [abs_mul]
      exact mul_le_of_le_one_right (abs_nonneg _) (hN x hx)
    have h4 : |F x - F x0| ≤ c * |F x - F x0| + |x - x0| := by
      have e : F x - F x0 = c * (Real.sin (F x) - Real.sin (F x0)) + (x - x0) * N x := by
        linarith
      calc |F x - F x0| = |c * (Real.sin (F x) - Real.sin (F x0)) + (x - x0) * N x| := by
            rw [← e]
        _ ≤ |c * (Real.sin (F x) - Real.sin (F x0))| + |(x - x0) * N x| := abs_add _ _
        _ ≤ c * |F x - F x0| + |x - x0| := by
            rw [abs_mul, abs_of_nonneg hc0]
            exact add_le_add (mul_le_mul_of_nonneg_left h2 hc0) h3
    have hpos : 0 < 1 - c := by linarith
    rw [Real.dist_eq, inv_mul_eq_div, le_div_iff₀ hpos]
    nlinarith
  have hlim : Tendsto (fun x => (1 - c)⁻¹ * |x - x0|) (𝓝[s] x0) (𝓝 0) := by
    have hcont : Continuous (fun x : ℝ => (1 - c)⁻¹ * |x - x0|) := by fun_prop
    have := (hcont.tendsto x0).mono_left (nhdsWithin_le_nhds (s := s))
    simpa using this
  refine tendsto_iff_dist_tendsto_zero.2 ?_
  exact squeeze_zero' (Eventually.of_forall fun x => dist_nonneg)
    (eventually_nhdsWithin_of_forall hbound) hlim

/-- The implicit derivative of a solution of the increment form of Kepler's
equation. -/
theorem kepler_hasDerivWithinAt (s : Set ℝ) (x0 : ℝ) (F N : ℝ → ℝ) (c n0 : ℝ)
    (hc0 : 0 ≤ c) (hc1 : c < 1) (hF : ContinuousWithinAt F s x0)
    (hN : Tendsto N (𝓝[s] x0) (𝓝 n0))
    (heq : ∀ x ∈ s, (F x - F x0) - c * (Real.sin (F x) - Real.sin (F x0)) = (x - x0) * N x) :
    HasDerivWithinAt F (n0 / (1 - c * Real.cos (F x0))) s x0 := by
  rw [hasDerivWithinAt_iff_tendsto_slope]
  have hD : Tendsto (fun x => dslope Real.sin (F x0) (F x)) (𝓝[s] x0)
      (𝓝 (Real.cos (F x0))) := by
    have h1 : ContinuousAt (dslope Real.sin (F x0)) (F x0) :=
      continuousAt_dslope_same.2 Real.differentiableAt_sin
    have h2 := h1.tendsto.comp hF
    have h3 : dslope Real.sin (F x0) (F x0) = Real.cos (F x0) := by
      rw [dslope_same, Real.deriv_sin]
    rw [h3] at h2
    exact h2
  have hden : (1 - c * Real.cos (F x0)) ≠ 0 :=
    (kepler_denominator_pos c _ hc0 hc1 (Real.abs_cos_le_one _)).ne'
  have hq : Tendsto (fun x => N x / (1 - c * dslope Real.sin (F x0) (F x))) (𝓝[s] x0)
      (𝓝 (n0 / (1 - c * Real.cos (F x0)))) :=
    hN.div (tendsto_const_nhds.sub (tendsto_const_nhds.mul hD)) hden
  have hq2 := hq.mono_left (nhdsWithin_mono x0 (Set.diff_subset (s := s) (t := {x0})))
  refine hq2.congr' ?_
  refine eventually_nhdsWithin_of_forall ?_
  intro x hx
  have hxs : x ∈ s := hx.1
  have hne : x ≠ x0 := hx.2
  have hpos := kepler_denominator_pos c (dslope Real.sin (F x0) (F x)) hc0 hc1
    (abs_dslope_sin_le_one _ _)
  have h1 := heq x hxs
  rw [sin_sub_sin_eq_dslope] at h1
  have hx0 : x - x0 ≠ 0 := sub_ne_zero.2 hne
  rw [slope_def_field]
  field_simp
  linarith

/-- Kepler's equation has a solution for every mean anomaly when `|e| ≤ 1`. -/
theorem kepler_surjective (e : ℝ) (he : |e| ≤ 1) :
    Function.Surjective (fun E : ℝ => E - e * Real.sin E) := by
  have hb : ∀ E : ℝ, |e * Real.sin E| ≤ 1 := by
    intro E
    rw [abs_mul]
    exact mul_le_one₀ he (abs_nonneg _) (Real.abs_sin_le_one E)
  have hcont : Continuous (fun E : ℝ => E - e * Real.sin E) := by fun_prop
  refine hcont.surjective ?_ ?_
  · refine tendsto_atTop_mono (f := fun E : ℝ => E - 1) ?_ ?_
    · intro E
      have := (abs_le.1 (hb E)).2
      show E - 1 ≤ E - e * Real.sin E
      linarith
    · exact tendsto_atTop_add_const_right _ _ tendsto_id
  · refine tendsto_atBot_mono (g := fun E : ℝ => E + 1) ?_ ?_
    · intro E
      have := (abs_le.1 (hb E)).1
      show E - e * Real.sin E ≤ E + 1
      linarith
    · exact tendsto_atBot_add_const_right _ _ tendsto_id

/-- The function `keplerSolution` solves Kepler's equation for `|ecc| ≤ 1`. -/
theorem keplerSolution_spec (M ecc : ℝ) (he : |ecc| ≤ 1) :
    keplerSolution M ecc - ecc * Real.sin (keplerSolution M ecc) = M :=
  Function.rightInverse_invFun (kepler_surjective ecc he) M

/-- Claim C5: let `0 ≤ ecc < 1` and let `Esol` solve Kepler's equation
`E - e * sin E = m` along the two lines through `(M, ecc)` (all `m` at this
`ecc`, all `e` in `[0,1)` at this `M`).  Then the difference quotients of
`Esol` in `M` converge to `norm1 = 1/(1 - ecc*cos E)` and those in `ecc`
(taken inside `[0,1)`, and two-sided when `0 < ecc`) converge to
`norm2 = sin E * norm1 = sin E/(1 - ecc*cos E)`, with `E = Esol M ecc`. -/
theorem EccentricAnomaly_derivative (Esol : ℝ → ℝ → ℝ) (M ecc : ℝ)
    (h0 : 0 ≤ ecc) (h1 : ecc < 1)
    (hM : ∀ m, Esol m ecc - ecc * Real.sin (Esol m ecc) = m)
    (he : ∀ x, 0 ≤ x → x < 1 → Esol M x - x * Real.sin (Esol M x) = M) :
    HasDerivAt (fun m => Esol m ecc) (norm1 realUtils ecc (Esol M ecc)) M ∧
    HasDerivWithinAt (fun x => Esol M x) (norm2 realUtils ecc (Esol M ecc))
      (Set.Ico 0 1) ecc ∧
    (0 < ecc → HasDerivAt (fun x => Esol M x) (norm2 realUtils ecc (Esol M ecc)) ecc) ∧
    norm2 realUtils ecc (Esol M ecc) =
      Real.sin (Esol M ecc) / (1 - ecc * Real.cos (Esol M ecc)) := by
  have hn2 : norm2 realUtils ecc (Esol M ecc) =
      Real.sin (Esol M ecc) / (1 - ecc * Real.cos (Esol M ecc)) := by
    simp [norm2, norm1, realUtils, div_eq_mul_inv]
  have hpartM : HasDerivAt (fun m => Esol m ecc) (norm1 realUtils ecc (Esol M ecc)) M := by
    rw [← hasDerivWithinAt_univ]
    have heq : ∀ m ∈ (Set.univ : Set ℝ),
        (Esol m ecc - Esol M ecc) -
          ecc * (Real.sin (Esol m ecc) - Real.sin (Esol M ecc)) = (m - M) * 1 := by
      intro m _
      have e1 := hM m
      have e2 := hM M
      linarith
    have hcont := kepler_continuousWithinAt Set.univ M (fun m => Esol m ecc)
      (fun _ => 1) ecc h0 h1 (fun _ _ => by simp) heq
    exact kepler_hasDerivWithinAt Set.univ M (fun m => Esol m ecc) (fun _ => 1) ecc 1
      h0 h1 hcont tendsto_const_nhds heq
  have hpartE : HasDerivWithinAt (fun x => Esol M x) (norm2 realUtils ecc (Esol M ecc))
      (Set.Ico 0 1) ecc := by
    rw [hn2]
    have heq : ∀ x ∈ Set.Ico (0 : ℝ) 1,
        (Esol M x - Esol M ecc) -
          ecc * (Real.sin (Esol M x) - Real.sin (Esol M ecc)) =
            (x - ecc) * Real.sin (Esol M x) := by
      intro x hx
      have e1 := he x hx.1 hx.2
      have e2 := he ecc h0 h1
      linear_combination e1 - e2
    have hcont := kepler_continuousWithinAt (Set.Ico 0 1) ecc (fun x => Esol M x)
      (fun x => Real.sin (Esol M x)) ecc h0 h1 (fun _ _ => Real.abs_sin_le_one _) heq
    have hN : Tendsto (fun x => Real.sin (Esol M x)) (𝓝[Set.Ico 0 1] ecc)
        (𝓝 (Real.sin (Esol M ecc))) :=
      (Real.continuous_sin.continuousAt.tendsto).comp hcont
    exact kepler_hasDerivWithinAt (Set.Ico 0 1) ecc (fun x => Esol M x)
      (fun x => Real.sin (Esol M x)) ecc (Real.sin (Esol M ecc)) h0 h1 hcont hN heq
  exact ⟨hpartM, hpartE, fun hpos => hpartE.hasDerivAt (Ico_mem_nhds hpos h1), hn2⟩

/-- Witness for claim C5: the solution function `keplerSolution` at `M = 1`,
`ecc = 1/2`. -/
theorem EccentricAnomaly_derivative_witness :
    HasDerivAt (fun m => keplerSolution m (1 / 2))
      (norm1 realUtils (1 / 2) (keplerSolution 1 (1 / 2))) 1 ∧
    HasDerivAt (fun x => keplerSolution 1 x)
      (norm2 realUtils (1 / 2) (keplerSolution 1 (1 / 2))) (1 / 2) := by
  have h := EccentricAnomaly_derivative keplerSolution 1 (1 / 2) (by norm_num) (by norm_num)
    (fun m => keplerSolution_spec m (1 / 2) (by rw [abs_le]; constructor <;> norm_num))
    (fun x hx0 hx1 => keplerSolution_spec 1 x
      (by rw [abs_le]; constructor <;> linarith))
  exact ⟨h.1, h.2.2.1 (by norm_num)⟩

end Derivative


/-! ## Theorems: rotation period and rotation phase -/

section Rotation

variable {S : Type} [LinearOrderedField S]

/-- The real angle wrap takes its values in `[0, 2π)`. -/
theorem realMod2pi_range (x : ℝ) :
    0 ≤ realUtils.mod2pi x ∧ realUtils.mod2pi x < 2 * realUtils.pi := by
  have hpos : (0 : ℝ) < 2 * Real.pi := by positivity
  have h1 : (⌊x / (2 * Real.pi)⌋ : ℝ) ≤ x / (2 * Real.pi) := Int.floor_le _
  have h2 : x / (2 * Real.pi) < ⌊x / (2 * Real.pi)⌋ + 1 := Int.lt_floor_add_one _
  rw [le_div_iff₀ hpos] at h1
  rw [div_lt_iff₀ hpos] at h2
  show 0 ≤ realMod2pi x ∧ realMod2pi x < 2 * Real.pi
  unfold realMod2pi
  constructor <;> nlinarith

/-- The override `Secondary::computeTheta0` writes `theta0` and nothing else. -/
theorem Secondary.computeTheta0_eq (u : Utils S) (s : Secondary S) :
    ∃ t, Secondary.computeTheta0 u s = { s with theta0 := t } := by
  unfold Secondary.computeTheta0
  cases s.prot with
  | INFINITY => exact ⟨_, rfl⟩
  | fin p => exact ⟨_, rfl⟩

/-- The result of `setRotPer(0)` on a plain body. -/
theorem body_setRotPer_zero (u : Utils S) (b : Body S) :
    Body.setRotPer u b 0 =
      Except.ok { b with prot := ExtScalar.INFINITY, angvelrot := 0, theta0 := 0 } := by
  simp [Body.setRotPer, Body.setRotPerWith, Body.computeTheta0, ExtScalar.scalarDiv]

/-- The result of `setRotPer(p)` for `p > 0` on a plain body. -/
theorem body_setRotPer_pos (u : Utils S) (b : Body S) (p : S) (hp : 0 < p) :
    Body.setRotPer u b p =
      Except.ok { b with
        prot := ExtScalar.fin (p * 86400),
        angvelrot := 2 * u.pi / (p * 86400),
        theta0 := 0 } := by
  simp [Body.setRotPer, Body.setRotPerWith, Body.computeTheta0, ExtScalar.scalarDiv,
    units.DayToSeconds, hp]

/-- The result of `setRotPer(0)` on a secondary. -/
theorem secondary_setRotPer_zero (u : Utils S) (s : Secondary S) :
    Secondary.setRotPer u s 0 =
      Except.ok { s with toBody := { s.toBody with
        prot := ExtScalar.INFINITY, angvelrot := 0, theta0 := 0 } } := by
  simp [Secondary.setRotPer, Body.setRotPerWith, Secondary.computeTheta0,
    ExtScalar.scalarDiv]

/-- The result of `setRotPer(p)` for `p > 0` on a secondary: the rotation
period, the angular velocity and `theta0` are written. -/
theorem secondary_setRotPer_pos (u : Utils S) (s : Secondary S) (p : S) (hp : 0 < p) :
    ∃ t, Secondary.setRotPer u s p =
      Except.ok { s with toBody := { s.toBody with
        prot := ExtScalar.fin (p * 86400),
        angvelrot := 2 * u.pi / (p * 86400),
        theta0 := t } } := by
  refine ⟨(Secondary.computeTheta0 u { s with toBody := { s.toBody with
    prot := ExtScalar.fin (p * 86400),
    angvelrot := 2 * u.pi / (p * 86400) } }).theta0, ?_⟩
  simp only [Secondary.setRotPer, Body.setRotPerWith, Secondary.computeTheta0,
    ExtScalar.scalarDiv, units.DayToSeconds, gt_iff_lt, hp, if_true]

/-- Counterexample to claim C6 as stated: on the sample body over the reals,
`setRotPer(0)` followed by `getRotPer()` returns `INFINITY`, which is not `0`. -/
theorem setRotPer_zero_then_getRotPer :
    Except.map Body.getRotPer (Body.setRotPer realUtils sampleBody 0) =
      Except.ok ExtScalar.INFINITY ∧
    Except.map Body.getRotPer (Body.setRotPer realUtils sampleBody 0) ≠
      Except.ok (ExtScalar.fin 0) := by
  rw [body_setRotPer_zero]
  simp [Body.getRotPer, ExtScalar.divScalar, Except.map]

/-- Claim C6, amended: on any body (a plain `Body` or a `Secondary`),
`setRotPer(0)` succeeds and stores the period `INFINITY`, and `getRotPer()`
then returns `INFINITY / 86400 = INFINITY`. -/
theorem getRotPer_setRotPer_zero (u : Utils S) :
    (∀ b : Body S,
      Except.map Body.getRotPer (Body.setRotPer u b 0) =
        Except.ok ExtScalar.INFINITY) ∧
    (∀ s : Secondary S,
      Except.map (fun s1 => Body.getRotPer s1.toBody) (Secondary.setRotPer u s 0) =
        Except.ok ExtScalar.INFINITY) := by
  constructor
  · intro b
    rw [body_setRotPer_zero]
    simp [Body.getRotPer, ExtScalar.divScalar, Except.map]
  · intro s
    rw [secondary_setRotPer_zero]
    simp [Body.getRotPer, ExtScalar.divScalar, Except.map]

/-- Claim C7: on any body (a plain `Body` or a `Secondary`), after
`setRotPer(0)` the phase `theta(time)` is `theta0` for every time; after
`setRotPer(p)` with `p > 0` the angular velocity is `2π / (p * 86400)`, the
reference time and delay are untouched, and `theta(time)` is
`mod2pi(theta0 + angvelrot * (time - tref - delay))`, which lies in `[0, 2π)`
because `mod2pi` wraps into that interval. -/
theorem theta_after_setRotPer (u : Utils S)
    (hwrap : ∀ x, 0 ≤ u.mod2pi x ∧ u.mod2pi x < 2 * u.pi) :
    (∀ b : Body S, ∃ b1, Body.setRotPer u b 0 = Except.ok b1 ∧
      ∀ time, Body.theta u b1 time = b1.theta0) ∧
    (∀ (b : Body S) (p : S), 0 < p → ∃ b1, Body.setRotPer u b p = Except.ok b1 ∧
      b1.angvelrot = 2 * u.pi / (p * 86400) ∧ b1.tref = b.tref ∧ b1.delay = b.delay ∧
      ∀ time,
        Body.theta u b1 time =
          u.mod2pi (b1.theta0 + b1.angvelrot * (time - b1.tref - b1.delay)) ∧
        0 ≤ Body.theta u b1 time ∧ Body.theta u b1 time < 2 * u.pi) ∧
    (∀ s : Secondary S, ∃ s1, Secondary.setRotPer u s 0 = Except.ok s1 ∧
      ∀ time, Body.theta u s1.toBody time = s1.theta0) ∧
    (∀ (s : Secondary S) (p : S), 0 < p →
      ∃ s1, Secondary.setRotPer u s p = Except.ok s1 ∧
      s1.angvelrot = 2 * u.pi / (p * 86400) ∧ s1.tref = s.tref ∧ s1.delay = s.delay ∧
      ∀ time,
        Body.theta u s1.toBody time =
          u.mod2pi (s1.theta0 + s1.angvelrot * (time - s1.tref - s1.delay)) ∧
        0 ≤ Body.theta u s1.toBody time ∧ Body.theta u s1.toBody time < 2 * u.pi) := by
  have hfinite : ∀ (b : Body S) (q : S), b.prot = ExtScalar.fin q → ∀ time,
      Body.theta u b time =
        u.mod2pi (b.theta0 + b.angvelrot * (time - b.tref - b.delay)) ∧
      0 ≤ Body.theta u b time ∧ Body.theta u b time < 2 * u.pi := by
    intro b q hq time
    have hth : Body.theta u b time =
        u.mod2pi (b.theta0 + b.angvelrot * (time - b.tref - b.delay)) := by
      simp [Body.theta, hq, ExtScalar.isInfinity]
    exact ⟨hth, by rw [hth]; exact (hwrap _).1, by rw [hth]; exact (hwrap _).2⟩
  have hinfinite : ∀ (b : Body S), b.prot = ExtScalar.INFINITY → ∀ time,
      Body.theta u b time = b.theta0 := by
    intro b hb time
    simp [Body.theta, hb, ExtScalar.isInfinity]
  refine ⟨fun b => ?_, fun b p hp => ?_, fun s => ?_, fun s p hp => ?_⟩
  · exact ⟨_, body_setRotPer_zero u b, hinfinite _ rfl⟩
  · exact ⟨_, body_setRotPer_pos u b p hp, rfl, rfl, rfl, hfinite _ _ rfl⟩
  · exact ⟨_, secondary_setRotPer_zero u s, hinfinite _ rfl⟩
  · obtain ⟨t, ht⟩ := secondary_setRotPer_pos u s p hp
    exact ⟨_, ht, rfl, rfl, rfl, hfinite _ _ rfl⟩

/-- Witness for claim C7: the sample body over the reals with `p = 1`. -/
theorem theta_after_setRotPer_witness :
    (∀ x, 0 ≤ realUtils.mod2pi x ∧ realUtils.mod2pi x < 2 * realUtils.pi) ∧
    (0 : ℝ) < 1 ∧
    ∃ b1, Body.setRotPer realUtils sampleBody 1 = Except.ok b1 ∧
      b1.angvelrot = 2 * realUtils.pi / (1 * 86400) ∧
      b1.tref = (sampleBody : Body ℝ).tref ∧ b1.delay = (sampleBody : Body ℝ).delay ∧
      ∀ time,
        Body.theta realUtils b1 time =
          realUtils.mod2pi (b1.theta0 + b1.angvelrot * (time - b1.tref - b1.delay)) ∧
        0 ≤ Body.theta realUtils b1 time ∧
        Body.theta realUtils b1 time < 2 * realUtils.pi :=
  ⟨realMod2pi_range, one_pos,
    (theta_after_setRotPer realUtils realMod2pi_range).2.1 sampleBody 1 one_pos⟩

end Rotation


/-! ## Theorems: orbital-element setters and getters -/

section Elements

variable {S : Type} [LinearOrderedField S]

/-- The override `Secondary::computeTheta0` leaves the orbital elements
untouched. -/
theorem Secondary.computeTheta0_elements (u : Utils S) (s : Secondary S) :
    (Secondary.computeTheta0 u s).a = s.a ∧
    (Secondary.computeTheta0 u s).porb = s.porb ∧
    (Secondary.computeTheta0 u s).inc = s.inc ∧
    (Secondary.computeTheta0 u s).ecc = s.ecc ∧
    (Secondary.computeTheta0 u s).w = s.w ∧
    (Secondary.computeTheta0 u s).Omega = s.Omega ∧
    (Secondary.computeTheta0 u s).lambda0 = s.lambda0 := by
  obtain ⟨t, ht⟩ := Secondary.computeTheta0_eq u s
  rw [ht]
  exact ⟨rfl, rfl, rfl, rfl, rfl, rfl, rfl⟩

/-- For `x > 0`, `setOrbPer(x)` succeeds and `getOrbPer()` then returns the
stored period in seconds, `x * 86400`. -/
theorem Secondary.getOrbPer_setOrbPer (u : Utils S) (s : Secondary S) (x : S)
    (hx : 0 < x) :
    Except.map Secondary.getOrbPer (Secondary.setOrbPer u s x) =
      Except.ok (x * 86400) := by
  simp only [Secondary.setOrbPer, gt_iff_lt, hx, if_true, Except.map,
    Secondary.getOrbPer, (Secondary.computeTheta0_elements u _).2.1,
    units.DayToSeconds]

/-- Claim C8, the code at the failing input `x = 1` (the default of the
constructor): `setOrbPer(1)` followed by `getOrbPer()` returns `86400`, the
period in seconds, not the `1` day that was set. -/
theorem getOrbPer_setOrbPer_one :
    Except.map Secondary.getOrbPer (Secondary.setOrbPer realUtils sampleSecondary 1) =
      Except.ok 86400 ∧
    Except.map Secondary.getOrbPer (Secondary.setOrbPer realUtils sampleSecondary 1) ≠
      Except.ok 1 := by
  have h := Secondary.getOrbPer_setOrbPer realUtils sampleSecondary 1 one_pos
  rw [one_mul] at h
  refine ⟨h, ?_⟩
  rw [h]
  intro hc
  injection hc with hc
  norm_num at hc

/-- The angle getters after the angle setters return the wrapped input: the
setters apply `mod2pi` to the value in degrees. -/
theorem Secondary.getAngle_setAngle (u : Utils S) (hpi : u.pi ≠ 0) (s : Secondary S)
    (x : S) :
    Secondary.getVarPi u (Secondary.setVarPi u s x) = u.mod2pi x ∧
    Secondary.getOmega u (Secondary.setOmega u s x) = u.mod2pi x ∧
    Secondary.getLambda0 u (Secondary.setLambda0 u s x) = u.mod2pi x := by
  refine ⟨?_, ?_, ?_⟩
  · simp only [Secondary.getVarPi, Secondary.setVarPi,
      (Secondary.computeTheta0_elements u _).2.2.2.2.1]
    field_simp
  · simp only [Secondary.getOmega, Secondary.setOmega]
    field_simp
  · simp only [Secondary.getLambda0, Secondary.setLambda0,
      (Secondary.computeTheta0_elements u _).2.2.2.2.2.2]
    field_simp

/-- The real angle wrap of `90` is `90 - 28π`. -/
theorem realMod2pi_ninety : realUtils.mod2pi 90 = 90 - 28 * Real.pi := by
  have hpos : (0 : ℝ) < 2 * Real.pi := by positivity
  have hfloor : ⌊(90 : ℝ) / (2 * Real.pi)⌋ = 14 := by
    rw [Int.floor_eq_iff]
    constructor
    · rw [le_div_iff₀ hpos]
      have := Real.pi_lt_d2
      push_cast
      linarith
    · rw [div_lt_iff₀ hpos]
      have := Real.pi_gt_three
      push_cast
      linarith
  show realMod2pi 90 = 90 - 28 * Real.pi
  unfold realMod2pi
  rw [hfloor]
  push_cast
  ring

/-- Claim C9, the code at the failing input `x = 90` (the default of the
constructor) over the reals: `setVarPi(90)` followed by `getVarPi()` returns
`90 - 28π`, which is not `90`; the same holds for `setOmega`/`getOmega` and
`setLambda0`/`getLambda0`. -/
theorem getVarPi_setVarPi_ninety :
    Secondary.getVarPi realUtils (Secondary.setVarPi realUtils sampleSecondary 90) =
      90 - 28 * Real.pi ∧
    Secondary.getOmega realUtils (Secondary.setOmega realUtils sampleSecondary 90) =
      90 - 28 * Real.pi ∧
    Secondary.getLambda0 realUtils (Secondary.setLambda0 realUtils sampleSecondary 90) =
      90 - 28 * Real.pi ∧
    (90 : ℝ) - 28 * Real.pi ≠ 90 := by
  have h := Secondary.getAngle_setAngle realUtils Real.pi_ne_zero sampleSecondary 90
  rw [realMod2pi_ninety] at h
  refine ⟨h.1, h.2.1, h.2.2, ?_⟩
  have := Real.pi_pos
  intro hc
  linarith

/-- Claim C10: for every input in the domain of the setter, the setter succeeds
and the getter returns the value that was set: `setSemi`/`getSemi` for
`x > 0`, `setEcc`/`getEcc` for `0 ≤ x < 1`, and `setInc`/`getInc` for
`0 ≤ x < 180` (degrees in, degrees out, through the stored radians; the
constant `pi` is not zero). -/
theorem getter_after_setter (u : Utils S) (hpi : u.pi ≠ 0) :
    (∀ (s : Secondary S) (x : S), 0 < x →
      ∃ s1, Secondary.setSemi u s x = Except.ok s1 ∧ Secondary.getSemi s1 = x) ∧
    (∀ (s : Secondary S) (x : S), 0 ≤ x → x < 1 →
      ∃ s1, Secondary.setEcc u s x = Except.ok s1 ∧ Secondary.getEcc s1 = x) ∧
    (∀ (s : Secondary S) (x : S), 0 ≤ x → x < 180 →
      ∃ s1, Secondary.setInc u s x = Except.ok s1 ∧ s1.inc = x * u.pi / 180 ∧
        Secondary.getInc u s1 = x) := by
  refine ⟨fun s x hx => ?_, fun s x hx0 hx1 => ?_, fun s x hx0 hx1 => ?_⟩
  · unfold Secondary.setSemi
    rw [if_pos hx]
    exact ⟨_, rfl, rfl⟩
  · unfold Secondary.setEcc
    rw [if_pos ⟨hx0, hx1⟩]
    refine ⟨_, rfl, ?_⟩
    simp only [Secondary.getEcc, (Secondary.computeTheta0_elements u _).2.2.2.1]
  · unfold Secondary.setInc
    rw [if_pos ⟨hx0, hx1⟩]
    refine ⟨_, rfl, rfl, ?_⟩
    simp only [Secondary.getInc]
    field_simp

/-- Witness for claim C10: the sample secondary over the reals with the
defaults of the constructor, `a = 50`, `ecc = 0` and `inc = 90`. -/
theorem getter_after_setter_witness :
    realUtils.pi ≠ 0 ∧
    ((0 : ℝ) < 50 ∧ ∃ s1, Secondary.setSemi realUtils sampleSecondary 50 = Except.ok s1 ∧
      Secondary.getSemi s1 = 50) ∧
    ((0 : ℝ) ≤ 0 ∧ (0 : ℝ) < 1 ∧
      ∃ s1, Secondary.setEcc realUtils sampleSecondary 0 = Except.ok s1 ∧
        Secondary.getEcc s1 = 0) ∧
    ((0 : ℝ) ≤ 90 ∧ (90 : ℝ) < 180 ∧
      ∃ s1, Secondary.setInc realUtils sampleSecondary 90 = Except.ok s1 ∧
        s1.inc = 90 * realUtils.pi / 180 ∧ Secondary.getInc realUtils s1 = 90) :=
  ⟨Real.pi_ne_zero,
    ⟨by norm_num,
      (getter_after_setter realUtils Real.pi_ne_zero).1 sampleSecondary 50 (by norm_num)⟩,
    ⟨le_refl 0, one_pos,
      (getter_after_setter realUtils Real.pi_ne_zero).2.1 sampleSecondary 0 (le_refl 0)
        one_pos⟩,
    ⟨by norm_num, by norm_num,
      (getter_after_setter realUtils Real.pi_ne_zero).2.2 sampleSecondary 90
        (by norm_num) (by norm_num)⟩⟩

end Elements


/-! ## Theorems: rejection of inputs outside the domain -/

section Rejection

variable {S : Type} [LinearOrderedField S]

/-- The outcome of `setRadius(r_)`: the radius is stored when `r_ > 0`,
otherwise the call throws and the object is as before. -/
theorem runCall_setRadius (b : Body S) (r_ : S) :
    runCall (Body.setRadiusCall r_) b =
      if r_ > 0 then (Except.ok (), { b with r := r_ })
      else (Except.error Error.ValueError, b) := by
  by_cases h : r_ > 0
  · simp [runCall, Body.setRadiusCall, h]
    rfl
  · simp [runCall, Body.setRadiusCall, h]

/-- The outcome of `setLuminosity(L_)`: the luminosity is stored when
`L_ ≥ 0`, otherwise the call throws and the object is as before. -/
theorem runCall_setLuminosity (b : Body S) (L_ : S) :
    runCall (Body.setLuminosityCall L_) b =
      if L_ ≥ 0 then (Except.ok (), { b with L := L_ })
      else (Except.error Error.ValueError, b) := by
  by_cases h : L_ ≥ 0
  · simp [runCall, Body.setLuminosityCall, h]
    rfl
  · simp [runCall, Body.setLuminosityCall, h]

/-- The outcome of `setRotPer(prot_)` on an object of any dynamic type: for
`prot_ < 0` the call throws and the object is as before. -/
theorem runCall_setRotPer {B : Type} (get : B → Body S) (set : B → Body S → B)
    (hook : B → B) (u : Utils S) (self : B) (prot_ : S) :
    runCall (Body.setRotPerCallWith get set hook u prot_) self =
      if prot_ > 0 then
        (Except.ok (),
          hook (set (set self { get self with
              prot := ExtScalar.fin (prot_ * units.DayToSeconds) })
            { get (set self { get self with
                prot := ExtScalar.fin (prot_ * units.DayToSeconds) }) with
              angvelrot := ExtScalar.scalarDiv (2 * u.pi)
                (get (set self { get self with
                  prot := ExtScalar.fin (prot_ * units.DayToSeconds) })).prot }))
      else if prot_ = 0 then
        (Except.ok (),
          hook (set (set self { get self with prot := ExtScalar.INFINITY })
            { get (set self { get self with prot := ExtScalar.INFINITY }) with
              angvelrot := ExtScalar.scalarDiv (2 * u.pi)
                (get (set self { get self with prot := ExtScalar.INFINITY })).prot }))
      else (Except.error Error.ValueError, self) := by
  by_cases h : prot_ > 0
  · simp [runCall, Body.setRotPerCallWith, h]
    rfl
  · by_cases h0 : prot_ = 0
    · simp [runCall, Body.setRotPerCallWith, h0]
      rfl
    · simp [runCall, Body.setRotPerCallWith, h, h0]

/-- The statement sequence `setRotPerCall` and the function `Body.setRotPer`
agree: the same outcome and, when the call returns, the same object. -/
theorem runCall_setRotPer_body (u : Utils S) (b : Body S) (prot_ : S) :
    runCall (Body.setRotPerCall u prot_) b =
      match Body.setRotPer u b prot_ with
      | Except.ok b1 => (Except.ok (), b1)
      | Except.error e => (Except.error e, b) := by
  unfold Body.setRotPerCall
  rw [runCall_setRotPer]
  unfold Body.setRotPer Body.setRotPerWith
  by_cases h : prot_ > 0
  · simp only [h, if_true]
    rfl
  · by_cases h0 : prot_ = 0
    · simp only [h, h0, if_true, if_false, gt_iff_lt, lt_self_iff_false]
      rfl
    · simp only [h, h0, if_false]

/-- Claim C11: the three setters of `Body` reject exactly the inputs outside
their domain, with a `ValueError`, and a rejected call leaves the object as it
was: `setRadius(r)` fails iff `r ≤ 0` (so `setRadius(0)` and `setRadius(-1)`
fail), `setLuminosity(L)` fails iff `L < 0`, and `setRotPer(p)` fails iff
`p < 0` (on an object of any dynamic type); `p = 0` is accepted and stores the
period `INFINITY`. -/
theorem body_setters_reject (u : Utils S) (b : Body S) (x : S) :
    ((runCall (Body.setRadiusCall x) b).1 = Except.error Error.ValueError ↔ x ≤ 0) ∧
    runCall (Body.setRadiusCall x) b =
      (if x ≤ 0 then (Except.error Error.ValueError, b)
        else (Except.ok (), { b with r := x })) ∧
    runCall (Body.setRadiusCall 0) b = (Except.error Error.ValueError, b) ∧
    runCall (Body.setRadiusCall (-1)) b = (Except.error Error.ValueError, b) ∧
    ((runCall (Body.setLuminosityCall x) b).1 = Except.error Error.ValueError ↔ x < 0) ∧
    runCall (Body.setLuminosityCall x) b =
      (if x < 0 then (Except.error Error.ValueError, b)
        else (Except.ok (), { b with L := x })) ∧
    ((runCall (Body.setRotPerCall u x) b).1 = Except.error Error.ValueError ↔ x < 0) ∧
    runCall (Body.setRotPerCall u x) b =
      (if x < 0 then (Except.error Error.ValueError, b)
        else (Except.ok (), (runCall (Body.setRotPerCall u x) b).2)) ∧
    runCall (Body.setRotPerCall u 0) b =
      (Except.ok (), { b with prot := ExtScalar.INFINITY, angvelrot := 0, theta0 := 0 }) ∧
    (∀ {B : Type} (get : B → Body S) (set : B → Body S → B) (hook : B → B) (self : B),
      ((runCall (Body.setRotPerCallWith get set hook u x) self).1 =
          Except.error Error.ValueError ↔ x < 0) ∧
      runCall (Body.setRotPerCallWith get set hook u x) self =
        (if x < 0 then (Except.error Error.ValueError, self)
          else (Except.ok (), (runCall (Body.setRotPerCallWith get set hook u x) self).2))) := by
  have hrot : ∀ {B : Type} (get : B → Body S) (set : B → Body S → B) (hook : B → B)
      (self : B),
      ((runCall (Body.setRotPerCallWith get set hook u x) self).1 =
          Except.error Error.ValueError ↔ x < 0) ∧
      runCall (Body.setRotPerCallWith get set hook u x) self =
        (if x < 0 then (Except.error Error.ValueError, self)
          else (Except.ok (), (runCall (Body.setRotPerCallWith get set hook u x) self).2)) := by
    intro B get set hook self
    rw [runCall_setRotPer]
    rcases lt_trichotomy x 0 with h | h | h
    · have h1 : ¬ x > 0 := not_lt.2 h.le
      have h2 : ¬ x = 0 := h.ne
      simp [h, h1, h2]
    · subst h
      simp
    · have h1 : ¬ x < 0 := not_lt.2 h.le
      simp [h, h1]
  refine ⟨?_, ?_, ?_, ?_, ?_, ?_, (hrot _ _ _ b).1, (hrot _ _ _ b).2, ?_,
    fun get set hook self => hrot get set hook self⟩
  · rw [runCall_setRadius]
    by_cases h : x > 0
    · simp [h, not_le.2 h]
    · simp [h, not_lt.1 h]
  · rw [runCall_setRadius]
    by_cases h : x > 0
    · simp [h, not_le.2 h]
    · simp [h, not_lt.1 h]
  · rw [runCall_setRadius]; simp
  · rw [runCall_setRadius]; simp
  · rw [runCall_setLuminosity]
    by_cases h : x ≥ 0
    · simp [h, not_lt.2 h]
    · simp [h, not_le.1 h]
  · rw [runCall_setLuminosity]
    by_cases h : x ≥ 0
    · simp [h, not_lt.2 h]
    · simp [h, not_le.1 h]
  · rw [runCall_setRotPer_body, body_setRotPer_zero]

/-- The statement sequence `setSemiCall` and the function `setSemi` agree, and
a call that throws leaves the object as it was. -/
theorem runCall_setSemi (u : Utils S) (s : Secondary S) (a_ : S) :
    runCall (Secondary.setSemiCall u a_) s =
      match Secondary.setSemi u s a_ with
      | Except.ok s1 => (Except.ok (), s1)
      | Except.error e => (Except.error e, s) := by
  by_cases h : a_ > 0
  · simp [runCall, Secondary.setSemiCall, Secondary.setSemi, h]
    rfl
  · simp [runCall, Secondary.setSemiCall, Secondary.setSemi, h]

/-- The statement sequence `setOrbPerCall` and the function `setOrbPer` agree,
and a call that throws leaves the object as it was. -/
theorem runCall_setOrbPer (u : Utils S) (s : Secondary S) (porb_ : S) :
    runCall (Secondary.setOrbPerCall u porb_) s =
      match Secondary.setOrbPer u s porb_ with
      | Except.ok s1 => (Except.ok (), s1)
      | Except.error e => (Except.error e, s) := by
  by_cases h : porb_ > 0
  · simp [runCall, Secondary.setOrbPerCall, Secondary.setOrbPer, h]
    rfl
  · simp [runCall, Secondary.setOrbPerCall, Secondary.setOrbPer, h]

/-- The statement sequence `setIncCall` and the function `setInc` agree, and a
call that throws leaves the object as it was. -/
theorem runCall_setInc (u : Utils S) (s : Secondary S) (inc_ : S) :
    runCall (Secondary.setIncCall u inc_) s =
      match Secondary.setInc u s inc_ with
      | Except.ok s1 => (Except.ok (), s1)
      | Except.error e => (Except.error e, s) := by
  by_cases h : inc_ ≥ 0 ∧ inc_ < 180
  · simp only [runCall, Secondary.setIncCall, Secondary.setInc, if_pos h]
    rfl
  · simp only [runCall, Secondary.setIncCall, Secondary.setInc, if_neg h]
    rfl

/-- The statement sequence `setEccCall` and the function `setEcc` agree, and a
call that throws leaves the object as it was. -/
theorem runCall_setEcc (u : Utils S) (s : Secondary S) (ecc_ : S) :
    runCall (Secondary.setEccCall u ecc_) s =
      match Secondary.setEcc u s ecc_ with
      | Except.ok s1 => (Except.ok (), s1)
      | Except.error e => (Except.error e, s) := by
  by_cases h : ecc_ ≥ 0 ∧ ecc_ < 1
  · simp only [runCall, Secondary.setEccCall, Secondary.setEcc, if_pos h]
    rfl
  · simp only [runCall, Secondary.setEccCall, Secondary.setEcc, if_neg h]
    rfl

/-- Claim C12: the four validating setters of `Secondary` reject exactly the
inputs outside their domain, with a `ValueError`, and a rejected call leaves
the object (every orbital element and every cached quantity) as it was:
`setSemi(a)` fails iff not `a > 0`, `setOrbPer(p)` fails iff not `p > 0`,
`setInc(i)` fails iff `i` is outside `[0, 180)` (so `setInc(180)` fails), and
`setEcc(e)` fails iff `e` is outside `[0, 1)` (so `setEcc(1)` fails). -/
theorem secondary_setters_reject (u : Utils S) (s : Secondary S) (x : S) :
    ((runCall (Secondary.setSemiCall u x) s).1 = Except.error Error.ValueError ↔ ¬ x > 0) ∧
    runCall (Secondary.setSemiCall u x) s =
      (if x > 0 then (Except.ok (), (runCall (Secondary.setSemiCall u x) s).2)
        else (Except.error Error.ValueError, s)) ∧
    ((runCall (Secondary.setOrbPerCall u x) s).1 = Except.error Error.ValueError ↔
      ¬ x > 0) ∧
    runCall (Secondary.setOrbPerCall u x) s =
      (if x > 0 then (Except.ok (), (runCall (Secondary.setOrbPerCall u x) s).2)
        else (Except.error Error.ValueError, s)) ∧
    ((runCall (Secondary.setIncCall u x) s).1 = Except.error Error.ValueError ↔
      ¬ (0 ≤ x ∧ x < 180)) ∧
    runCall (Secondary.setIncCall u x) s =
      (if 0 ≤ x ∧ x < 180 then (Except.ok (), (runCall (Secondary.setIncCall u x) s).2)
        else (Except.error Error.ValueError, s)) ∧
    runCall (Secondary.setIncCall u 180) s = (Except.error Error.ValueError, s) ∧
    ((runCall (Secondary.setEccCall u x) s).1 = Except.error Error.ValueError ↔
      ¬ (0 ≤ x ∧ x < 1)) ∧
    runCall (Secondary.setEccCall u x) s =
      (if 0 ≤ x ∧ x < 1 then (Except.ok (), (runCall (Secondary.setEccCall u x) s).2)
        else (Except.error Error.ValueError, s)) ∧
    runCall (Secondary.setEccCall u 1) s = (Except.error Error.ValueError, s) := by
  have hsemi : ∀ y : S, runCall (Secondary.setSemiCall u y) s =
      (if y > 0 then (Except.ok (), (runCall (Secondary.setSemiCall u y) s).2)
        else (Except.error Error.ValueError, s)) := by
    intro y
    by_cases h : y > 0
    · rw [runCall_setSemi]; simp only [Secondary.setSemi, if_pos h]
    · rw [runCall_setSemi]; simp only [Secondary.setSemi, if_neg h]
  have horb : ∀ y : S, runCall (Secondary.setOrbPerCall u y) s =
      (if y > 0 then (Except.ok (), (runCall (Secondary.setOrbPerCall u y) s).2)
        else (Except.error Error.ValueError, s)) := by
    intro y
    by_cases h : y > 0
    · rw [runCall_setOrbPer]; simp only [Secondary.setOrbPer, if_pos h]
    · rw [runCall_setOrbPer]; simp only [Secondary.setOrbPer, if_neg h]
  have hinc : ∀ y : S, runCall (Secondary.setIncCall u y) s =
      (if 0 ≤ y ∧ y < 180 then (Except.ok (), (runCall (Secondary.setIncCall u y) s).2)
        else (Except.error Error.ValueError, s)) := by
    intro y
    by_cases h : 0 ≤ y ∧ y < 180
    · rw [runCall_setInc]; simp only [Secondary.setInc, ge_iff_le, if_pos h]
    · rw [runCall_setInc]; simp only [Secondary.setInc, ge_iff_le, if_neg h]
  have hecc : ∀ y : S, runCall (Secondary.setEccCall u y) s =
      (if 0 ≤ y ∧ y < 1 then (Except.ok (), (runCall (Secondary.setEccCall u y) s).2)
        else (Except.error Error.ValueError, s)) := by
    intro y
    by_cases h : 0 ≤ y ∧ y < 1
    · rw [runCall_setEcc]; simp only [Secondary.setEcc, ge_iff_le, if_pos h]
    · rw [runCall_setEcc]; simp only [Secondary.setEcc, ge_iff_le, if_neg h]
  refine ⟨?_, hsemi x, ?_, horb x, ?_, hinc x, ?_, ?_, hecc x, ?_⟩
  · rw [hsemi x]
    by_cases h : x > 0
    · simp [h]
    · simp [h]
  · rw [horb x]
    by_cases h : x > 0
    · simp [h]
    · simp [h]
  · rw [hinc x]
    by_cases h : 0 ≤ x ∧ x < 180
    · rw [if_pos h]; simp [h]
    · rw [if_neg h]; simp [h]
  · rw [hinc 180]
    simp
  · rw [hecc x]
    by_cases h : 0 ≤ x ∧ x < 1
    · rw [if_pos h]; simp [h]
    · rw [if_neg h]; simp [h]
  · rw [hecc 1]
    simp

end Rejection


/-! ## Theorems: total and occulted flux -/

section Flux

variable {S : Type} [LinearOrderedField S]

/-- The function `setZero` keeps the size of a row and zeroes its entries. -/
theorem setZero_eq_replicate (v : List S) : setZero v = List.replicate v.length 0 := by
  induction v with
  | nil => rfl
  | cons x xs ih =>
    simp only [setZero, List.map_cons, List.length_cons, List.replicate_succ] at ih ⊢
    rw [ih]

/-- Adding to a row the difference of the row with itself gives the row. -/
theorem rowAdd_rowSub_self (v : List S) : rowAdd v (rowSub v v) = v := by
  induction v with
  | nil => rfl
  | cons x xs ih =>
    simp only [rowAdd, rowSub, List.zipWith_cons_cons] at ih ⊢
    rw [ih]
    simp

/-- The result of `computeTotal` for a bound `getFlux`. -/
theorem computeTotalWith_flux (gf : S → S → S → S → Bool → List S) (u : Utils S)
    (b : Body S) (time : S) :
    (Body.computeTotalWith gf u b time).flux_cur =
      (Body.computeTotalWith gf u b time).flux_tot ∧
    (Body.computeTotalWith gf u b time).flux_tot =
      (if b.L = 0 then List.replicate b.flux_tot.length 0
        else rowScale b.L (gf (Body.theta u b time) 0 0 0 false)) ∧
    Body.computeTotalWith gf u b time =
      { b with
        flux_cur := (Body.computeTotalWith gf u b time).flux_tot,
        flux_tot := (Body.computeTotalWith gf u b time).flux_tot } := by
  unfold Body.computeTotalWith
  by_cases h : b.L = 0
  · rw [if_neg (not_not.2 h), if_pos h, setZero_eq_replicate]
    exact ⟨rfl, rfl, rfl⟩
  · rw [if_pos h, if_neg h]
    exact ⟨rfl, rfl, rfl⟩

/-- Reading a channel of a row of zeros. -/
theorem channel_replicate_zero (n k : Nat) : channel (List.replicate n (0 : S)) k = 0 := by
  unfold channel
  by_cases hk : k < n
  · rw [List.getD_eq_getElem _ _ (by simpa using hk)]
    simp
  · rw [List.getD_eq_default _ _ (by simpa using hk)]

/-- Reading a channel of a scaled row. -/
theorem channel_rowScale (a : S) (v : List S) (k : Nat) :
    channel (rowScale a v) k = a * channel v k := by
  induction v generalizing k with
  | nil => simp [channel, rowScale]
  | cons x xs ih =>
    cases k with
    | zero => simp [channel, rowScale]
    | succ k => simpa [channel, rowScale] using ih k

/-- Claim C13: for every body (a plain `Body` or a `Secondary`) and every
time, after `computeTotal(time)` the current flux equals the total flux; when
the luminosity is `0` the total flux is a row of zeros, zero in every channel,
and otherwise it is `L` times the flux `getFlux(theta(time), 0, 0, 0)` of the
body. -/
theorem computeTotal_flux (c : Collaborators S) (u : Utils S) (time : S) :
    (∀ b : Body S,
      (Body.computeTotal c u b time).flux_cur = (Body.computeTotal c u b time).flux_tot ∧
      (Body.computeTotal c u b time).flux_tot =
        (if b.L = 0 then List.replicate b.flux_tot.length 0
          else rowScale b.L (Body.getFlux c b (Body.theta u b time) 0 0 0 false)) ∧
      ∀ k, channel (Body.computeTotal c u b time).flux_tot k =
        (if b.L = 0 then 0
          else b.L * channel (Body.getFlux c b (Body.theta u b time) 0 0 0 false) k)) ∧
    (∀ s : Secondary S,
      (Secondary.computeTotal c u s time).flux_cur =
        (Secondary.computeTotal c u s time).flux_tot ∧
      (Secondary.computeTotal c u s time).flux_tot =
        (if s.L = 0 then List.replicate s.flux_tot.length 0
          else rowScale s.L
            (Secondary.getFlux c s (Body.theta u s.toBody time) 0 0 0 false)) ∧
      ∀ k, channel (Secondary.computeTotal c u s time).flux_tot k =
        (if s.L = 0 then 0
          else s.L *
            channel (Secondary.getFlux c s (Body.theta u s.toBody time) 0 0 0 false) k)) := by
  have hgen : ∀ (gf : S → S → S → S → Bool → List S) (b : Body S) (k : Nat),
      channel (Body.computeTotalWith gf u b time).flux_tot k =
        (if b.L = 0 then 0 else b.L * channel (gf (Body.theta u b time) 0 0 0 false) k) := by
    intro gf b k
    rw [(computeTotalWith_flux gf u b time).2.1]
    by_cases hL : b.L = 0
    · rw [if_pos hL, if_pos hL, channel_replicate_zero]
    · rw [if_neg hL, if_neg hL, channel_rowScale]
  constructor
  · intro b
    obtain ⟨h1, h2, _⟩ := computeTotalWith_flux (Body.getFlux c b) u b time
    exact ⟨h1, h2, hgen (Body.getFlux c b) b⟩
  · intro s
    obtain ⟨h1, h2, _⟩ := computeTotalWith_flux (Secondary.getFlux c s) u s.toBody time
    exact ⟨h1, h2, hgen (Secondary.getFlux c s) s.toBody⟩

/-- The rotation phase does not depend on the flux members. -/
theorem theta_computeTotalWith (gf : S → S → S → S → Bool → List S) (u : Utils S)
    (b : Body S) (time t : S) :
    Body.theta u (Body.computeTotalWith gf u b time) t = Body.theta u b t := by
  rw [(computeTotalWith_flux gf u b time).2.2]
  rfl

/-- The luminosity is not changed by `computeTotal`. -/
theorem L_computeTotalWith (gf : S → S → S → S → Bool → List S) (u : Utils S)
    (b : Body S) (time : S) :
    (Body.computeTotalWith gf u b time).L = b.L := by
  rw [(computeTotalWith_flux gf u b time).2.2]

/-- For a bound `getFlux` that does not see an occultor of radius zero,
`computeTotal` followed by `occult` with `ro = 0` leaves the current flux equal
to the total flux. -/
theorem occultWith_zero_radius (gf : S → S → S → S → Bool → List S) (u : Utils S)
    (hzero : ∀ theta xo yo : S, gf theta xo yo 0 false = gf theta 0 0 0 false)
    (b : Body S) (time xo yo : S) :
    (Body.occultWith gf u (Body.computeTotalWith gf u b time) time xo yo 0).flux_cur =
      (Body.occultWith gf u (Body.computeTotalWith gf u b time) time xo yo 0).flux_tot := by
  obtain ⟨h1, h2, _⟩ := computeTotalWith_flux gf u b time
  unfold Body.occultWith
  rw [L_computeTotalWith, theta_computeTotalWith]
  by_cases hL : b.L = 0
  · rw [if_neg (not_not.2 hL)]
    exact h1
  · rw [if_pos hL]
    show rowAdd (Body.computeTotalWith gf u b time).flux_cur
        (rowSub (rowScale b.L (gf (Body.theta u b time) xo yo 0 false))
          (Body.computeTotalWith gf u b time).flux_tot) =
      (Body.computeTotalWith gf u b time).flux_tot
    rw [h1, h2, if_neg hL, hzero (Body.theta u b time) xo yo, rowAdd_rowSub_self]

/-- Claim C14: for every body (a plain `Body` or a `Secondary`), time and
occultor centre `(xo, yo)`, `computeTotal(time)` followed immediately by
`occult(time, xo, yo, 0)` leaves the current flux equal to the total flux,
given that the flux of a map with an occultor of radius zero is its
unocculted flux. -/
theorem occult_zero_radius (c : Collaborators S) (u : Utils S)
    (hzero : ∀ (m : Map S) (theta xo yo : S),
      c.flux m theta xo yo 0 false = c.flux m theta 0 0 0 false)
    (time xo yo : S) :
    (∀ b : Body S,
      (Body.occult c u (Body.computeTotal c u b time) time xo yo 0).flux_cur =
        (Body.occult c u (Body.computeTotal c u b time) time xo yo 0).flux_tot) ∧
    (∀ s : Secondary S,
      (Secondary.occult c u (Secondary.computeTotal c u s time) time xo yo 0).flux_cur =
        (Secondary.occult c u (Secondary.computeTotal c u s time) time xo yo 0).flux_tot) := by
  constructor
  · intro b
    have hmap : (Body.computeTotal c u b time).toMap = b.toMap := by
      unfold Body.computeTotal
      rw [(computeTotalWith_flux (Body.getFlux c b) u b time).2.2]
    have hgf : Body.getFlux c (Body.computeTotal c u b time) = Body.getFlux c b := by
      funext theta x y r g
      simp only [Body.getFlux, hmap]
    unfold Body.occult
    rw [hgf]
    exact occultWith_zero_radius (Body.getFlux c b) u (fun theta x y => hzero _ _ _ _)
      b time xo yo
  · intro s
    exact occultWith_zero_radius (Secondary.getFlux c s) u (fun theta x y => hzero _ _ _ _)
      s.toBody time xo yo

/-- The sample flux does not see an occultor of radius zero. -/
theorem sampleCollaborators_zero_radius (m : Map ℝ) (theta xo yo : ℝ) :
    (sampleCollaborators : Collaborators ℝ).flux m theta xo yo 0 false =
      (sampleCollaborators : Collaborators ℝ).flux m theta 0 0 0 false := by
  simp [sampleCollaborators]

/-- Witness for claim C14: the sample collaborators and the sample body over
the reals, with the occultor centre `(1/2, 0)`. -/
theorem occult_zero_radius_witness :
    (∀ (m : Map ℝ) (theta xo yo : ℝ),
      (sampleCollaborators : Collaborators ℝ).flux m theta xo yo 0 false =
        (sampleCollaborators : Collaborators ℝ).flux m theta 0 0 0 false) ∧
    (Body.occult sampleCollaborators realUtils
        (Body.computeTotal sampleCollaborators realUtils sampleBody 0) 0 (1 / 2) 0 0).flux_cur =
      (Body.occult sampleCollaborators realUtils
        (Body.computeTotal sampleCollaborators realUtils sampleBody 0) 0 (1 / 2) 0 0).flux_tot :=
  ⟨sampleCollaborators_zero_radius,
    (occult_zero_radius sampleCollaborators realUtils sampleCollaborators_zero_radius
      0 (1 / 2) 0).1 sampleBody⟩

/-- Reading a channel of an entrywise combination of two rows of equal size. -/
theorem channel_zipWith (f : S → S → S) (hf : f 0 0 = 0) (v w : List S)
    (h : v.length = w.length) (k : Nat) :
    channel (List.zipWith f v w) k = f (channel v k) (channel w k) := by
  induction v generalizing w k with
  | nil =>
    cases w with
    | nil => simp [channel, hf]
    | cons y ys => simp at h
  | cons x xs ih =>
    cases w with
    | nil => simp at h
    | cons y ys =>
      cases k with
      | zero => simp [channel]
      | succ k =>
        have hlen : xs.length = ys.length := by simpa using h
        simpa [channel] using ih ys hlen k

/-- Two rows of equal size that agree in every channel are equal. -/
theorem eq_of_channel_eq (v w : List S) (hl : v.length = w.length)
    (h : ∀ k, channel v k = channel w k) : v = w := by
  apply List.ext_getElem hl
  intro k h1 h2
  have := h k
  unfold channel at this
  rw [List.getD_eq_getElem _ _ h1, List.getD_eq_getElem _ _ h2] at this
  exact this

/-- One call of `occult` writes the current flux and nothing else; on rows of
a common size it adds, in every channel, the occulted flux minus the total
flux. -/
theorem occultWith_step (gf : S → S → S → S → Bool → List S) (u : Utils S)
    (b : Body S) (time xo yo ro : S) :
    Body.occultWith gf u b time xo yo ro =
      { b with flux_cur := (Body.occultWith gf u b time xo yo ro).flux_cur } ∧
    (b.L = 0 → Body.occultWith gf u b time xo yo ro = b) ∧
    ∀ n, b.flux_cur.length = n → b.flux_tot.length = n →
      (gf (Body.theta u b time) xo yo ro false).length = n →
      (Body.occultWith gf u b time xo yo ro).flux_cur.length = n ∧
      (b.L ≠ 0 → ∀ k, channel (Body.occultWith gf u b time xo yo ro).flux_cur k =
        channel b.flux_cur k +
          (b.L * channel (gf (Body.theta u b time) xo yo ro false) k -
            channel b.flux_tot k)) := by
  unfold Body.occultWith
  by_cases hL : b.L = 0
  · rw [if_neg (not_not.2 hL)]
    exact ⟨rfl, fun _ => rfl, fun n h1 _ _ => ⟨h1, fun h => absurd hL h⟩⟩
  · rw [if_pos hL]
    refine ⟨rfl, fun h => absurd h hL, fun n h1 h2 h3 => ?_⟩
    have hs : (rowScale b.L (gf (Body.theta u b time) xo yo ro false)).length = n := by
      simp [rowScale, h3]
    have hsub : (rowSub (rowScale b.L (gf (Body.theta u b time) xo yo ro false))
        b.flux_tot).length = n := by
      simp [rowSub, hs, h2]
    refine ⟨by simp [rowAdd, h1, hsub], fun _ k => ?_⟩
    show channel (rowAdd b.flux_cur
      (rowSub (rowScale b.L (gf (Body.theta u b time) xo yo ro false)) b.flux_tot)) k = _
    unfold rowAdd rowSub
    rw [channel_zipWith _ (by simp) _ _ (by rw [h1]; exact hsub.symm),
      channel_zipWith _ (by simp) _ _ (by rw [hs, h2]), channel_rowScale]

/-- With luminosity zero every call of `occult` is a no-op. -/
theorem occultAllWith_of_L_zero (gf : S → S → S → S → Bool → List S) (u : Utils S)
    (time : S) (occs : List (S × S × S)) (b : Body S) (hL : b.L = 0) :
    Body.occultAllWith gf u b time occs = b := by
  induction occs generalizing b with
  | nil => rfl
  | cons o os ih =>
    simp only [Body.occultAllWith, List.foldl_cons]
    rw [(occultWith_step gf u b time o.1 o.2.1 o.2.2).2.1 hL]
    exact ih b hL

/-- A sequence of calls of `occult` writes the current flux and nothing else;
on rows of a common size it adds, in every channel, the sum over the
occultors of the occulted flux minus the total flux. -/
theorem occultAllWith_channel (gf : S → S → S → S → Bool → List S) (u : Utils S)
    (time : S) (n : Nat)
    (hlen : ∀ theta xo yo ro : S, (gf theta xo yo ro false).length = n)
    (occs : List (S × S × S)) (b : Body S)
    (hcur : b.flux_cur.length = n) (htot : b.flux_tot.length = n) (hL : b.L ≠ 0) :
    Body.occultAllWith gf u b time occs =
      { b with flux_cur := (Body.occultAllWith gf u b time occs).flux_cur } ∧
    (Body.occultAllWith gf u b time occs).flux_cur.length = n ∧
    ∀ k, channel (Body.occultAllWith gf u b time occs).flux_cur k =
      channel b.flux_cur k +
        (occs.map (fun o =>
          b.L * channel (gf (Body.theta u b time) o.1 o.2.1 o.2.2 false) k -
            channel b.flux_tot k)).sum := by
  induction occs generalizing b with
  | nil =>
    refine ⟨rfl, hcur, fun k => ?_⟩
    simp [Body.occultAllWith]
  | cons o os ih =>
    obtain ⟨hs1, _, hs2⟩ := occultWith_step gf u b time o.1 o.2.1 o.2.2
    obtain ⟨hs3, hs4⟩ := hs2 n hcur htot (hlen _ _ _ _)
    have hb1tot : (Body.occultWith gf u b time o.1 o.2.1 o.2.2).flux_tot = b.flux_tot := by
      rw [hs1]
    have hb1L : (Body.occultWith gf u b time o.1 o.2.1 o.2.2).L = b.L := by
      rw [hs1]
    have hb1theta : ∀ t, Body.theta u (Body.occultWith gf u b time o.1 o.2.1 o.2.2) t =
        Body.theta u b t := by
      intro t
      rw [hs1]
      rfl
    obtain ⟨ih1, ih2, ih3⟩ := ih (Body.occultWith gf u b time o.1 o.2.1 o.2.2) hs3
      (by rw [hb1tot]; exact htot) (by rw [hb1L]; exact hL)
    have hfold : Body.occultAllWith gf u b time (o :: os) =
        Body.occultAllWith gf u (Body.occultWith gf u b time o.1 o.2.1 o.2.2) time os := rfl
    rw [hfold]
    have hcompose : ∀ (X b1 : Body S) (v : List S),
        X = { b1 with flux_cur := X.flux_cur } → b1 = { b with flux_cur := v } →
        X = { b with flux_cur := X.flux_cur } := by
      intro X b1 v hX hb1
      subst hb1
      rw [hX]
    refine ⟨hcompose _ _ _ ih1 hs1, ih2, fun k => ?_⟩
    · rw [ih3 k, hs4 hL k, hb1L, hb1tot, hb1theta]
      simp only [List.map_cons, List.sum_cons]
      ring

/-- The calls of `occult` after `computeTotal`, for a bound `getFlux` whose
rows have a common size: the total flux is kept, the current flux is the total
flux plus the sum over the occultors of the occulted flux minus the total
flux, and the order of the occultors does not matter. -/
theorem occultAllWith_after_computeTotal (gf : S → S → S → S → Bool → List S)
    (u : Utils S) (n : Nat)
    (hlen : ∀ theta xo yo ro : S, (gf theta xo yo ro false).length = n)
    (b : Body S) (time : S) (occs : List (S × S × S)) :
    (Body.occultAllWith gf u (Body.computeTotalWith gf u b time) time occs).flux_tot =
      (Body.computeTotalWith gf u b time).flux_tot ∧
    (∀ k,
      channel (Body.occultAllWith gf u (Body.computeTotalWith gf u b time) time
          occs).flux_cur k =
        channel (Body.computeTotalWith gf u b time).flux_tot k +
          (occs.map (fun o =>
            b.L * channel (gf (Body.theta u b time) o.1 o.2.1 o.2.2 false) k -
              channel (Body.computeTotalWith gf u b time).flux_tot k)).sum) ∧
    (∀ occs2, List.Perm occs occs2 →
      Body.occultAllWith gf u (Body.computeTotalWith gf u b time) time occs2 =
        Body.occultAllWith gf u (Body.computeTotalWith gf u b time) time occs) := by
  obtain ⟨h1, h2, _⟩ := computeTotalWith_flux gf u b time
  have hL1 := L_computeTotalWith gf u b time
  by_cases hL : b.L = 0
  · have hno : ∀ l, Body.occultAllWith gf u (Body.computeTotalWith gf u b time) time l =
        Body.computeTotalWith gf u b time :=
      fun l => occultAllWith_of_L_zero gf u time l _ (by rw [hL1]; exact hL)
    refine ⟨by rw [hno], fun k => ?_, fun occs2 _ => by rw [hno, hno]⟩
    rw [hno, h1, h2, if_pos hL, channel_replicate_zero]
    have hsum : (occs.map (fun o : S × S × S =>
        b.L * channel (gf (Body.theta u b time) o.1 o.2.1 o.2.2 false) k - 0)).sum = 0 := by
      induction occs with
      | nil => simp
      | cons o os ih => simp [hL, ih]
    rw [hsum, add_zero]
  · have htot : (Body.computeTotalWith gf u b time).flux_tot.length = n := by
      rw [h2, if_neg hL]
      simp [rowScale, hlen]
    have hcur : (Body.computeTotalWith gf u b time).flux_cur.length = n := by
      rw [h1]; exact htot
    have hLne : (Body.computeTotalWith gf u b time).L ≠ 0 := by rw [hL1]; exact hL
    have hch := fun l => occultAllWith_channel gf u time n hlen l
      (Body.computeTotalWith gf u b time) hcur htot hLne
    refine ⟨?_, fun k => ?_, fun occs2 hperm => ?_⟩
    · rw [(hch occs).1]
    · rw [(hch occs).2.2 k, h1, hL1]
      simp only [theta_computeTotalWith]
    · rw [(hch occs2).1, (hch occs).1]
      have hcureq : (Body.occultAllWith gf u (Body.computeTotalWith gf u b time) time
          occs2).flux_cur =
          (Body.occultAllWith gf u (Body.computeTotalWith gf u b time) time occs).flux_cur := by
        apply eq_of_channel_eq
        · rw [(hch occs2).2.1, (hch occs).2.1]
        · intro k
          rw [(hch occs2).2.2 k, (hch occs).2.2 k]
          congr 1
          exact ((hperm.map _).sum_eq).symm
      rw [hcureq]

/-- On a plain body the calls of `occult` all use the flux of the same map. -/
theorem body_occultAll_eq (c : Collaborators S) (u : Utils S) (time : S)
    (occs : List (S × S × S)) (b : Body S) :
    Body.occultAll c u b time occs =
      Body.occultAllWith (Body.getFlux c b) u b time occs := by
  induction occs generalizing b with
  | nil => rfl
  | cons o os ih =>
    have hstep : Body.occult c u b time o.1 o.2.1 o.2.2 =
        Body.occultWith (Body.getFlux c b) u b time o.1 o.2.1 o.2.2 := rfl
    have hmap : (Body.occult c u b time o.1 o.2.1 o.2.2).toMap = b.toMap := by
      rw [hstep, (occultWith_step (Body.getFlux c b) u b time o.1 o.2.1 o.2.2).1]
    have hgf : Body.getFlux c (Body.occult c u b time o.1 o.2.1 o.2.2) = Body.getFlux c b := by
      funext theta x y r g
      simp only [Body.getFlux, hmap]
    show Body.occultAll c u (Body.occult c u b time o.1 o.2.1 o.2.2) time os = _
    rw [ih, hgf]
    rfl

/-- On a secondary the calls of `occult` all use the flux of the same sky map
and write the `Body` part only. -/
theorem secondary_occultAll_eq (c : Collaborators S) (u : Utils S) (time : S)
    (occs : List (S × S × S)) (s : Secondary S) :
    Secondary.occultAll c u s time occs =
      { s with toBody :=
        Body.occultAllWith (Secondary.getFlux c s) u s.toBody time occs } := by
  induction occs generalizing s with
  | nil => rfl
  | cons o os ih =>
    show Secondary.occultAll c u (Secondary.occult c u s time o.1 o.2.1 o.2.2) time os = _
    rw [ih]
    rfl

/-- Claim C15: `occult` accumulates relative to the single unocculted
baseline.  For every body (a plain `Body` or a `Secondary`), after
`computeTotal(time)` and then `occult(time, xo, yo, ro)` for each occultor of
a list, the total flux is the one `computeTotal` stored and the current flux
is, in every channel, `flux_tot + sum_i (L * F_i - flux_tot)` with `F_i` the
flux `getFlux(theta(time), xo_i, yo_i, ro_i)`; the result is the same for every
order of the occultors; a call of `occult` never changes the total flux and is
a no-op when `L = 0`.  The flux of a map has one value per wavelength
channel. -/
theorem occult_accumulates (c : Collaborators S) (u : Utils S)
    (hlen : ∀ (m : Map S) (theta xo yo ro : S),
      (c.flux m theta xo yo ro false).length = m.nwav)
    (time : S) (occs : List (S × S × S)) :
    (∀ b : Body S,
      (Body.occultAll c u (Body.computeTotal c u b time) time occs).flux_tot =
        (Body.computeTotal c u b time).flux_tot ∧
      (∀ k,
        channel (Body.occultAll c u (Body.computeTotal c u b time) time occs).flux_cur k =
          channel (Body.computeTotal c u b time).flux_tot k +
            (occs.map (fun o =>
              b.L * channel (Body.getFlux c b (Body.theta u b time) o.1 o.2.1 o.2.2 false) k -
                channel (Body.computeTotal c u b time).flux_tot k)).sum) ∧
      (∀ occs2, List.Perm occs occs2 →
        Body.occultAll c u (Body.computeTotal c u b time) time occs2 =
          Body.occultAll c u (Body.computeTotal c u b time) time occs)) ∧
    (∀ (b : Body S) (xo yo ro : S),
      (Body.occult c u b time xo yo ro).flux_tot = b.flux_tot ∧
      (b.L = 0 → Body.occult c u b time xo yo ro = b)) ∧
    (∀ s : Secondary S,
      (Secondary.occultAll c u (Secondary.computeTotal c u s time) time occs).flux_tot =
        (Secondary.computeTotal c u s time).flux_tot ∧
      (∀ k,
        channel
            (Secondary.occultAll c u (Secondary.computeTotal c u s time) time occs).flux_cur k =
          channel (Secondary.computeTotal c u s time).flux_tot k +
            (occs.map (fun o =>
              s.L * channel
                  (Secondary.getFlux c s (Body.theta u s.toBody time) o.1 o.2.1 o.2.2 false) k -
                channel (Secondary.computeTotal c u s time).flux_tot k)).sum) ∧
      (∀ occs2, List.Perm occs occs2 →
        Secondary.occultAll c u (Secondary.computeTotal c u s time) time occs2 =
          Secondary.occultAll c u (Secondary.computeTotal c u s time) time occs)) ∧
    (∀ (s : Secondary S) (xo yo ro : S),
      (Secondary.occult c u s time xo yo ro).flux_tot = s.flux_tot ∧
      (s.L = 0 → Secondary.occult c u s time xo yo ro = s)) := by
  refine ⟨fun b => ?_, fun b xo yo ro => ?_, fun s => ?_, fun s xo yo ro => ?_⟩
  · have hmap : (Body.computeTotal c u b time).toMap = b.toMap := by
      unfold Body.computeTotal
      rw [(computeTotalWith_flux (Body.getFlux c b) u b time).2.2]
    have hgf : Body.getFlux c (Body.computeTotal c u b time) = Body.getFlux c b := by
      funext theta x y r g
      simp only [Body.getFlux, hmap]
    have hall : ∀ l, Body.occultAll c u (Body.computeTotal c u b time) time l =
        Body.occultAllWith (Body.getFlux c b) u
          (Body.computeTotalWith (Body.getFlux c b) u b time) time l := by
      intro l
      rw [body_occultAll_eq, hgf]
      rfl
    obtain ⟨h1, h2, h3⟩ := occultAllWith_after_computeTotal (Body.getFlux c b) u b.nwav
      (fun theta xo yo ro => hlen b.toMap theta xo yo ro) b time occs
    refine ⟨?_, fun k => ?_, fun occs2 hperm => ?_⟩
    · rw [hall]; exact h1
    · rw [hall]; exact h2 k
    · rw [hall, hall]; exact h3 occs2 hperm
  · obtain ⟨hs1, hs2, _⟩ := occultWith_step (Body.getFlux c b) u b time xo yo ro
    refine ⟨?_, hs2⟩
    show (Body.occultWith (Body.getFlux c b) u b time xo yo ro).flux_tot = b.flux_tot
    rw [hs1]
  · have hall : ∀ l, Secondary.occultAll c u (Secondary.computeTotal c u s time) time l =
        { Secondary.computeTotal c u s time with
          toBody := (Body.occultAllWith (Secondary.getFlux c s) u
            (Body.computeTotalWith (Secondary.getFlux c s) u s.toBody time) time l) } := by
      intro l
      rw [secondary_occultAll_eq]
      rfl
    obtain ⟨h1, h2, h3⟩ := occultAllWith_after_computeTotal (Secondary.getFlux c s) u
      s.skyMap.nwav (fun theta xo yo ro => hlen s.skyMap theta xo yo ro) s.toBody time occs
    refine ⟨?_, fun k => ?_, fun occs2 hperm => ?_⟩
    · rw [hall]; exact h1
    · rw [hall]; exact h2 k
    · rw [hall, hall, h3 occs2 hperm]
  · obtain ⟨hs1, hs2, _⟩ := occultWith_step (Secondary.getFlux c s) u s.toBody time xo yo ro
    refine ⟨?_, fun hL => ?_⟩
    · show (Body.occultWith (Secondary.getFlux c s) u s.toBody time xo yo ro).flux_tot =
        s.flux_tot
      rw [hs1]
    · show ({ s with toBody :=
          Body.occultWith (Secondary.getFlux c s) u s.toBody time xo yo ro } : Secondary S) = s
      rw [hs2 hL]

/-- The sample flux has one value per wavelength channel. -/
theorem sampleCollaborators_length (m : Map ℝ) (theta xo yo ro : ℝ) :
    ((sampleCollaborators : Collaborators ℝ).flux m theta xo yo ro false).length = m.nwav := by
  simp [sampleCollaborators]

/-- Witness for claim C15: the sample collaborators and the sample body over
the reals, with two occultors. -/
theorem occult_accumulates_witness :
    (∀ (m : Map ℝ) (theta xo yo ro : ℝ),
      ((sampleCollaborators : Collaborators ℝ).flux m theta xo yo ro false).length =
        m.nwav) ∧
    (Body.occultAll sampleCollaborators realUtils
        (Body.computeTotal sampleCollaborators realUtils sampleBody 0) 0
        [(1 / 2, 0, 1 / 10), (0, 1 / 2, 1 / 5)]).flux_tot =
      (Body.computeTotal sampleCollaborators realUtils sampleBody 0).flux_tot :=
  ⟨sampleCollaborators_length,
    ((occult_accumulates sampleCollaborators realUtils sampleCollaborators_length 0
      [(1 / 2, 0, 1 / 10), (0, 1 / 2, 1 / 5)]).1 sampleBody).1⟩

end Flux


/-! ## Theorems: the primary -/

section PrimaryTheorems

variable {S : Type} [LinearOrderedField S]

/-- The constructor of `Body` succeeds; it leaves the map as constructed and
sets every other member: radius and luminosity 1, no rotation, reference time
0, and flux rows of `nwav` zeros. -/
theorem body_construct (u : Utils S) (raw : Body S) :
    Body.construct u raw = Except.ok
      { raw with
        r := 1, L := 1, prot := ExtScalar.INFINITY, tref := 0 * units.DayToSeconds,
        theta0 := 0, angvelrot := 0, z0 := 0, delay := 0,
        flux_cur := setZero (List.replicate raw.nwav 0),
        flux_tot := setZero (List.replicate raw.nwav 0) } := by
  have h1 : (1 : S) > 0 := one_pos
  have h2 : (1 : S) ≥ 0 := zero_le_one
  simp only [Body.construct, Body.setRadius, Body.setLuminosity, if_pos h1, if_pos h2,
    bind, Except.bind, body_setRotPer_zero, pure, Except.pure]
  rfl

/-- The constructor of `Primary` succeeds, with the same result as the
constructor of `Body`. -/
theorem primary_construct (u : Utils S) (raw : Body S) :
    Primary.construct u raw = Except.ok
      { raw with
        r := 1, L := 1, prot := ExtScalar.INFINITY, tref := 0 * units.DayToSeconds,
        theta0 := 0, angvelrot := 0, z0 := 0, delay := 0,
        flux_cur := setZero (List.replicate raw.nwav 0),
        flux_tot := setZero (List.replicate raw.nwav 0) } := by
  have h1 : (1 : S) > 0 := one_pos
  have h2 : (1 : S) ≥ 0 := zero_le_one
  simp only [Primary.construct, body_construct, Body.setRadius, Body.setLuminosity,
    if_pos h1, if_pos h2, bind, Except.bind, body_setRotPer_zero, pure, Except.pure]
  rfl

/-- A call from outside leaves the radius and the luminosity of a primary as
they were. -/
theorem primary_step_keeps (u : Utils S) (b : Primary S) (op : Primary.Op S) :
    (Primary.step u b op).r = b.r ∧ (Primary.step u b op).L = b.L := by
  cases op with
  | setRotPer prot_ =>
    simp only [Primary.step]
    rw [runCall_setRotPer_body]
    rcases lt_trichotomy prot_ 0 with h | h | h
    · have h1 : ¬ prot_ > 0 := not_lt.2 h.le
      have h2 : ¬ prot_ = 0 := h.ne
      simp [Body.setRotPer, Body.setRotPerWith, h1, h2]
    · subst h
      rw [body_setRotPer_zero]
      exact ⟨rfl, rfl⟩
    · rw [body_setRotPer_pos u b prot_ h]
      exact ⟨rfl, rfl⟩
  | setRefTime tref_ => exact ⟨rfl, rfl⟩
  | getRotPer => exact ⟨rfl, rfl⟩
  | getRefTime => exact ⟨rfl, rfl⟩
  | getRadius => exact ⟨rfl, rfl⟩
  | getLuminosity => exact ⟨rfl, rfl⟩

/-- A sequence of calls from outside leaves the radius and the luminosity of a
primary as they were. -/
theorem primary_run_keeps (u : Utils S) (ops : List (Primary.Op S)) (b : Primary S) :
    (Primary.run u b ops).r = b.r ∧ (Primary.run u b ops).L = b.L := by
  induction ops generalizing b with
  | nil => exact ⟨rfl, rfl⟩
  | cons op ops ih =>
    have h := ih (Primary.step u b op)
    have hs := primary_step_keeps u b op
    have hrun : Primary.run u b (op :: ops) = Primary.run u (Primary.step u b op) ops := rfl
    rw [hrun, h.1, h.2]
    exact hs

/-- Claim C16: the constructor of `Primary` succeeds and gives radius 1 and
luminosity 1, no rotation (period `INFINITY`, which `setRotPer(0)` stores) and
reference time 0; after any sequence of the calls an external caller can
reach (`setRotPer`, `setRefTime` and the getters, a rejected `setRotPer`
included), `getRadius()` and `getLuminosity()` still return 1. -/
theorem primary_radius_luminosity (u : Utils S) (raw : Body S) :
    ∃ p, Primary.construct u raw = Except.ok p ∧
      Body.getRadius p = 1 ∧ Body.getLuminosity p = 1 ∧
      p.prot = ExtScalar.INFINITY ∧ p.angvelrot = 0 ∧ Body.getRefTime p = 0 ∧
      ∀ ops : List (Primary.Op S),
        Body.getRadius (Primary.run u p ops) = 1 ∧
        Body.getLuminosity (Primary.run u p ops) = 1 := by
  refine ⟨_, primary_construct u raw, rfl, rfl, rfl, rfl, ?_, fun ops => ?_⟩
  · simp [Body.getRefTime]
  · have h := primary_run_keeps u ops
      ({ raw with
        r := 1, L := 1, prot := ExtScalar.INFINITY, tref := 0 * units.DayToSeconds,
        theta0 := 0, angvelrot := 0, z0 := 0, delay := 0,
        flux_cur := setZero (List.replicate raw.nwav 0),
        flux_tot := setZero (List.replicate raw.nwav 0) } : Body S)
    exact ⟨h.1, h.2⟩

end PrimaryTheorems


/-! ## Theorems: the orbit step -/

section Orbit

variable {S : Type} [LinearOrderedField S]

/-- The result of `orbitStep(time)` on a circular orbit. -/
theorem orbitStep_ecc_zero (u : Utils S) (s : Secondary S) (time : S) (hecc : s.ecc = 0) :
    Secondary.orbitStep u s time = Except.ok
      { s with
        M := u.mod2pi (s.M0 + s.angvelorb * (time - s.tref)),
        f := u.mod2pi (s.M0 + s.angvelorb * (time - s.tref)),
        rorb := s.a,
        cwf := u.cos (s.w + u.mod2pi (s.M0 + s.angvelorb * (time - s.tref))),
        swf := u.sin (s.w + u.mod2pi (s.M0 + s.angvelorb * (time - s.tref))),
        x_cur := -s.a *
          (s.cosO * u.cos (s.w + u.mod2pi (s.M0 + s.angvelorb * (time - s.tref))) -
            s.sinOcosi * u.sin (s.w + u.mod2pi (s.M0 + s.angvelorb * (time - s.tref)))),
        y_cur := -s.a *
          (s.sinO * u.cos (s.w + u.mod2pi (s.M0 + s.angvelorb * (time - s.tref))) +
            s.cosOcosi * u.sin (s.w + u.mod2pi (s.M0 + s.angvelorb * (time - s.tref)))),
        z_cur := s.a * u.sin (s.w + u.mod2pi (s.M0 + s.angvelorb * (time - s.tref))) *
          s.sini } := by
  simp only [Secondary.orbitStep, hecc, if_true, bind, Except.bind, pure, Except.pure]

/-- The loop of the rotating branch of `syncSkyMap` writes `RSky` and `skyY`
and nothing else. -/
theorem foldl_syncRotateStep_frame (l : List Nat) (s : Secondary S) :
    ∃ R Y, l.foldl Secondary.syncRotateStep s = { s with RSky := R, skyY := Y } := by
  induction l generalizing s with
  | nil => exact ⟨s.RSky, s.skyY, rfl⟩
  | cons a l ih =>
    obtain ⟨R, Y, h⟩ := ih (Secondary.syncRotateStep s a)
    refine ⟨R, Y, ?_⟩
    rw [List.foldl_cons, h]
    rfl

/-- The loop of the identity branch of `syncSkyMap` writes `RSky` and nothing
else. -/
theorem foldl_syncIdentityStep_frame (l : List Nat) (s : Secondary S) :
    ∃ R, l.foldl Secondary.syncIdentityStep s = { s with RSky := R } := by
  induction l generalizing s with
  | nil => exact ⟨s.RSky, rfl⟩
  | cons a l ih =>
    obtain ⟨R, h⟩ := ih (Secondary.syncIdentityStep s a)
    refine ⟨R, ?_⟩
    rw [List.foldl_cons, h]
    rfl

/-- The member `syncSkyMap` writes the sky members (`W1`, `W2`, `RSky`, `skyY`,
`skyMap`) and nothing else, and keeps the axes of `W1` and `W2`. -/
theorem syncSkyMap_frame (c : Collaborators S) (u : Utils S) (s : Secondary S) :
    ∃ W1 W2 R Y m, Secondary.syncSkyMap c u s =
        { s with W1 := W1, W2 := W2, RSky := R, skyY := Y, skyMap := m } ∧
      W1.axis = s.W1.axis ∧ W2.axis = s.W2.axis := by
  by_cases h : s.Omega ≠ 0 ∨ s.sini < 1 - 2 * u.mach_eps
  · obtain ⟨R, Y, hf⟩ := foldl_syncRotateStep_frame (List.range (s.lmax + 1))
      { s with W1 := s.W1.compute c s.sini s.cosi, W2 := s.W2.compute c s.cosO s.sinO }
    have e : Secondary.syncSkyMap c u s =
        (fun s3 : Secondary S => ({ s3 with skyMap := s3.skyMap.setY s3.skyY } : Secondary S))
          (List.foldl Secondary.syncRotateStep
            { s with W1 := s.W1.compute c s.sini s.cosi, W2 := s.W2.compute c s.cosO s.sinO }
            (List.range (s.lmax + 1))) := by
      unfold Secondary.syncSkyMap
      rw [if_pos h]
    rw [e, hf]
    exact ⟨s.W1.compute c s.sini s.cosi, s.W2.compute c s.cosO s.sinO, _, _, _, rfl, rfl, rfl⟩
  · obtain ⟨R, hf⟩ := foldl_syncIdentityStep_frame (List.range (s.lmax + 1)) s
    have e : Secondary.syncSkyMap c u s =
        (fun s1 : Secondary S => ({ s1 with skyMap := s1.skyMap.setY s1.y } : Secondary S))
          (List.foldl Secondary.syncIdentityStep s (List.range (s.lmax + 1))) := by
      unfold Secondary.syncSkyMap
      rw [if_neg h]
    rw [e, hf]
    exact ⟨s.W1, s.W2, _, _, _, rfl, rfl, rfl⟩

/-- The constructor of `Secondary` succeeds for every `raw`; the elements have
their default values, as the setters store them, the cached quantities are
those of the elements, and the map of the body is the constructed one. -/
theorem secondary_construct (c : Collaborators S) (u : Utils S) (raw : Secondary S) :
    ∃ s, Secondary.construct c u raw = Except.ok s ∧
      s.a = 50 ∧ s.ecc = 0 ∧ s.porb = 1 * 86400 ∧ s.inc = 90 * u.pi / 180 ∧
      s.w = u.mod2pi 90 * u.pi / 180 ∧ s.Omega = u.mod2pi 0 * u.pi / 180 ∧
      s.lambda0 = u.mod2pi 90 * u.pi / 180 ∧
      s.M0 = u.mod2pi 90 * u.pi / 180 - u.mod2pi 90 * u.pi / 180 ∧
      s.tref = 0 * 86400 ∧ s.r = 1 / 10 ∧ s.L = 0 ∧ s.prot = ExtScalar.INFINITY ∧
      s.angvelorb = 2 * u.pi / (1 * 86400) ∧
      Secondary.OrbitCache u s ∧ s.toMap = raw.toMap ∧
      s.W1.axis = Axis.xhat ∧ s.W2.axis = Axis.zhat := by
  have h1 : (1 / 10 : S) > 0 := by norm_num
  have h2 : (0 : S) ≥ 0 := le_refl 0
  have h3 : (50 : S) > 0 := by norm_num
  have h4 : (1 : S) > 0 := one_pos
  have h5 : (90 : S) ≥ 0 ∧ (90 : S) < 180 := by constructor <;> norm_num
  have h6 : (0 : S) ≥ 0 ∧ (0 : S) < 1 := ⟨le_refl 0, one_pos⟩
  have hc : ∃ s0, Secondary.construct c u raw = Except.ok (Secondary.syncSkyMap c u s0) ∧
      s0.a = 50 ∧ s0.ecc = 0 ∧ s0.porb = 1 * 86400 ∧ s0.inc = 90 * u.pi / 180 ∧
      s0.w = u.mod2pi 90 * u.pi / 180 ∧ s0.Omega = u.mod2pi 0 * u.pi / 180 ∧
      s0.lambda0 = u.mod2pi 90 * u.pi / 180 ∧
      s0.M0 = u.mod2pi 90 * u.pi / 180 - u.mod2pi 90 * u.pi / 180 ∧
      s0.tref = 0 * 86400 ∧ s0.r = 1 / 10 ∧ s0.L = 0 ∧ s0.prot = ExtScalar.INFINITY ∧
      s0.angvelorb = 2 * u.pi / (1 * 86400) ∧
      Secondary.OrbitCache u s0 ∧ s0.toMap = raw.toMap ∧
      s0.W1.axis = Axis.xhat ∧ s0.W2.axis = Axis.zhat := by
    simp only [Secondary.construct, body_construct, Secondary.setRadius,
      Secondary.setLuminosity, Body.setRadius, Body.setLuminosity, if_pos h1, if_pos h2,
      if_pos h3, if_pos h4, if_pos h5, if_pos h6, secondary_setRotPer_zero,
      Secondary.setRefTime, Secondary.setSemi, Secondary.setOrbPer, Secondary.setInc,
      Secondary.setEcc, Secondary.setVarPi, Secondary.setOmega, Secondary.setLambda0,
      Secondary.computeTheta0, Body.setRefTime, bind, Except.bind, pure, Except.pure]
    exact ⟨_, rfl, rfl, rfl, rfl, rfl, rfl, rfl, rfl, rfl, rfl, rfl, rfl, rfl, rfl,
      ⟨rfl, rfl, rfl, rfl, rfl, rfl, rfl, rfl⟩, rfl, rfl, rfl⟩
  obtain ⟨s0, hs0, f1, f2, f3, f4, f5, f6, f7, f8, f9, f10, f11, f12, f13, f14, f15,
    f16, f17⟩ := hc
  obtain ⟨W1, W2, R, Y, m, hframe, hW1, hW2⟩ := syncSkyMap_frame c u s0
  refine ⟨_, hs0, ?_⟩
  rw [hframe]
  exact ⟨f1, f2, f3, f4, f5, f6, f7, f8, f9, f10, f11, f12, f13, f14, f15,
    hW1.trans f16, hW2.trans f17⟩

/-- The step in the stored elements: on a secondary whose cached quantities
are those of its stored elements, `orbitStep(time)` sets
`M = mod2pi(M0 + angvelorb * (time - tref))`;
if `ecc == 0` it sets `f = M` and `rorb = a`; otherwise it fails exactly when
the Kepler solver fails, and else sets `E = EccentricAnomaly(M, ecc)`,
`f = 2 * atan2(sqrt(1 + ecc) * sin(E / 2), sqrt(1 - ecc) * cos(E / 2))` and
`rorb = a * (1 - ecc^2) / (1 + ecc * cos f)`; in both cases `(x, y, z)` is the
closed form of section 4.4 in the stored elements `w`, `Omega`, `inc`
(radians), which the step leaves untouched. -/
theorem orbitStep_elements (u : Utils S) (s : Secondary S) (time : S)
    (hcache : Secondary.OrbitCache u s) :
    (s.ecc = 0 → ∃ s1, Secondary.orbitStep u s time = Except.ok s1 ∧
      s1.M = u.mod2pi (s.M0 + s.angvelorb * (time - s.tref)) ∧
      s1.f = s1.M ∧ s1.rorb = s.a ∧
      (s1.x_cur, s1.y_cur, s1.z_cur) = Secondary.specSkyPosition u s1.rorb s.Omega s.inc s.w s1.f ∧
      s1.w = s.w ∧ s1.Omega = s.Omega ∧ s1.inc = s.inc) ∧
    (s.ecc ≠ 0 → ∀ E,
      EccentricAnomaly u (u.mod2pi (s.M0 + s.angvelorb * (time - s.tref))) s.ecc =
        Except.ok E →
      ∃ s1, Secondary.orbitStep u s time = Except.ok s1 ∧
        s1.M = u.mod2pi (s.M0 + s.angvelorb * (time - s.tref)) ∧
        s1.E = E ∧
        s1.f = 2 * u.atan2 (u.sqrt (1 + s.ecc) * u.sin (E / 2))
          (u.sqrt (1 - s.ecc) * u.cos (E / 2)) ∧
        s1.rorb = s.a * (1 - s.ecc ^ 2) / (1 + s.ecc * u.cos s1.f) ∧
        (s1.x_cur, s1.y_cur, s1.z_cur) = Secondary.specSkyPosition u s1.rorb s.Omega s.inc s.w s1.f ∧
        s1.w = s.w ∧ s1.Omega = s.Omega ∧ s1.inc = s.inc) ∧
    (s.ecc ≠ 0 → ∀ e,
      EccentricAnomaly u (u.mod2pi (s.M0 + s.angvelorb * (time - s.tref))) s.ecc =
        Except.error e →
      Secondary.orbitStep u s time = Except.error e) := by
  obtain ⟨hcO, hsO, hsi, hcOci, hsOci, hsp, hsm, he2⟩ := hcache
  refine ⟨fun hecc => ?_, fun hecc E hE => ?_, fun hecc e he => ?_⟩
  · have hres := orbitStep_ecc_zero u s time hecc
    refine ⟨_, hres, rfl, rfl, rfl, ?_, rfl, rfl, rfl⟩
    simp only [Secondary.specSkyPosition, hcO, hsO, hsi, hcOci, hsOci]
  · have hres : Secondary.orbitStep u s time = Except.ok
        { s with
          M := u.mod2pi (s.M0 + s.angvelorb * (time - s.tref)),
          E := E,
          f := 2 * u.atan2 (s.sqrtonepluse * u.sin (E / 2)) (s.sqrtoneminuse * u.cos (E / 2)),
          rorb := s.a * (1 - s.ecc2) /
            (1 + s.ecc * u.cos (2 * u.atan2 (s.sqrtonepluse * u.sin (E / 2))
              (s.sqrtoneminuse * u.cos (E / 2)))),
          cwf := u.cos (s.w + 2 * u.atan2 (s.sqrtonepluse * u.sin (E / 2))
            (s.sqrtoneminuse * u.cos (E / 2))),
          swf := u.sin (s.w + 2 * u.atan2 (s.sqrtonepluse * u.sin (E / 2))
            (s.sqrtoneminuse * u.cos (E / 2))),
          x_cur := -(s.a * (1 - s.ecc2) /
              (1 + s.ecc * u.cos (2 * u.atan2 (s.sqrtonepluse * u.sin (E / 2))
                (s.sqrtoneminuse * u.cos (E / 2))))) *
            (s.cosO * u.cos (s.w + 2 * u.atan2 (s.sqrtonepluse * u.sin (E / 2))
                (s.sqrtoneminuse * u.cos (E / 2))) -
              s.sinOcosi * u.sin (s.w + 2 * u.atan2 (s.sqrtonepluse * u.sin (E / 2))
                (s.sqrtoneminuse * u.cos (E / 2)))),
          y_cur := -(s.a * (1 - s.ecc2) /
              (1 + s.ecc * u.cos (2 * u.atan2 (s.sqrtonepluse * u.sin (E / 2))
                (s.sqrtoneminuse * u.cos (E / 2))))) *
            (s.sinO * u.cos (s.w + 2 * u.atan2 (s.sqrtonepluse * u.sin (E / 2))
                (s.sqrtoneminuse * u.cos (E / 2))) +
              s.cosOcosi * u.sin (s.w + 2 * u.atan2 (s.sqrtonepluse * u.sin (E / 2))
                (s.sqrtoneminuse * u.cos (E / 2)))),
          z_cur := s.a * (1 - s.ecc2) /
              (1 + s.ecc * u.cos (2 * u.atan2 (s.sqrtonepluse * u.sin (E / 2))
                (s.sqrtoneminuse * u.cos (E / 2)))) *
            u.sin (s.w + 2 * u.atan2 (s.sqrtonepluse * u.sin (E / 2))
              (s.sqrtoneminuse * u.cos (E / 2))) * s.sini } := by
      simp only [Secondary.orbitStep, hecc, if_false, hE, bind, Except.bind, pure,
        Except.pure]
    refine ⟨_, hres, rfl, rfl, ?_, ?_, ?_, rfl, rfl, rfl⟩
    · simp only [hsp, hsm]
    · simp only [he2, hsp, hsm, pow_two]
    · simp only [Secondary.specSkyPosition, hcO, hsO, hsi, hcOci, hsOci, he2, hsp, hsm]
  · simp only [Secondary.orbitStep, hecc, if_false, he, bind, Except.bind]

/-- The real angle wrap of `0` is `0`. -/
theorem realMod2pi_zero : realUtils.mod2pi 0 = 0 := by
  show realMod2pi 0 = 0
  simp [realMod2pi]

/-- The setter `setEcc` keeps the cached quantities that `orbitStep` reads
consistent, and leaves `M0`, `tref` and `angvelorb` untouched. -/
theorem setEcc_orbitCache (u : Utils S) (s : Secondary S) (x : S)
    (hx0 : 0 ≤ x) (hx1 : x < 1) (hcache : Secondary.OrbitCache u s) :
    ∃ s1, Secondary.setEcc u s x = Except.ok s1 ∧ Secondary.OrbitCache u s1 ∧
      s1.ecc = x ∧ s1.M0 = s.M0 ∧ s1.tref = s.tref ∧ s1.angvelorb = s.angvelorb ∧
      s1.a = s.a := by
  obtain ⟨hcO, hsO, hsi, hcOci, hsOci, _, _, _⟩ := hcache
  have hres : Secondary.setEcc u s x = Except.ok (Secondary.computeTheta0 u
      { s with
        ecc := x,
        sqrtonepluse := u.sqrt (1 + x),
        sqrtoneminuse := u.sqrt (1 - x),
        ecc2 := x * x,
        ecw := x * u.cos s.w,
        esw := x * u.sin s.w,
        vamp := s.angvelorb * s.a / u.sqrt (1 - x * x) }) := by
    unfold Secondary.setEcc
    rw [if_pos ⟨hx0, hx1⟩]
  obtain ⟨t, ht⟩ := Secondary.computeTheta0_eq u
    { s with
      ecc := x,
      sqrtonepluse := u.sqrt (1 + x),
      sqrtoneminuse := u.sqrt (1 - x),
      ecc2 := x * x,
      ecw := x * u.cos s.w,
      esw := x * u.sin s.w,
      vamp := s.angvelorb * s.a / u.sqrt (1 - x * x) }
  rw [hres, ht]
  exact ⟨_, rfl, ⟨hcO, hsO, hsi, hcOci, hsOci, rfl, rfl, rfl⟩, rfl, rfl, rfl, rfl, rfl⟩

/-- The step in the stored elements on the constructed secondary over the
reals, with its default circular orbit and, after `setEcc(1/2)`, at its
reference time, where the mean anomaly is `0` and the Kepler solver returns
`0`. -/
theorem orbitStep_elements_constructed :
    ∃ s, Secondary.construct sampleCollaborators realUtils sampleSecondary = Except.ok s ∧
      Secondary.OrbitCache realUtils s ∧ s.ecc = 0 ∧
      (∃ s1, Secondary.orbitStep realUtils s 0 = Except.ok s1 ∧
        s1.M = realUtils.mod2pi (s.M0 + s.angvelorb * (0 - s.tref)) ∧
        s1.f = s1.M ∧ s1.rorb = s.a ∧
        (s1.x_cur, s1.y_cur, s1.z_cur) =
          Secondary.specSkyPosition realUtils s1.rorb s.Omega s.inc s.w s1.f ∧
        s1.w = s.w ∧ s1.Omega = s.Omega ∧ s1.inc = s.inc) ∧
      ∃ s2, Secondary.setEcc realUtils s (1 / 2) = Except.ok s2 ∧
        Secondary.OrbitCache realUtils s2 ∧ s2.ecc ≠ 0 ∧
        EccentricAnomaly realUtils
          (realUtils.mod2pi (s2.M0 + s2.angvelorb * (s2.tref - s2.tref))) s2.ecc =
            Except.ok 0 ∧
        ∃ s3, Secondary.orbitStep realUtils s2 s2.tref = Except.ok s3 ∧
          s3.M = realUtils.mod2pi (s2.M0 + s2.angvelorb * (s2.tref - s2.tref)) ∧
          s3.E = 0 ∧
          s3.f = 2 * realUtils.atan2 (realUtils.sqrt (1 + s2.ecc) * realUtils.sin (0 / 2))
            (realUtils.sqrt (1 - s2.ecc) * realUtils.cos (0 / 2)) ∧
          s3.rorb = s2.a * (1 - s2.ecc ^ 2) / (1 + s2.ecc * realUtils.cos s3.f) ∧
          (s3.x_cur, s3.y_cur, s3.z_cur) =
            Secondary.specSkyPosition realUtils s3.rorb s2.Omega s2.inc s2.w s3.f ∧
          s3.w = s2.w ∧ s3.Omega = s2.Omega ∧ s3.inc = s2.inc := by
  obtain ⟨s, hs, _, hecc, _, _, _, _, _, hM0, _, _, _, _, _, hcache, _, _, _⟩ :=
    secondary_construct sampleCollaborators realUtils sampleSecondary
  obtain ⟨s2, hs2, hcache2, hecc2, hM02, _, _, _⟩ :=
    setEcc_orbitCache realUtils s (1 / 2) (by norm_num) (by norm_num) hcache
  have hne : s2.ecc ≠ 0 := by rw [hecc2]; norm_num
  have hM : realUtils.mod2pi (s2.M0 + s2.angvelorb * (s2.tref - s2.tref)) = 0 := by
    rw [hM02, hM0, sub_self, sub_self, mul_zero, add_zero, realMod2pi_zero]
  have hE : EccentricAnomaly realUtils
      (realUtils.mod2pi (s2.M0 + s2.angvelorb * (s2.tref - s2.tref))) s2.ecc =
        Except.ok 0 := by
    rw [hM, hecc2]
    exact realSolver_zero_half
  exact ⟨s, hs, hcache, hecc, (orbitStep_elements realUtils s 0 hcache).1 hecc,
    s2, hs2, hcache2, hne, hE,
    (orbitStep_elements realUtils s2 s2.tref hcache2).2.1 hne 0 hE⟩

/-- The longitude of pericenter that `setVarPi(90)` stores over the reals lies
strictly between `0` and `1`. -/
theorem default_w_bounds :
    0 < (90 - 28 * Real.pi) * Real.pi / 180 ∧ (90 - 28 * Real.pi) * Real.pi / 180 < 1 := by
  have h1 := Real.pi_gt_d2
  have h2 := Real.pi_lt_d2
  constructor
  · have : 0 < (90 - 28 * Real.pi) * Real.pi := by nlinarith
    linarith
  · have : (90 - 28 * Real.pi) * Real.pi < 180 := by nlinarith
    linarith

/-- The closed form of section 4.4 at the longitude of pericenter `w` that
`setVarPi(90)` stores differs, for every true anomaly, from the closed form at
`w = π/2`; the other elements are `Omega = 0`, `inc = π/2` and the radius is
`50`. -/
theorem closed_form_stored_ne_given (w f : ℝ) (hw0 : 0 < w) (hw1 : w < 1) :
    Secondary.specSkyPosition realUtils 50 0 (Real.pi / 2) w f ≠
      Secondary.specSkyPosition realUtils 50 0 (Real.pi / 2) (Real.pi / 2) f := by
  intro heq
  simp only [Secondary.specSkyPosition, Prod.mk.injEq] at heq
  obtain ⟨hx, _, hz⟩ := heq
  have hx1 : Real.cos (w + f) = Real.cos (Real.pi / 2 + f) := by
    have hx2 : -50 * (Real.cos 0 * Real.cos (w + f) -
        Real.sin 0 * Real.cos (Real.pi / 2) * Real.sin (w + f)) =
      -50 * (Real.cos 0 * Real.cos (Real.pi / 2 + f) -
        Real.sin 0 * Real.cos (Real.pi / 2) * Real.sin (Real.pi / 2 + f)) := hx
    rw [Real.cos_zero, Real.sin_zero] at hx2
    linarith
  have hz1 : Real.sin (w + f) = Real.sin (Real.pi / 2 + f) := by
    have hz2 : 50 * Real.sin (w + f) * Real.sin (Real.pi / 2) =
      50 * Real.sin (Real.pi / 2 + f) * Real.sin (Real.pi / 2) := hz
    rw [Real.sin_pi_div_two] at hz2
    linarith
  have hone : Real.cos (w - Real.pi / 2) = 1 := by
    have e : w - Real.pi / 2 = (w + f) - (Real.pi / 2 + f) := by ring
    rw [e, Real.cos_sub, hx1, hz1]
    have h := Real.cos_sq_add_sin_sq (Real.pi / 2 + f)
    nlinarith
  have hsin : Real.cos (w - Real.pi / 2) = Real.sin w := by
    rw [Real.cos_sub, Real.cos_pi_div_two, Real.sin_pi_div_two]
    ring
  have hlt : Real.sin w < 1 := lt_trans (Real.sin_lt hw0) hw1
  rw [hsin] at hone
  linarith

/-- Claim C17, the code against the elements the setters were given: the
constructor calls `setVarPi(90)`, `setOmega(0)` and `setInc(90)`, that is
`w = π/2`, `Omega = 0` and `inc = π/2` in radians, and stores
`w = (90 - 28π) * π / 180`.  On the constructed secondary over the reals,
`orbitStep(time)` returns at every time with `M` the wrapped mean anomaly,
`f = M` and `rorb = 50`, and its position is the closed form of section 4.4 at
the stored `w`, which is not the closed form at the given `w = π/2`. -/
theorem orbitStep_given_elements (c : Collaborators ℝ) (raw : Secondary ℝ) (time : ℝ) :
    ∃ s s1, Secondary.construct c realUtils raw = Except.ok s ∧
      Secondary.orbitStep realUtils s time = Except.ok s1 ∧
      s1.M = realUtils.mod2pi (s.M0 + s.angvelorb * (time - s.tref)) ∧
      s1.f = s1.M ∧ s1.rorb = 50 ∧
      s.w = (90 - 28 * Real.pi) * Real.pi / 180 ∧ s.Omega = 0 ∧ s.inc = Real.pi / 2 ∧
      (s1.x_cur, s1.y_cur, s1.z_cur) =
        Secondary.specSkyPosition realUtils 50 0 (Real.pi / 2)
          ((90 - 28 * Real.pi) * Real.pi / 180) s1.f ∧
      (s1.x_cur, s1.y_cur, s1.z_cur) ≠
        Secondary.specSkyPosition realUtils 50 0 (Real.pi / 2) (Real.pi / 2) s1.f := by
  obtain ⟨s, hs, ha, hecc, _, hinc, hw, hOm, _, _, _, _, _, _, _, hcache, _, _, _⟩ :=
    secondary_construct c realUtils raw
  have hw2 : s.w = (90 - 28 * Real.pi) * Real.pi / 180 := by
    rw [hw, realMod2pi_ninety]; rfl
  have hOm2 : s.Omega = 0 := by
    rw [hOm, realMod2pi_zero]; simp
  have hinc2 : s.inc = Real.pi / 2 := by
    rw [hinc]
    show (90 : ℝ) * Real.pi / 180 = Real.pi / 2
    ring
  obtain ⟨s1, hs1, hM, hf, hr, hpos, _⟩ := (orbitStep_elements realUtils s time hcache).1 hecc
  have hr2 : s1.rorb = 50 := by rw [hr, ha]
  have hpos2 : (s1.x_cur, s1.y_cur, s1.z_cur) =
      Secondary.specSkyPosition realUtils 50 0 (Real.pi / 2)
        ((90 - 28 * Real.pi) * Real.pi / 180) s1.f := by
    rw [hpos, hr2, hOm2, hinc2, hw2]
  obtain ⟨hw0, hw1⟩ := default_w_bounds
  refine ⟨s, s1, hs, hs1, hM, hf, hr2, hw2, hOm2, hinc2, hpos2, ?_⟩
  rw [hpos2]
  exact closed_form_stored_ne_given _ s1.f hw0 hw1

/-- Claim C18, the code at the constructor's defaults over the reals:
`orbitStep(tref)` yields `M = M0 = 0`, `f = M` and `rorb = 50`, but the stored
longitude of pericenter is `w = (90 - 28π) * π / 180` rather than `π / 2`, so
the position is `(-50 * cos w, 0, 50 * sin w)`, which is not `(0, 0, 50)`:
`x` is not `0` and `z` is not `50`. -/
theorem orbitStep_default_position :
    ∃ s s1, Secondary.construct sampleCollaborators realUtils sampleSecondary = Except.ok s ∧
      Secondary.orbitStep realUtils s s.tref = Except.ok s1 ∧
      s1.M = s.M0 ∧ s1.M = 0 ∧ s1.f = s1.M ∧ s1.rorb = 50 ∧
      s.inc = Real.pi / 2 ∧ s.Omega = 0 ∧
      s.w = (90 - 28 * Real.pi) * Real.pi / 180 ∧
      s1.x_cur = -50 * Real.cos ((90 - 28 * Real.pi) * Real.pi / 180) ∧
      s1.y_cur = 0 ∧
      s1.z_cur = 50 * Real.sin ((90 - 28 * Real.pi) * Real.pi / 180) ∧
      s1.x_cur ≠ 0 ∧ s1.z_cur ≠ 50 := by
  obtain ⟨s, hs, ha, hecc, _, hinc, hw, hOm, _, hM0, _, _, _, _, _, hcache, _, _, _⟩ :=
    secondary_construct sampleCollaborators realUtils sampleSecondary
  obtain ⟨hcO, hsO, hsi, hcOci, hsOci, _, _, _⟩ := hcache
  have hw2 : s.w = (90 - 28 * Real.pi) * Real.pi / 180 := by
    rw [hw, realMod2pi_ninety]; rfl
  have hOm2 : s.Omega = 0 := by
    rw [hOm, realMod2pi_zero]; simp
  have hinc2 : s.inc = Real.pi / 2 := by
    rw [hinc]
    show (90 : ℝ) * Real.pi / 180 = Real.pi / 2
    ring
  have hM00 : s.M0 = 0 := by rw [hM0, sub_self]
  have hM : realUtils.mod2pi (s.M0 + s.angvelorb * (s.tref - s.tref)) = 0 := by
    rw [hM00, sub_self, mul_zero, add_zero, realMod2pi_zero]
  have hcosO : s.cosO = 1 := by
    rw [hcO, hOm2]; exact Real.cos_zero
  have hsinO : s.sinO = 0 := by
    rw [hsO, hOm2]; exact Real.sin_zero
  have hsini : s.sini = 1 := by
    rw [hsi, hinc2]; exact Real.sin_pi_div_two
  have hcOci2 : s.cosOcosi = 0 := by
    rw [hcOci, hinc2]
    show Real.cos s.Omega * Real.cos (Real.pi / 2) = 0
    rw [Real.cos_pi_div_two, mul_zero]
  have hsOci2 : s.sinOcosi = 0 := by
    rw [hsOci, hinc2]
    show Real.sin s.Omega * Real.cos (Real.pi / 2) = 0
    rw [Real.cos_pi_div_two, mul_zero]
  have hx : -s.a * (s.cosO * realUtils.cos (s.w + 0) - s.sinOcosi * realUtils.sin (s.w + 0)) =
      -50 * Real.cos ((90 - 28 * Real.pi) * Real.pi / 180) := by
    rw [ha, hcosO, hsOci2, add_zero, hw2]
    show -50 * (1 * Real.cos _ - 0 * Real.sin _) = _
    ring
  have hy : -s.a * (s.sinO * realUtils.cos (s.w + 0) + s.cosOcosi * realUtils.sin (s.w + 0)) =
      0 := by
    rw [hsinO, hcOci2]
    ring
  have hz : s.a * realUtils.sin (s.w + 0) * s.sini =
      50 * Real.sin ((90 - 28 * Real.pi) * Real.pi / 180) := by
    rw [ha, hsini, add_zero, hw2]
    show 50 * Real.sin _ * 1 = _
    ring
  obtain ⟨hwpos, hwlt⟩ := default_w_bounds
  have hcospos : 0 < Real.cos ((90 - 28 * Real.pi) * Real.pi / 180) := by
    apply Real.cos_pos_of_mem_Ioo
    constructor
    · have := Real.pi_pos
      linarith
    · have := Real.pi_gt_three
      linarith
  have hsinlt : Real.sin ((90 - 28 * Real.pi) * Real.pi / 180) < 1 :=
    lt_trans (Real.sin_lt hwpos) hwlt
  refine ⟨s, _, hs, orbitStep_ecc_zero realUtils s s.tref hecc, ?_, hM, rfl, ha, hinc2, hOm2,
    hw2, ?_, ?_, ?_, ?_, ?_⟩
  · show realUtils.mod2pi (s.M0 + s.angvelorb * (s.tref - s.tref)) = s.M0
    rw [hM, hM00]
  · show -s.a * (s.cosO * realUtils.cos (s.w +
        realUtils.mod2pi (s.M0 + s.angvelorb * (s.tref - s.tref))) -
      s.sinOcosi * realUtils.sin (s.w +
        realUtils.mod2pi (s.M0 + s.angvelorb * (s.tref - s.tref)))) = _
    rw [hM, hx]
  · show -s.a * (s.sinO * realUtils.cos (s.w +
        realUtils.mod2pi (s.M0 + s.angvelorb * (s.tref - s.tref))) +
      s.cosOcosi * realUtils.sin (s.w +
        realUtils.mod2pi (s.M0 + s.angvelorb * (s.tref - s.tref)))) = _
    rw [hM, hy]
  · show s.a * realUtils.sin (s.w +
        realUtils.mod2pi (s.M0 + s.angvelorb * (s.tref - s.tref))) * s.sini = _
    rw [hM, hz]
  · show -s.a * (s.cosO * realUtils.cos (s.w +
        realUtils.mod2pi (s.M0 + s.angvelorb * (s.tref - s.tref))) -
      s.sinOcosi * realUtils.sin (s.w +
        realUtils.mod2pi (s.M0 + s.angvelorb * (s.tref - s.tref)))) ≠ 0
    rw [hM, hx]
    intro hc
    linarith
  · show s.a * realUtils.sin (s.w +
        realUtils.mod2pi (s.M0 + s.angvelorb * (s.tref - s.tref))) * s.sini ≠ 50
    rw [hM, hz]
    intro hc
    linarith

end Orbit


/-! ## Theorems: the sky projection -/

section Blocks

variable {S : Type}

/-- Reading back the block of degree `l` that was just assigned. -/
theorem block_setBlock_same (Y : Nat → Nat → S) (l n : Nat)
    (B : Matrix (Fin (2 * l + 1)) (Fin n) S) :
    block (setBlock Y l n B) l n = B := by
  funext i j
  have hi := i.isLt
  have hj := j.isLt
  have hcond : (l * l ≤ l * l + i.val ∧ l * l + i.val < l * l + (2 * l + 1)) ∧ j.val < n :=
    ⟨⟨Nat.le_add_right _ _, by omega⟩, hj⟩
  simp only [block, setBlock, dif_pos hcond]
  congr 1
  apply Fin.ext
  simp

/-- The blocks of two different degrees do not overlap. -/
theorem block_setBlock_ne (Y : Nat → Nat → S) (l k n : Nat)
    (B : Matrix (Fin (2 * k + 1)) (Fin n) S) (h : l ≠ k) :
    block (setBlock Y k n B) l n = block Y l n := by
  funext i j
  have hi := i.isLt
  have hcond : ¬ ((k * k ≤ l * l + i.val ∧ l * l + i.val < k * k + (2 * k + 1)) ∧ j.val < n) := by
    rintro ⟨⟨h1, h2⟩, _⟩
    rcases Nat.lt_or_gt_of_ne h with hlt | hgt
    · have h3 : (l + 1) * (l + 1) ≤ k * k := Nat.mul_le_mul hlt hlt
      have h4 : (l + 1) * (l + 1) = l * l + 2 * l + 1 := by ring
      omega
    · have h3 : (k + 1) * (k + 1) ≤ l * l := Nat.mul_le_mul hgt hgt
      have h4 : (k + 1) * (k + 1) = k * k + 2 * k + 1 := by ring
      omega
  simp only [block, setBlock, dif_neg hcond]

end Blocks

section Sky

variable {S : Type} [LinearOrderedField S]

/-- The loop of the rotating branch over the degrees below `n`: `RSky[l]` is
the product `W1.R[l] * W2.R[l]` and the block of degree `l` of `skyY` is
`RSky[l]` applied to the block of degree `l` of `y`, for every `l < n`; the
other entries of `RSky` are as before. -/
theorem foldl_syncRotateStep_range (s : Secondary S) (n : Nat) :
    ∃ R Y, (List.range n).foldl Secondary.syncRotateStep s =
        { s with RSky := R, skyY := Y } ∧
      (∀ l, l < n → R l = s.W1.R l * s.W2.R l ∧
        block Y l s.nwav = (s.W1.R l * s.W2.R l) * block s.y l s.nwav) ∧
      (∀ l, n ≤ l → R l = s.RSky l) := by
  induction n with
  | zero =>
    exact ⟨s.RSky, s.skyY, rfl, fun l hl => absurd hl (Nat.not_lt_zero l), fun l _ => rfl⟩
  | succ n ih =>
    obtain ⟨R, Y, hf, h1, h2⟩ := ih
    refine ⟨Function.update R n (s.W1.R n * s.W2.R n),
      setBlock Y n s.nwav ((s.W1.R n * s.W2.R n) * block s.y n s.nwav), ?_, ?_, ?_⟩
    · rw [List.range_succ, List.foldl_append, hf]
      show ({ s with
        RSky := Function.update R n (s.W1.R n * s.W2.R n),
        skyY := setBlock Y n s.nwav
          (Function.update R n (s.W1.R n * s.W2.R n) n * block s.y n s.nwav) } :
          Secondary S) = _
      rw [Function.update_same]
    · intro l hl
      by_cases hln : l = n
      · subst hln
        exact ⟨Function.update_same _ _ _, block_setBlock_same _ _ _ _⟩
      · have hlt : l < n := by omega
        rw [Function.update_noteq hln, block_setBlock_ne _ _ _ _ _ hln]
        exact h1 l hlt
    · intro l hl
      have hln : l ≠ n := by omega
      rw [Function.update_noteq hln]
      exact h2 l (by omega)

/-- The loop of the identity branch over the degrees below `n`: `RSky[l]` is
the identity for every `l < n`, and the other entries are as before. -/
theorem foldl_syncIdentityStep_range (s : Secondary S) (n : Nat) :
    ∃ R, (List.range n).foldl Secondary.syncIdentityStep s = { s with RSky := R } ∧
      (∀ l, l < n → R l = 1) ∧ (∀ l, n ≤ l → R l = s.RSky l) := by
  induction n with
  | zero =>
    exact ⟨s.RSky, rfl, fun l hl => absurd hl (Nat.not_lt_zero l), fun l _ => rfl⟩
  | succ n ih =>
    obtain ⟨R, hf, h1, h2⟩ := ih
    refine ⟨Function.update R n 1, ?_, ?_, ?_⟩
    · rw [List.range_succ, List.foldl_append, hf]
      rfl
    · intro l hl
      by_cases hln : l = n
      · subst hln
        exact Function.update_same _ _ _
      · rw [Function.update_noteq hln]
        exact h1 l (by omega)
    · intro l hl
      have hln : l ≠ n := by omega
      rw [Function.update_noteq hln]
      exact h2 l (by omega)

/-- The rotating branch of `syncSkyMap`, taken when `Omega != 0` or
`sini < 1 - 2 * mach_eps`. -/
theorem syncSkyMap_rotating (c : Collaborators S) (u : Utils S) (s : Secondary S)
    (h : s.Omega ≠ 0 ∨ s.sini < 1 - 2 * u.mach_eps) :
    ∃ R Y, Secondary.syncSkyMap c u s =
        { s with
          W1 := s.W1.compute c s.sini s.cosi,
          W2 := s.W2.compute c s.cosO s.sinO,
          RSky := R, skyY := Y, skyMap := s.skyMap.setY Y } ∧
      (∀ l, l ≤ s.lmax →
        R l = c.wignerR s.W1.axis s.sini s.cosi l * c.wignerR s.W2.axis s.cosO s.sinO l ∧
        block Y l s.nwav = R l * block s.y l s.nwav) ∧
      (∀ l, s.lmax < l → R l = s.RSky l) := by
  obtain ⟨R, Y, hf, h1, h2⟩ := foldl_syncRotateStep_range
    { s with W1 := s.W1.compute c s.sini s.cosi, W2 := s.W2.compute c s.cosO s.sinO }
    (s.lmax + 1)
  have e : Secondary.syncSkyMap c u s =
      (fun s3 : Secondary S => ({ s3 with skyMap := s3.skyMap.setY s3.skyY } : Secondary S))
        (List.foldl Secondary.syncRotateStep
          { s with W1 := s.W1.compute c s.sini s.cosi, W2 := s.W2.compute c s.cosO s.sinO }
          (List.range (s.lmax + 1))) := by
    unfold Secondary.syncSkyMap
    rw [if_pos h]
  refine ⟨R, Y, ?_, fun l hl => ?_, fun l hl => h2 l (by omega)⟩
  · rw [e, hf]
  · obtain ⟨hR, hY⟩ := h1 l (by omega)
    refine ⟨hR, ?_⟩
    rw [hR]
    exact hY

/-- The identity branch of `syncSkyMap`, taken when `Omega == 0` and `sini` is
not below `1 - 2 * mach_eps`. -/
theorem syncSkyMap_identity (c : Collaborators S) (u : Utils S) (s : Secondary S)
    (h : ¬ (s.Omega ≠ 0 ∨ s.sini < 1 - 2 * u.mach_eps)) :
    ∃ R, Secondary.syncSkyMap c u s =
        { s with RSky := R, skyMap := s.skyMap.setY s.y } ∧
      (∀ l, l ≤ s.lmax → R l = 1) ∧ (∀ l, s.lmax < l → R l = s.RSky l) := by
  obtain ⟨R, hf, h1, h2⟩ := foldl_syncIdentityStep_range s (s.lmax + 1)
  have e : Secondary.syncSkyMap c u s =
      (fun s1 : Secondary S => ({ s1 with skyMap := s1.skyMap.setY s1.y } : Secondary S))
        (List.foldl Secondary.syncIdentityStep s (List.range (s.lmax + 1))) := by
    unfold Secondary.syncSkyMap
    rw [if_neg h]
  refine ⟨R, ?_, fun l hl => h1 l (by omega), fun l hl => h2 l (by omega)⟩
  rw [e, hf]

/-- Claim C19: `syncSkyMap` takes the identity branch exactly when
`Omega == 0` and `sini >= 1 - 2 * mach_eps`.  Then every `RSky[l]`
(`l = 0..lmax`) is the identity and the coefficients of `skyMap` are the
coefficients `y`; `W1`, `W2` and `skyY` are not written.  Otherwise `W1` and
`W2` are recomputed from `(sini, cosi)` and `(cosO, sinO)`, every `RSky[l]` is
the product `W1.R[l] * W2.R[l]`, the block of degree `l` of `skyY` is
`RSky[l]` applied to the block of degree `l` of `y`, and the coefficients of
`skyMap` are `skyY`.  In both branches the block of degree `l` of the
coefficients of `skyMap` is `RSky[l]` applied to the block of degree `l` of
`y`, and `y` is not written. -/
theorem syncSkyMap_branches (c : Collaborators S) (u : Utils S) (s : Secondary S) :
    ((s.Omega = 0 ∧ 1 - 2 * u.mach_eps ≤ s.sini) →
      (∀ l, l ≤ s.lmax → (Secondary.syncSkyMap c u s).RSky l = 1) ∧
      (Secondary.syncSkyMap c u s).skyMap.y = s.y ∧
      (Secondary.syncSkyMap c u s).W1 = s.W1 ∧ (Secondary.syncSkyMap c u s).W2 = s.W2 ∧
      (Secondary.syncSkyMap c u s).skyY = s.skyY) ∧
    (¬ (s.Omega = 0 ∧ 1 - 2 * u.mach_eps ≤ s.sini) →
      (Secondary.syncSkyMap c u s).W1.R = c.wignerR s.W1.axis s.sini s.cosi ∧
      (Secondary.syncSkyMap c u s).W2.R = c.wignerR s.W2.axis s.cosO s.sinO ∧
      (∀ l, l ≤ s.lmax →
        (Secondary.syncSkyMap c u s).RSky l =
          c.wignerR s.W1.axis s.sini s.cosi l * c.wignerR s.W2.axis s.cosO s.sinO l ∧
        block (Secondary.syncSkyMap c u s).skyY l s.nwav =
          (Secondary.syncSkyMap c u s).RSky l * block s.y l s.nwav) ∧
      (Secondary.syncSkyMap c u s).skyMap.y = (Secondary.syncSkyMap c u s).skyY) ∧
    (∀ l, l ≤ s.lmax →
      block (Secondary.syncSkyMap c u s).skyMap.y l s.nwav =
        (Secondary.syncSkyMap c u s).RSky l * block s.y l s.nwav) ∧
    (Secondary.syncSkyMap c u s).y = s.y := by
  have hiff : (s.Omega = 0 ∧ 1 - 2 * u.mach_eps ≤ s.sini) ↔
      ¬ (s.Omega ≠ 0 ∨ s.sini < 1 - 2 * u.mach_eps) := by
    rw [not_or, not_not, not_lt]
  by_cases h : s.Omega ≠ 0 ∨ s.sini < 1 - 2 * u.mach_eps
  · obtain ⟨R, Y, hs, h1, _⟩ := syncSkyMap_rotating c u s h
    have hno : ¬ (s.Omega = 0 ∧ 1 - 2 * u.mach_eps ≤ s.sini) := fun hc => hiff.1 hc h
    rw [hs]
    refine ⟨fun hc => absurd hc hno, fun _ => ⟨rfl, rfl, h1, rfl⟩, fun l hl => (h1 l hl).2,
      rfl⟩
  · obtain ⟨R, hs, h1, _⟩ := syncSkyMap_identity c u s h
    rw [hs]
    refine ⟨fun _ => ⟨h1, rfl, rfl, rfl, rfl⟩, fun hc => absurd (hiff.2 h) hc,
      fun l hl => ?_, rfl⟩
    show block s.y l s.nwav = R l * block s.y l s.nwav
    rw [h1 l hl, Matrix.one_mul]

/-- The sample state over the reals has `sini = 0`, so it is not in the
identity case of `syncSkyMap`. -/
theorem sampleSecondary_rotating :
    ¬ ((sampleSecondary : Secondary ℝ).Omega = 0 ∧
      1 - 2 * realUtils.mach_eps ≤ (sampleSecondary : Secondary ℝ).sini) := by
  rintro ⟨_, h⟩
  have h2 : (1 : ℝ) - 2 * (1 / 2 ^ 52) ≤ 0 := h
  norm_num at h2

/-- Witness for claim C19: the rotating branch on the sample state over the
reals, at the degree `l = 1`. -/
theorem syncSkyMap_branches_witness :
    ¬ ((sampleSecondary : Secondary ℝ).Omega = 0 ∧
      1 - 2 * realUtils.mach_eps ≤ (sampleSecondary : Secondary ℝ).sini) ∧
    (Secondary.syncSkyMap sampleCollaborators realUtils sampleSecondary).RSky 1 =
      (sampleCollaborators : Collaborators ℝ).wignerR Axis.xhat 0 0 1 *
        (sampleCollaborators : Collaborators ℝ).wignerR Axis.zhat 0 0 1 ∧
    block (Secondary.syncSkyMap sampleCollaborators realUtils sampleSecondary).skyY 1 1 =
      (Secondary.syncSkyMap sampleCollaborators realUtils sampleSecondary).RSky 1 *
        block (sampleSecondary : Secondary ℝ).y 1 1 :=
  ⟨sampleSecondary_rotating,
    ((syncSkyMap_branches sampleCollaborators realUtils sampleSecondary).2.1
      sampleSecondary_rotating).2.2.1 1 (by decide)⟩

/-- The result of `setInc(x)` for `x` in `[0, 180)`. -/
theorem setInc_result (u : Utils S) (s : Secondary S) (x : S) (hx0 : 0 ≤ x) (hx1 : x < 180) :
    Secondary.setInc u s x = Except.ok
      { s with
        inc := x * u.pi / 180,
        cosi := u.cos (x * u.pi / 180),
        sini := u.sin (x * u.pi / 180),
        cosOcosi := s.cosO * u.cos (x * u.pi / 180),
        sinOcosi := s.sinO * u.cos (x * u.pi / 180) } := by
  unfold Secondary.setInc
  rw [if_pos ⟨hx0, hx1⟩]

/-- The tolerance of `syncSkyMap` over the reals lies strictly between `0`
and `1`. -/
theorem real_tolerance : (0 : ℝ) < 1 - 2 * realUtils.mach_eps ∧ 1 - 2 * realUtils.mach_eps ≤ 1 := by
  have h : realUtils.mach_eps = 1 / 2 ^ 52 := rfl
  rw [h]
  constructor <;> norm_num

/-- The sample rotation block of degree 1 for a quarter turn about the x axis
followed by no turn about the z axis is not the identity. -/
theorem sample_quarter_turn_ne_one :
    (sampleCollaborators : Collaborators ℝ).wignerR Axis.xhat 0 1 1 *
      (sampleCollaborators : Collaborators ℝ).wignerR Axis.zhat 1 0 1 ≠ 1 := by
  intro h
  have h00 := congrFun (congrFun h 0) 0
  have hA : ((Matrix.of ![![(0 : ℝ), -1, 0], ![1, 0, 0], ![0, 0, 1]] : Matrix (Fin 3) (Fin 3) ℝ) *
      (Matrix.of ![![(1 : ℝ), 0, 0], ![0, 1, 0], ![-0, 0, 1]] : Matrix (Fin 3) (Fin 3) ℝ))
      0 0 = (1 : Matrix (Fin 3) (Fin 3) ℝ) 0 0 := h00
  simp [Matrix.mul_apply, Fin.sum_univ_three] at hA

/-- Counterexample to claim C20 as stated: on the secondary constructed over
the reals with the sample collaborators, after `setInc(0)` (with `Omega = 0`
from the constructor) `syncSkyMap` does not install the identity: `RSky[1]` is
the sample quarter turn, which is not the identity matrix. -/
theorem syncSkyMap_face_on_not_identity :
    ∃ s s1, Secondary.construct sampleCollaborators realUtils sampleSecondary = Except.ok s ∧
      Secondary.setInc realUtils s 0 = Except.ok s1 ∧
      s1.inc = 0 ∧ s1.Omega = 0 ∧ 1 ≤ s1.lmax ∧
      (Secondary.syncSkyMap sampleCollaborators realUtils s1).RSky 1 ≠ 1 := by
  obtain ⟨s, hs, _, _, _, _, _, hOm, _, _, _, _, _, _, _, hcache, hmap, hW1, hW2⟩ :=
    secondary_construct sampleCollaborators realUtils sampleSecondary
  obtain ⟨hcO, hsO, _, _, _, _, _, _⟩ := hcache
  have hOm2 : s.Omega = 0 := by
    rw [hOm, realMod2pi_zero]; simp
  have hlmax : s.lmax = 2 := by
    show s.toMap.lmax = 2
    rw [hmap]; rfl
  have hres := setInc_result realUtils s 0 (le_refl 0) (by norm_num)
  have hzero : (0 : ℝ) * realUtils.pi / 180 = 0 := by simp
  rw [hzero] at hres
  have hsin : realUtils.sin 0 = 0 := Real.sin_zero
  have hcos : realUtils.cos 0 = 1 := Real.cos_zero
  rw [hsin, hcos] at hres
  refine ⟨s, _, hs, hres, rfl, hOm2, by show 1 ≤ s.lmax; omega, ?_⟩
  obtain ⟨R, Y, hsync, h1, _⟩ := syncSkyMap_rotating sampleCollaborators realUtils
    ({ s with
      inc := 0,
      cosi := 1,
      sini := 0,
      cosOcosi := s.cosO * 1,
      sinOcosi := s.sinO * 1 } : Secondary ℝ)
    (Or.inr real_tolerance.1)
  rw [hsync]
  show R 1 ≠ 1
  rw [(h1 1 (by show 1 ≤ s.lmax; omega)).1]
  show sampleCollaborators.wignerR s.W1.axis 0 1 1 *
    sampleCollaborators.wignerR s.W2.axis s.cosO s.sinO 1 ≠ 1
  rw [hW1, hW2, hcO, hsO, hOm2, hcos, hsin]
  exact sample_quarter_turn_ne_one

/-- Claim C20, amended: over the reals, for every secondary and every
collaborator, after `setOmega(0)` and `setInc(90)` (edge-on, `sini = 1`)
`syncSkyMap` installs the identity mapping: every `RSky[l]` is the identity
and the coefficients of `skyMap` are the coefficients `y`; after `setOmega(0)`
and `setInc(0)` (face-on, `sini = 0`) it installs the rotation
`RSky[l] = W1.R[l] * W2.R[l]` computed from `(sini, cosi) = (0, 1)` and
`(cosO, sinO) = (1, 0)`; and it installs the rotation
`RSky[l] = W1.R[l] * W2.R[l]` whenever `sini` is below `1 - 2 * mach_eps`. -/
theorem syncSkyMap_edge_on_identity (c : Collaborators ℝ) (s : Secondary ℝ) :
    (∃ s1, Secondary.setInc realUtils (Secondary.setOmega realUtils s 0) 90 = Except.ok s1 ∧
      s1.Omega = 0 ∧ s1.inc = Real.pi / 2 ∧ s1.sini = 1 ∧
      (∀ l, l ≤ s.lmax → (Secondary.syncSkyMap c realUtils s1).RSky l = 1) ∧
      (Secondary.syncSkyMap c realUtils s1).skyMap.y = s.y) ∧
    (∃ s1, Secondary.setInc realUtils (Secondary.setOmega realUtils s 0) 0 = Except.ok s1 ∧
      s1.Omega = 0 ∧ s1.inc = 0 ∧ s1.sini = 0 ∧ s1.cosi = 1 ∧
      (∀ l, l ≤ s.lmax →
        (Secondary.syncSkyMap c realUtils s1).RSky l =
          c.wignerR s.W1.axis 0 1 l * c.wignerR s.W2.axis 1 0 l ∧
        block (Secondary.syncSkyMap c realUtils s1).skyMap.y l s.nwav =
          (Secondary.syncSkyMap c realUtils s1).RSky l * block s.y l s.nwav)) ∧
    (s.sini < 1 - 2 * realUtils.mach_eps → ∀ l, l ≤ s.lmax →
      (Secondary.syncSkyMap c realUtils s).RSky l =
        c.wignerR s.W1.axis s.sini s.cosi l * c.wignerR s.W2.axis s.cosO s.sinO l) := by
  have hOm : (Secondary.setOmega realUtils s 0).Omega = 0 := by
    show realUtils.mod2pi 0 * realUtils.pi / 180 = 0
    rw [realMod2pi_zero]; simp
  have hcO : (Secondary.setOmega realUtils s 0).cosO = 1 := by
    show realUtils.cos (realUtils.mod2pi 0 * realUtils.pi / 180) = 1
    rw [realMod2pi_zero]
    show Real.cos (0 * Real.pi / 180) = 1
    simp
  have hsO : (Secondary.setOmega realUtils s 0).sinO = 0 := by
    show realUtils.sin (realUtils.mod2pi 0 * realUtils.pi / 180) = 0
    rw [realMod2pi_zero]
    show Real.sin (0 * Real.pi / 180) = 0
    simp
  refine ⟨?_, ?_, fun hlt l hl => ?_⟩
  · have hres := setInc_result realUtils (Secondary.setOmega realUtils s 0) 90
      (by norm_num) (by norm_num)
    have hhalf : (90 : ℝ) * realUtils.pi / 180 = Real.pi / 2 := by
      show (90 : ℝ) * Real.pi / 180 = Real.pi / 2
      ring
    have hsin : realUtils.sin (Real.pi / 2) = 1 := Real.sin_pi_div_two
    rw [hhalf, hsin] at hres
    refine ⟨_, hres, hOm, rfl, rfl, ?_⟩
    have hid : ¬ ((0 : ℝ) ≠ 0 ∨ (1 : ℝ) < 1 - 2 * realUtils.mach_eps) := by
      rintro (h | h)
      · exact h rfl
      · exact absurd real_tolerance.2 (not_le.2 h)
    obtain ⟨R, hsync, h1, _⟩ := syncSkyMap_identity c realUtils
      ({ Secondary.setOmega realUtils s 0 with
        inc := Real.pi / 2,
        cosi := realUtils.cos (Real.pi / 2),
        sini := 1,
        cosOcosi := (Secondary.setOmega realUtils s 0).cosO * realUtils.cos (Real.pi / 2),
        sinOcosi := (Secondary.setOmega realUtils s 0).sinO * realUtils.cos (Real.pi / 2) } :
          Secondary ℝ)
      (by rw [show ({ Secondary.setOmega realUtils s 0 with
            inc := Real.pi / 2,
            cosi := realUtils.cos (Real.pi / 2),
            sini := 1,
            cosOcosi := (Secondary.setOmega realUtils s 0).cosO * realUtils.cos (Real.pi / 2),
            sinOcosi := (Secondary.setOmega realUtils s 0).sinO * realUtils.cos (Real.pi / 2) } :
              Secondary ℝ).Omega = 0 from hOm]
          exact hid)
    rw [hsync]
    exact ⟨h1, rfl⟩
  · have hres := setInc_result realUtils (Secondary.setOmega realUtils s 0) 0
      (le_refl 0) (by norm_num)
    have hzero : (0 : ℝ) * realUtils.pi / 180 = 0 := by simp
    have hsin : realUtils.sin 0 = 0 := Real.sin_zero
    have hcos : realUtils.cos 0 = 1 := Real.cos_zero
    rw [hzero, hsin, hcos] at hres
    refine ⟨_, hres, hOm, rfl, rfl, rfl, fun l hl => ?_⟩
    obtain ⟨R, Y, hsync, h1, _⟩ := syncSkyMap_rotating c realUtils
      ({ Secondary.setOmega realUtils s 0 with
        inc := 0,
        cosi := 1,
        sini := 0,
        cosOcosi := (Secondary.setOmega realUtils s 0).cosO * 1,
        sinOcosi := (Secondary.setOmega realUtils s 0).sinO * 1 } : Secondary ℝ)
      (Or.inr real_tolerance.1)
    rw [hsync]
    obtain ⟨hR, hY⟩ := h1 l hl
    refine ⟨?_, hY⟩
    show R l = _
    rw [hR]
    show c.wignerR s.W1.axis 0 1 l *
        c.wignerR s.W2.axis (Secondary.setOmega realUtils s 0).cosO
          (Secondary.setOmega realUtils s 0).sinO l = _
    rw [hcO, hsO]
  · obtain ⟨R, Y, hsync, h1, _⟩ := syncSkyMap_rotating c realUtils s (Or.inr hlt)
    rw [hsync]
    exact (h1 l hl).1

end Sky

/-! ## Theorems: denominators and the true anomaly -/

section Safety

/-- The real angle wrap has the period `2π`. -/
theorem realMod2pi_add_period (x : ℝ) :
    realUtils.mod2pi (x + 2 * realUtils.pi) = realUtils.mod2pi x := by
  show realMod2pi (x + 2 * Real.pi) = realMod2pi x
  have hpos : (2 * Real.pi) ≠ 0 := by positivity
  unfold realMod2pi
  rw [add_div, div_self hpos, Int.floor_add_one]
  push_cast
  ring

/-- The square root in the `vamp` computation is positive for an eccentricity
in `[0, 1)`. -/
theorem sqrt_one_sub_sq_pos (ecc : ℝ) (h0 : 0 ≤ ecc) (h1 : ecc < 1) :
    0 < Real.sqrt (1 - ecc ^ 2) := by
  apply Real.sqrt_pos.mpr
  nlinarith

/-- Claim C24: for every `ecc` in `[0, 1)` and all real `E` and `f`, the
Newton denominator `1 - ecc * cos E` is at least `1 - ecc > 0`, so that the
Newton update of the solver and the factor `norm1` of the differentiation rule
are true quotients; the orbital-radius denominator `1 + ecc * cos f` is
positive; `sqrt(1 - ecc^2)` is positive, also as `setEcc(ecc)` caches it for
the `vamp` computation; and every eccentricity that `setEcc` stores lies in
`[0, 1)`. -/
theorem denominators_positive (ecc E f : ℝ) (h0 : 0 ≤ ecc) (h1 : ecc < 1) :
    1 - ecc ≤ 1 - ecc * realUtils.cos E ∧ 0 < 1 - ecc ∧
    (∀ M, (E - newtonStep realUtils M ecc E) * (1 - ecc * realUtils.cos E) =
      E - ecc * realUtils.sin E - M) ∧
    norm1 realUtils ecc E * (1 - ecc * realUtils.cos E) = 1 ∧
    0 < 1 + ecc * realUtils.cos f ∧
    0 < realUtils.sqrt (1 - ecc ^ 2) ∧
    (∀ s : Secondary ℝ, ∃ s1, Secondary.setEcc realUtils s ecc = Except.ok s1 ∧
      s1.ecc = ecc ∧ 0 < realUtils.sqrt (1 - s1.ecc2)) ∧
    (∀ (s : Secondary ℝ) (x : ℝ) (s1 : Secondary ℝ),
      Secondary.setEcc realUtils s x = Except.ok s1 → 0 ≤ s1.ecc ∧ s1.ecc < 1) := by
  have hcE : Real.cos E ≤ 1 := Real.cos_le_one E
  have hcf : -1 ≤ Real.cos f := Real.neg_one_le_cos f
  have hden : 0 < 1 - ecc * Real.cos E :=
    kepler_denominator_pos ecc (Real.cos E) h0 h1 (Real.abs_cos_le_one E)
  have hsq : 0 < Real.sqrt (1 - ecc ^ 2) := sqrt_one_sub_sq_pos ecc h0 h1
  refine ⟨?_, by linarith, fun M => ?_, ?_, ?_, hsq, fun s => ?_, fun s x s1 hs => ?_⟩
  · show 1 - ecc ≤ 1 - ecc * Real.cos E
    nlinarith
  · show (E - (E - (E - ecc * Real.sin E - M) / (1 - ecc * Real.cos E))) *
      (1 - ecc * Real.cos E) = E - ecc * Real.sin E - M
    field_simp
  · show 1 / (1 - ecc * Real.cos E) * (1 - ecc * Real.cos E) = 1
    field_simp
  · show 0 < 1 + ecc * Real.cos f
    nlinarith
  · obtain ⟨t, ht⟩ := Secondary.computeTheta0_eq realUtils
      { s with
        ecc := ecc,
        sqrtonepluse := realUtils.sqrt (1 + ecc),
        sqrtoneminuse := realUtils.sqrt (1 - ecc),
        ecc2 := ecc * ecc,
        ecw := ecc * realUtils.cos s.w,
        esw := ecc * realUtils.sin s.w,
        vamp := s.angvelorb * s.a / realUtils.sqrt (1 - ecc * ecc) }
    have hres : Secondary.setEcc realUtils s ecc = Except.ok
        { s with
          ecc := ecc,
          sqrtonepluse := realUtils.sqrt (1 + ecc),
          sqrtoneminuse := realUtils.sqrt (1 - ecc),
          ecc2 := ecc * ecc,
          ecw := ecc * realUtils.cos s.w,
          esw := ecc * realUtils.sin s.w,
          vamp := s.angvelorb * s.a / realUtils.sqrt (1 - ecc * ecc),
          theta0 := t } := by
      unfold Secondary.setEcc
      rw [if_pos ⟨h0, h1⟩]
      exact congrArg Except.ok ht
    refine ⟨_, hres, rfl, ?_⟩
    show 0 < Real.sqrt (1 - ecc * ecc)
    rw [← pow_two]
    exact hsq
  · unfold Secondary.setEcc at hs
    split at hs
    · rename_i hx
      obtain ⟨t, ht⟩ := Secondary.computeTheta0_eq realUtils
        { s with
          ecc := x,
          sqrtonepluse := realUtils.sqrt (1 + x),
          sqrtoneminuse := realUtils.sqrt (1 - x),
          ecc2 := x * x,
          ecw := x * realUtils.cos s.w,
          esw := x * realUtils.sin s.w,
          vamp := s.angvelorb * s.a / realUtils.sqrt (1 - x * x) }
      injection hs with hs
      rw [← hs]
      exact (congrArg (fun z : Secondary ℝ => 0 ≤ z.ecc ∧ z.ecc < 1) ht).mpr hx
    · cases hs

/-- Witness for claim C24: the eccentricity `1/2`, the eccentric anomaly `0`
and the true anomaly `π`, where the two denominators take their least
value `1/2`. -/
theorem denominators_positive_witness :
    (0 : ℝ) ≤ 1 / 2 ∧ (1 / 2 : ℝ) < 1 ∧
    1 - (1 / 2 : ℝ) ≤ 1 - 1 / 2 * realUtils.cos 0 ∧ 0 < 1 - (1 / 2 : ℝ) ∧
    0 < 1 + (1 / 2 : ℝ) * realUtils.cos Real.pi ∧
    0 < realUtils.sqrt (1 - (1 / 2 : ℝ) ^ 2) :=
  have h := denominators_positive (1 / 2) 0 Real.pi (by norm_num) (by norm_num)
  ⟨by norm_num, by norm_num, h.1, h.2.1, h.2.2.2.2.1, h.2.2.2.2.2.1⟩

end Safety

/-! ## Theorems: the geometry of the orbit -/

section Geometry

variable {S : Type} [LinearOrderedField S]

/-- On an eccentric orbit for which the Kepler solver returns `E`,
`orbitStep(time)` returns, and stores `E`, the true anomaly and the orbital
radius computed from the cached quantities. -/
theorem orbitStep_ecc_ne_zero (u : Utils S) (s : Secondary S) (time E : S)
    (hecc : s.ecc ≠ 0)
    (hE : EccentricAnomaly u (u.mod2pi (s.M0 + s.angvelorb * (time - s.tref))) s.ecc =
      Except.ok E) :
    ∃ s1, Secondary.orbitStep u s time = Except.ok s1 ∧ s1.E = E ∧
      s1.f = 2 * u.atan2 (s.sqrtonepluse * u.sin (E / 2)) (s.sqrtoneminuse * u.cos (E / 2)) ∧
      s1.rorb = s.a * (1 - s.ecc2) / (1 + s.ecc * u.cos s1.f) ∧
      s1.x_cur = -s1.rorb * (s.cosO * u.cos (s.w + s1.f) - s.sinOcosi * u.sin (s.w + s1.f)) ∧
      s1.y_cur = -s1.rorb * (s.sinO * u.cos (s.w + s1.f) + s.cosOcosi * u.sin (s.w + s1.f)) ∧
      s1.z_cur = s1.rorb * u.sin (s.w + s1.f) * s.sini := by
  simp only [Secondary.orbitStep, hecc, if_false, hE, bind, Except.bind, pure, Except.pure]
  exact ⟨_, rfl, rfl, rfl, rfl, rfl, rfl, rfl⟩

/-- Every `orbitStep(time)` that returns has stored the position
`(x_cur, y_cur, z_cur)` computed from the orbital radius and the true anomaly
it stored and from the cached quantities; on a circular orbit the orbital
radius is `a`. -/
theorem orbitStep_ok_position (u : Utils S) (s : Secondary S) (time : S) (s1 : Secondary S)
    (h : Secondary.orbitStep u s time = Except.ok s1) :
    s1.x_cur = -s1.rorb * (s.cosO * u.cos (s.w + s1.f) - s.sinOcosi * u.sin (s.w + s1.f)) ∧
    s1.y_cur = -s1.rorb * (s.sinO * u.cos (s.w + s1.f) + s.cosOcosi * u.sin (s.w + s1.f)) ∧
    s1.z_cur = s1.rorb * u.sin (s.w + s1.f) * s.sini ∧
    (s.ecc = 0 → s1.rorb = s.a) := by
  by_cases hecc : s.ecc = 0
  · rw [orbitStep_ecc_zero u s time hecc] at h
    injection h with h
    subst h
    exact ⟨rfl, rfl, rfl, fun _ => rfl⟩
  · cases hE : EccentricAnomaly u (u.mod2pi (s.M0 + s.angvelorb * (time - s.tref))) s.ecc with
    | error e =>
      simp only [Secondary.orbitStep, hecc, if_false, hE, bind, Except.bind] at h
      cases h
    | ok E =>
      obtain ⟨s2, hs2, _, _, _, hx, hy, hz⟩ := orbitStep_ecc_ne_zero u s time E hecc hE
      rw [hs2] at h
      injection h with h
      subst h
      exact ⟨hx, hy, hz, fun h0 => absurd h0 hecc⟩

/-- The sum of the squares of the position that `orbitStep` computes is the
square of the orbital radius, when the cached cosines and sines are consistent
and `cos^2 + sin^2 = 1` holds at the argument `w + f`. -/
theorem position_norm_sq (r cO sO ci si cOci sOci cwf swf : S)
    (hO : cO ^ 2 + sO ^ 2 = 1) (hi : ci ^ 2 + si ^ 2 = 1)
    (hcOci : cOci = cO * ci) (hsOci : sOci = sO * ci) (hwf : cwf ^ 2 + swf ^ 2 = 1) :
    (-r * (cO * cwf - sOci * swf)) ^ 2 + (-r * (sO * cwf + cOci * swf)) ^ 2 +
      (r * swf * si) ^ 2 = r ^ 2 := by
  subst hcOci hsOci
  linear_combination (r ^ 2 * cwf ^ 2 + r ^ 2 * swf ^ 2 * ci ^ 2) * hO +
    r ^ 2 * swf ^ 2 * hi + r ^ 2 * hwf

end Geometry

/-! ## Theorems: cache consistency -/

section Caches

variable {S : Type} [LinearOrderedField S]

/-- The override `computeTheta0` stores the angle of the specification, and
nothing else, when the cached `ecc2` is the square of `ecc`. -/
theorem computeTheta0_specTheta0 (u : Utils S) (s : Secondary S) (h2 : s.ecc2 = s.ecc ^ 2) :
    Secondary.computeTheta0 u s = { s with theta0 := Secondary.specTheta0 u s } := by
  unfold Secondary.computeTheta0 Secondary.specTheta0
  rw [h2]
  cases s.prot with
  | INFINITY => rfl
  | fin p => rfl

/-- The setter `setSemi` keeps the caches consistent. -/
theorem setSemi_consistent (u : Utils S) (s s1 : Secondary S) (x : S)
    (h : Secondary.CacheConsistent u s) (hs : Secondary.setSemi u s x = Except.ok s1) :
    Secondary.CacheConsistent u s1 := by
  obtain ⟨h1, h2, h3, h4, h5, h6, h7, h8, h9, h10, h11, h12, h13, h14, h15⟩ := h
  unfold Secondary.setSemi at hs
  split at hs
  · injection hs with hs
    subst hs
    exact ⟨h1, h2, h3, h4, h5, h6, h7, h8, h9, h10, h11, h12, h13, rfl, h15⟩
  · cases hs

/-- The setter `setOrbPer` keeps the caches consistent. -/
theorem setOrbPer_consistent (u : Utils S) (s s1 : Secondary S) (x : S)
    (h : Secondary.CacheConsistent u s) (hs : Secondary.setOrbPer u s x = Except.ok s1) :
    Secondary.CacheConsistent u s1 := by
  obtain ⟨h1, h2, h3, h4, h5, h6, h7, h8, h9, h10, h11, h12, h13, h14, h15⟩ := h
  simp only [Secondary.setOrbPer] at hs
  split at hs
  · rw [computeTheta0_specTheta0] at hs
    · injection hs with hs
      subst hs
      exact ⟨rfl, h2, h3, h4, h5, h6, h7, h8, h9, h10, h11, h12, h13, rfl, rfl⟩
    · exact h11
  · cases hs

/-- The setter `setInc` keeps the caches consistent. -/
theorem setInc_consistent (u : Utils S) (s s1 : Secondary S) (x : S)
    (h : Secondary.CacheConsistent u s) (hs : Secondary.setInc u s x = Except.ok s1) :
    Secondary.CacheConsistent u s1 := by
  obtain ⟨h1, h2, h3, h4, h5, h6, h7, h8, h9, h10, h11, h12, h13, h14, h15⟩ := h
  unfold Secondary.setInc at hs
  split at hs
  · injection hs with hs
    subst hs
    exact ⟨h1, h2, rfl, rfl, h5, h6, rfl, rfl, h9, h10, h11, h12, h13, h14, h15⟩
  · cases hs

/-- The setter `setEcc` keeps the caches consistent. -/
theorem setEcc_consistent (u : Utils S) (s s1 : Secondary S) (x : S)
    (h : Secondary.CacheConsistent u s) (hs : Secondary.setEcc u s x = Except.ok s1) :
    Secondary.CacheConsistent u s1 := by
  obtain ⟨h1, h2, h3, h4, h5, h6, h7, h8, h9, h10, h11, h12, h13, h14, h15⟩ := h
  simp only [Secondary.setEcc] at hs
  split at hs
  · rw [computeTheta0_specTheta0] at hs
    · injection hs with hs
      subst hs
      exact ⟨h1, h2, h3, h4, h5, h6, h7, h8, rfl, rfl, (pow_two x).symm, rfl, rfl, rfl, rfl⟩
    · exact (pow_two x).symm
  · cases hs

/-- The setter `setVarPi` keeps the caches consistent. -/
theorem setVarPi_consistent (u : Utils S) (s : Secondary S) (x : S)
    (h : Secondary.CacheConsistent u s) :
    Secondary.CacheConsistent u (Secondary.setVarPi u s x) := by
  obtain ⟨h1, h2, h3, h4, h5, h6, h7, h8, h9, h10, h11, h12, h13, h14, h15⟩ := h
  simp only [Secondary.setVarPi]
  rw [computeTheta0_specTheta0]
  · exact ⟨h1, rfl, h3, h4, h5, h6, h7, h8, h9, h10, h11, rfl, rfl, h14, rfl⟩
  · exact h11

/-- The setter `setOmega` keeps the caches consistent. -/
theorem setOmega_consistent (u : Utils S) (s : Secondary S) (x : S)
    (h : Secondary.CacheConsistent u s) :
    Secondary.CacheConsistent u (Secondary.setOmega u s x) := by
  obtain ⟨h1, h2, h3, h4, h5, h6, h7, h8, h9, h10, h11, h12, h13, h14, h15⟩ := h
  exact ⟨h1, h2, h3, h4, rfl, rfl, rfl, rfl, h9, h10, h11, h12, h13, h14, h15⟩

/-- The setter `setLambda0` keeps the caches consistent. -/
theorem setLambda0_consistent (u : Utils S) (s : Secondary S) (x : S)
    (h : Secondary.CacheConsistent u s) :
    Secondary.CacheConsistent u (Secondary.setLambda0 u s x) := by
  obtain ⟨h1, h2, h3, h4, h5, h6, h7, h8, h9, h10, h11, h12, h13, h14, h15⟩ := h
  simp only [Secondary.setLambda0]
  rw [computeTheta0_specTheta0]
  · exact ⟨h1, rfl, h3, h4, h5, h6, h7, h8, h9, h10, h11, h12, h13, h14, rfl⟩
  · exact h11

/-- The setter `setRotPer` keeps the caches consistent. -/
theorem setRotPer_consistent (u : Utils S) (s s1 : Secondary S) (x : S)
    (h : Secondary.CacheConsistent u s) (hs : Secondary.setRotPer u s x = Except.ok s1) :
    Secondary.CacheConsistent u s1 := by
  obtain ⟨h1, h2, h3, h4, h5, h6, h7, h8, h9, h10, h11, h12, h13, h14, h15⟩ := h
  simp only [Secondary.setRotPer, Body.setRotPerWith] at hs
  split at hs
  · rw [computeTheta0_specTheta0] at hs
    · injection hs with hs
      subst hs
      exact ⟨h1, h2, h3, h4, h5, h6, h7, h8, h9, h10, h11, h12, h13, h14, rfl⟩
    · exact h11
  · split at hs
    · rw [computeTheta0_specTheta0] at hs
      · injection hs with hs
        subst hs
        exact ⟨h1, h2, h3, h4, h5, h6, h7, h8, h9, h10, h11, h12, h13, h14, rfl⟩
      · exact h11
    · cases hs

/-- The setter `setRefTime` keeps the caches consistent. -/
theorem setRefTime_consistent (s : Secondary S) (u : Utils S) (x : S)
    (h : Secondary.CacheConsistent u s) :
    Secondary.CacheConsistent u (Secondary.setRefTime s x) := by
  obtain ⟨h1, h2, h3, h4, h5, h6, h7, h8, h9, h10, h11, h12, h13, h14, h15⟩ := h
  exact ⟨h1, h2, h3, h4, h5, h6, h7, h8, h9, h10, h11, h12, h13, h14, h15⟩

/-- The setter `setRadius` keeps the caches consistent. -/
theorem setRadius_consistent (u : Utils S) (s s1 : Secondary S) (x : S)
    (h : Secondary.CacheConsistent u s) (hs : Secondary.setRadius s x = Except.ok s1) :
    Secondary.CacheConsistent u s1 := by
  obtain ⟨h1, h2, h3, h4, h5, h6, h7, h8, h9, h10, h11, h12, h13, h14, h15⟩ := h
  by_cases hx : x > 0
  · simp only [Secondary.setRadius, Body.setRadius, if_pos hx, bind, Except.bind, pure,
      Except.pure] at hs
    injection hs with hs
    subst hs
    exact ⟨h1, h2, h3, h4, h5, h6, h7, h8, h9, h10, h11, h12, h13, h14, h15⟩
  · simp only [Secondary.setRadius, Body.setRadius, if_neg hx, bind, Except.bind] at hs
    cases hs

/-- The setter `setLuminosity` keeps the caches consistent. -/
theorem setLuminosity_consistent (u : Utils S) (s s1 : Secondary S) (x : S)
    (h : Secondary.CacheConsistent u s) (hs : Secondary.setLuminosity s x = Except.ok s1) :
    Secondary.CacheConsistent u s1 := by
  obtain ⟨h1, h2, h3, h4, h5, h6, h7, h8, h9, h10, h11, h12, h13, h14, h15⟩ := h
  by_cases hx : x ≥ 0
  · simp only [Secondary.setLuminosity, Body.setLuminosity, if_pos hx, bind, Except.bind,
      pure, Except.pure] at hs
    injection hs with hs
    subst hs
    exact ⟨h1, h2, h3, h4, h5, h6, h7, h8, h9, h10, h11, h12, h13, h14, h15⟩
  · simp only [Secondary.setLuminosity, Body.setLuminosity, if_neg hx, bind,
      Except.bind] at hs
    cases hs

/-- Every setter call that returns keeps the caches consistent. -/
theorem call_consistent (u : Utils S) (s s1 : Secondary S) (op : Secondary.Setter S)
    (h : Secondary.CacheConsistent u s) (hs : Secondary.call u s op = Except.ok s1) :
    Secondary.CacheConsistent u s1 := by
  cases op with
  | setSemi x => exact setSemi_consistent u s s1 x h hs
  | setOrbPer x => exact setOrbPer_consistent u s s1 x h hs
  | setInc x => exact setInc_consistent u s s1 x h hs
  | setEcc x => exact setEcc_consistent u s s1 x h hs
  | setVarPi x =>
    injection hs with hs
    subst hs
    exact setVarPi_consistent u s x h
  | setOmega x =>
    injection hs with hs
    subst hs
    exact setOmega_consistent u s x h
  | setLambda0 x =>
    injection hs with hs
    subst hs
    exact setLambda0_consistent u s x h
  | setRotPer x => exact setRotPer_consistent u s s1 x h hs
  | setRefTime x =>
    injection hs with hs
    subst hs
    exact setRefTime_consistent s u x h
  | setRadius x => exact setRadius_consistent u s s1 x h hs
  | setLuminosity x => exact setLuminosity_consistent u s s1 x h hs

/-- One setter call from outside, returning or not, keeps the caches
consistent. -/
theorem step_consistent (u : Utils S) (s : Secondary S) (op : Secondary.Setter S)
    (h : Secondary.CacheConsistent u s) :
    Secondary.CacheConsistent u (Secondary.step u s op) := by
  unfold Secondary.step
  cases hc : Secondary.call u s op with
  | error e => exact h
  | ok s1 => exact call_consistent u s s1 op h hc

/-- Every sequence of setter calls from outside keeps the caches consistent. -/
theorem run_consistent (u : Utils S) (ops : List (Secondary.Setter S)) (s : Secondary S)
    (h : Secondary.CacheConsistent u s) :
    Secondary.CacheConsistent u (Secondary.run u s ops) := by
  induction ops generalizing s with
  | nil => exact h
  | cons op ops ih => exact ih (Secondary.step u s op) (step_consistent u s op h)

/-- The constructor of `Secondary` returns an object whose caches are
consistent. -/
theorem construct_consistent (c : Collaborators S) (u : Utils S) (raw : Secondary S) :
    ∃ s, Secondary.construct c u raw = Except.ok s ∧ Secondary.CacheConsistent u s := by
  have h1 : (1 / 10 : S) > 0 := by norm_num
  have h2 : (0 : S) ≥ 0 := le_refl 0
  have h3 : (50 : S) > 0 := by norm_num
  have h4 : (1 : S) > 0 := one_pos
  have h5 : (90 : S) ≥ 0 ∧ (90 : S) < 180 := by constructor <;> norm_num
  have h6 : (0 : S) ≥ 0 ∧ (0 : S) < 1 := ⟨le_refl 0, one_pos⟩
  have hc : ∃ s0, Secondary.construct c u raw = Except.ok (Secondary.syncSkyMap c u s0) ∧
      Secondary.CacheConsistent u s0 := by
    simp only [Secondary.construct, body_construct, Secondary.setRadius,
      Secondary.setLuminosity, Body.setRadius, Body.setLuminosity, if_pos h1, if_pos h2,
      if_pos h3, if_pos h4, if_pos h5, if_pos h6, secondary_setRotPer_zero,
      Secondary.setRefTime, Secondary.setSemi, Secondary.setOrbPer, Secondary.setInc,
      Secondary.setEcc, Secondary.setVarPi, Secondary.setOmega, Secondary.setLambda0,
      Secondary.computeTheta0, Body.setRefTime, bind, Except.bind, pure, Except.pure]
    exact ⟨_, rfl, rfl, rfl, rfl, rfl, rfl, rfl, rfl, rfl, rfl, rfl, (pow_two (0 : S)).symm,
      rfl, rfl, rfl, rfl⟩
  obtain ⟨s0, hs0, hcons⟩ := hc
  obtain ⟨W1, W2, R, Y, m, hframe, _, _⟩ := syncSkyMap_frame c u s0
  refine ⟨_, hs0, ?_⟩
  rw [hframe]
  exact hcons

/-- Claim C21: cache consistency is an invariant of the `Secondary`.  The
constructor returns an object on which `angvelorb = 2*pi/porb`,
`M0 = lambda0 - w`, `cosi = cos(inc)`, `sini = sin(inc)`, `cosO = cos(Omega)`,
`sinO = sin(Omega)`, `cosOcosi = cosO*cosi`, `sinOcosi = sinO*cosi`,
`sqrtonepluse = sqrt(1+ecc)`, `sqrtoneminuse = sqrt(1-ecc)`, `ecc2 = ecc^2`,
`ecw = ecc*cos(w)`, `esw = ecc*sin(w)`, `vamp = angvelorb*a/sqrt(1-ecc2)` and
`theta0` is the angle of section 4.4 for the current elements; this holds
again after every sequence of calls of the setters `setSemi`, `setOrbPer`,
`setInc`, `setEcc`, `setVarPi`, `setOmega`, `setLambda0`, `setRotPer`,
`setRefTime`, `setRadius` and `setLuminosity`, in any order and with any
arguments; and every call of a setter that returns on an object with
consistent caches leaves the caches consistent. -/
theorem cache_consistency_invariant (c : Collaborators S) (u : Utils S) (raw : Secondary S) :
    (∃ s0, Secondary.construct c u raw = Except.ok s0 ∧ Secondary.CacheConsistent u s0 ∧
      ∀ ops, Secondary.CacheConsistent u (Secondary.run u s0 ops)) ∧
    (∀ s op s1, Secondary.CacheConsistent u s → Secondary.call u s op = Except.ok s1 →
      Secondary.CacheConsistent u s1) := by
  obtain ⟨s0, hs0, hcons⟩ := construct_consistent c u raw
  exact ⟨⟨s0, hs0, hcons, fun ops => run_consistent u ops s0 hcons⟩,
    fun s op s1 h hs => call_consistent u s s1 op h hs⟩

/-- Every setter call that returns on an object with a positive orbital
period leaves the orbital period positive. -/
theorem call_porb_pos (u : Utils S) (s s1 : Secondary S) (op : Secondary.Setter S)
    (h : 0 < s.porb) (hs : Secondary.call u s op = Except.ok s1) : 0 < s1.porb := by
  cases op with
  | setSemi x =>
    simp only [Secondary.call, Secondary.setSemi] at hs
    split at hs
    · injection hs with hs
      subst hs
      exact h
    · cases hs
  | setOrbPer x =>
    simp only [Secondary.call, Secondary.setOrbPer] at hs
    split at hs
    · rename_i hx
      injection hs with hs
      subst hs
      rw [(Secondary.computeTheta0_elements u _).2.1]
      exact mul_pos hx (by unfold units.DayToSeconds; norm_num)
    · cases hs
  | setInc x =>
    simp only [Secondary.call, Secondary.setInc] at hs
    split at hs
    · injection hs with hs
      subst hs
      exact h
    · cases hs
  | setEcc x =>
    simp only [Secondary.call, Secondary.setEcc] at hs
    split at hs
    · injection hs with hs
      subst hs
      rw [(Secondary.computeTheta0_elements u _).2.1]
      exact h
    · cases hs
  | setVarPi x =>
    simp only [Secondary.call, Secondary.setVarPi] at hs
    injection hs with hs
    subst hs
    rw [(Secondary.computeTheta0_elements u _).2.1]
    exact h
  | setOmega x =>
    injection hs with hs
    subst hs
    exact h
  | setLambda0 x =>
    simp only [Secondary.call, Secondary.setLambda0] at hs
    injection hs with hs
    subst hs
    rw [(Secondary.computeTheta0_elements u _).2.1]
    exact h
  | setRotPer x =>
    simp only [Secondary.call, Secondary.setRotPer, Body.setRotPerWith] at hs
    split at hs
    · injection hs with hs
      subst hs
      rw [(Secondary.computeTheta0_elements u _).2.1]
      exact h
    · split at hs
      · injection hs with hs
        subst hs
        rw [(Secondary.computeTheta0_elements u _).2.1]
        exact h
      · cases hs
  | setRefTime x =>
    injection hs with hs
    subst hs
    exact h
  | setRadius x =>
    by_cases hx : x > 0
    · simp only [Secondary.call, Secondary.setRadius, Body.setRadius, if_pos hx, bind,
        Except.bind, pure, Except.pure] at hs
      injection hs with hs
      subst hs
      exact h
    · simp only [Secondary.call, Secondary.setRadius, Body.setRadius, if_neg hx, bind,
        Except.bind] at hs
      cases hs
  | setLuminosity x =>
    by_cases hx : x ≥ 0
    · simp only [Secondary.call, Secondary.setLuminosity, Body.setLuminosity, if_pos hx,
        bind, Except.bind, pure, Except.pure] at hs
      injection hs with hs
      subst hs
      exact h
    · simp only [Secondary.call, Secondary.setLuminosity, Body.setLuminosity, if_neg hx,
        bind, Except.bind] at hs
      cases hs

/-- Every sequence of setter calls from outside keeps the orbital period
positive. -/
theorem run_porb_pos (u : Utils S) (ops : List (Secondary.Setter S)) (s : Secondary S)
    (h : 0 < s.porb) : 0 < (Secondary.run u s ops).porb := by
  induction ops generalizing s with
  | nil => exact h
  | cons op ops ih =>
    refine ih (Secondary.step u s op) ?_
    unfold Secondary.step
    cases hc : Secondary.call u s op with
    | error e => exact h
    | ok s1 => exact call_porb_pos u s s1 op h hc

/-- Every object that the constructor returned and on which setters were then
called from outside has consistent caches and a positive orbital period. -/
theorem reachable_consistent (c : Collaborators S) (u : Utils S) (raw s0 : Secondary S)
    (ops : List (Secondary.Setter S)) (h0 : Secondary.construct c u raw = Except.ok s0) :
    Secondary.CacheConsistent u (Secondary.run u s0 ops) ∧
      0 < (Secondary.run u s0 ops).porb := by
  obtain ⟨s, hs, hcons⟩ := construct_consistent c u raw
  obtain ⟨s', hs', _, _, hporb, _⟩ := secondary_construct c u raw
  have e : s = s0 := by
    rw [hs] at h0
    injection h0
  have e' : s' = s0 := by
    rw [hs'] at h0
    injection h0
  rw [e] at hcons
  rw [e'] at hporb
  refine ⟨run_consistent u ops s0 hcons, run_porb_pos u ops s0 ?_⟩
  rw [hporb]
  norm_num

/-- With `cos^2 + sin^2 = 1`, consistent caches satisfy the two Pythagorean
identities and hold the two products. -/
theorem consistent_trig (u : Utils S) (hpyth : ∀ x, u.cos x ^ 2 + u.sin x ^ 2 = 1)
    (s : Secondary S) (h : Secondary.CacheConsistent u s) :
    s.cosO ^ 2 + s.sinO ^ 2 = 1 ∧ s.cosi ^ 2 + s.sini ^ 2 = 1 ∧
      s.cosOcosi = s.cosO * s.cosi ∧ s.sinOcosi = s.sinO * s.cosi := by
  obtain ⟨_, _, h3, h4, h5, h6, h7, h8, _⟩ := h
  refine ⟨?_, ?_, h7, h8⟩
  · rw [h5, h6]
    exact hpyth _
  · rw [h3, h4]
    exact hpyth _

end Caches

/-! ## Theorems: distance, periodicity and the orbital radius -/

section OrbitClaims

variable {S : Type} [LinearOrderedField S]

/-- Claim C22: when the sine and cosine of the utilities satisfy
`cos^2 + sin^2 = 1`, every `orbitStep` that returns on a `Secondary` whose
cached trigonometric values are consistent (`cosi^2 + sini^2 = 1`,
`cosO^2 + sinO^2 = 1`, `cosOcosi = cosO*cosi`, `sinOcosi = sinO*cosi`) leaves
`x_cur^2 + y_cur^2 + z_cur^2 = rorb^2`, which is `a^2` for `ecc = 0`; for
`ecc = 0` the step returns at every time; and the identity holds after every
`orbitStep` that returns on an object that the constructor returned and on
which setters were then called in any order. -/
theorem orbitStep_distance (u : Utils S) (hpyth : ∀ x, u.cos x ^ 2 + u.sin x ^ 2 = 1) :
    (∀ (s : Secondary S) (time : S) (s1 : Secondary S),
      s.cosi ^ 2 + s.sini ^ 2 = 1 → s.cosO ^ 2 + s.sinO ^ 2 = 1 →
      s.cosOcosi = s.cosO * s.cosi → s.sinOcosi = s.sinO * s.cosi →
      Secondary.orbitStep u s time = Except.ok s1 →
      s1.x_cur ^ 2 + s1.y_cur ^ 2 + s1.z_cur ^ 2 = s1.rorb ^ 2 ∧
        (s.ecc = 0 → s1.x_cur ^ 2 + s1.y_cur ^ 2 + s1.z_cur ^ 2 = s.a ^ 2)) ∧
    (∀ (s : Secondary S) (time : S), s.ecc = 0 →
      ∃ s1, Secondary.orbitStep u s time = Except.ok s1) ∧
    (∀ (c : Collaborators S) (raw s0 : Secondary S) (ops : List (Secondary.Setter S))
      (time : S) (s1 : Secondary S),
      Secondary.construct c u raw = Except.ok s0 →
      Secondary.orbitStep u (Secondary.run u s0 ops) time = Except.ok s1 →
      s1.x_cur ^ 2 + s1.y_cur ^ 2 + s1.z_cur ^ 2 = s1.rorb ^ 2) := by
  have key : ∀ (s : Secondary S) (time : S) (s1 : Secondary S),
      s.cosi ^ 2 + s.sini ^ 2 = 1 → s.cosO ^ 2 + s.sinO ^ 2 = 1 →
      s.cosOcosi = s.cosO * s.cosi → s.sinOcosi = s.sinO * s.cosi →
      Secondary.orbitStep u s time = Except.ok s1 →
      s1.x_cur ^ 2 + s1.y_cur ^ 2 + s1.z_cur ^ 2 = s1.rorb ^ 2 ∧
        (s.ecc = 0 → s1.x_cur ^ 2 + s1.y_cur ^ 2 + s1.z_cur ^ 2 = s.a ^ 2) := by
    intro s time s1 hi hO hcOci hsOci hs
    obtain ⟨hx, hy, hz, hr⟩ := orbitStep_ok_position u s time s1 hs
    have hd : s1.x_cur ^ 2 + s1.y_cur ^ 2 + s1.z_cur ^ 2 = s1.rorb ^ 2 := by
      rw [hx, hy, hz]
      exact position_norm_sq s1.rorb s.cosO s.sinO s.cosi s.sini s.cosOcosi s.sinOcosi
        (u.cos (s.w + s1.f)) (u.sin (s.w + s1.f)) hO hi hcOci hsOci (hpyth _)
    refine ⟨hd, fun hecc => ?_⟩
    rw [hd, hr hecc]
  refine ⟨key, fun s time hecc => ⟨_, orbitStep_ecc_zero u s time hecc⟩, ?_⟩
  intro c raw s0 ops time s1 h0 hs
  obtain ⟨hO, hi, hcOci, hsOci⟩ :=
    consistent_trig u hpyth _ (reachable_consistent c u raw s0 ops h0).1
  exact (key _ time s1 hi hO hcOci hsOci hs).1

/-- Witness for claim C22: over the reals `cos^2 + sin^2 = 1` holds, the
constructed secondary has consistent caches, and `orbitStep(0)` on it returns
with the body at the distance `a = 50` from the origin. -/
theorem orbitStep_distance_witness :
    (∀ x, realUtils.cos x ^ 2 + realUtils.sin x ^ 2 = 1) ∧
    ∃ s s1, Secondary.construct sampleCollaborators realUtils sampleSecondary = Except.ok s ∧
      s.cosi ^ 2 + s.sini ^ 2 = 1 ∧ s.cosO ^ 2 + s.sinO ^ 2 = 1 ∧
      s.cosOcosi = s.cosO * s.cosi ∧ s.sinOcosi = s.sinO * s.cosi ∧
      Secondary.orbitStep realUtils s 0 = Except.ok s1 ∧
      s1.x_cur ^ 2 + s1.y_cur ^ 2 + s1.z_cur ^ 2 = s1.rorb ^ 2 ∧
      s1.x_cur ^ 2 + s1.y_cur ^ 2 + s1.z_cur ^ 2 = 50 ^ 2 := by
  have hp : ∀ x, realUtils.cos x ^ 2 + realUtils.sin x ^ 2 = 1 :=
    fun x => Real.cos_sq_add_sin_sq x
  obtain ⟨s, hs, ha, hecc, _⟩ :=
    secondary_construct sampleCollaborators realUtils sampleSecondary
  obtain ⟨hO, hi, hcOci, hsOci⟩ := consistent_trig realUtils hp s
    (reachable_consistent sampleCollaborators realUtils sampleSecondary s [] hs).1
  obtain ⟨s1, hs1⟩ := (orbitStep_distance realUtils hp).2.1 s 0 hecc
  have h := (orbitStep_distance realUtils hp).1 s 0 s1 hi hO hcOci hsOci hs1
  refine ⟨hp, s, s1, hs, hi, hO, hcOci, hsOci, hs1, h.1, ?_⟩
  rw [h.2 hecc, ha]

/-- The override `computeTheta0` leaves `angvelorb` untouched. -/
theorem computeTheta0_angvelorb (u : Utils S) (s : Secondary S) :
    (Secondary.computeTheta0 u s).angvelorb = s.angvelorb := by
  obtain ⟨t, ht⟩ := Secondary.computeTheta0_eq u s
  rw [ht]

/-- The orbital period and the orbital angular velocity that a returning
`setOrbPer(p)` stored. -/
theorem setOrbPer_result (u : Utils S) (s s1 : Secondary S) (p : S)
    (hs : Secondary.setOrbPer u s p = Except.ok s1) :
    0 < p ∧ s1.porb = p * 86400 ∧ s1.angvelorb = 2 * u.pi / (p * 86400) := by
  simp only [Secondary.setOrbPer] at hs
  split at hs
  · rename_i hp
    injection hs with hs
    subst hs
    rw [(Secondary.computeTheta0_elements u _).2.1, computeTheta0_angvelorb]
    exact ⟨hp, rfl, rfl⟩
  · cases hs

/-- With a wrap of period `2π`, `orbitStep` has the period `porb` on every
object with `porb ≠ 0` and `angvelorb = 2π / porb`. -/
theorem orbitStep_add_porb (u : Utils S) (hwrap : ∀ x, u.mod2pi (x + 2 * u.pi) = u.mod2pi x)
    (s : Secondary S) (t : S) (hporb : s.porb ≠ 0) (hang : s.angvelorb = 2 * u.pi / s.porb) :
    Secondary.orbitStep u s (t + s.porb) = Secondary.orbitStep u s t := by
  have hM : u.mod2pi (s.M0 + s.angvelorb * (t + s.porb - s.tref)) =
      u.mod2pi (s.M0 + s.angvelorb * (t - s.tref)) := by
    have e : s.M0 + s.angvelorb * (t + s.porb - s.tref) =
        (s.M0 + s.angvelorb * (t - s.tref)) + 2 * u.pi := by
      rw [hang]
      field_simp
      ring
    rw [e, hwrap]
  unfold Secondary.orbitStep
  rw [hM]

/-- Claim C23: when the angle wrap satisfies `wrap(x + 2π) = wrap(x)`, the
call `orbitStep(t + porb)` has the same outcome as `orbitStep(t)`, hence the
same `M`, `f`, `rorb` and `(x_cur, y_cur, z_cur)`: for every state with
`porb ≠ 0` and `angvelorb = 2π / porb` and every time; after every returning
`setOrbPer(p)`, where `porb` is `86400 * p` seconds; and for every object that
the constructor returned and on which setters were then called in any
order. -/
theorem orbitStep_periodic (u : Utils S)
    (hwrap : ∀ x, u.mod2pi (x + 2 * u.pi) = u.mod2pi x) :
    (∀ (s : Secondary S) (t : S), s.porb ≠ 0 → s.angvelorb = 2 * u.pi / s.porb →
      Secondary.orbitStep u s (t + s.porb) = Secondary.orbitStep u s t) ∧
    (∀ (s s1 : Secondary S) (p t : S), Secondary.setOrbPer u s p = Except.ok s1 →
      s1.porb = 86400 * p ∧
      Secondary.orbitStep u s1 (t + 86400 * p) = Secondary.orbitStep u s1 t) ∧
    (∀ (c : Collaborators S) (raw s0 : Secondary S) (ops : List (Secondary.Setter S))
      (t : S), Secondary.construct c u raw = Except.ok s0 →
      Secondary.orbitStep u (Secondary.run u s0 ops) (t + (Secondary.run u s0 ops).porb) =
        Secondary.orbitStep u (Secondary.run u s0 ops) t) := by
  refine ⟨fun s t hporb hang => orbitStep_add_porb u hwrap s t hporb hang, ?_, ?_⟩
  · intro s s1 p t hs
    obtain ⟨hp, hporb, hang⟩ := setOrbPer_result u s s1 p hs
    have hne : s1.porb ≠ 0 := by
      rw [hporb]
      exact ne_of_gt (mul_pos hp (by norm_num))
    have h := orbitStep_add_porb u hwrap s1 t hne (by rw [hang, hporb])
    rw [hporb, mul_comm p 86400] at h
    exact ⟨by rw [hporb, mul_comm], h⟩
  · intro c raw s0 ops t h0
    obtain ⟨hcons, hpos⟩ := reachable_consistent c u raw s0 ops h0
    exact orbitStep_add_porb u hwrap _ t (ne_of_gt hpos) hcons.1

/-- Witness for claim C23: the real angle wrap has the period `2π`, and on the
constructed secondary over the reals, whose orbital period is `86400`
seconds, `orbitStep(0 + 86400)` has the outcome of `orbitStep(0)`. -/
theorem orbitStep_periodic_witness :
    (∀ x, realUtils.mod2pi (x + 2 * realUtils.pi) = realUtils.mod2pi x) ∧
    ∃ s, Secondary.construct sampleCollaborators realUtils sampleSecondary = Except.ok s ∧
      s.porb = 86400 ∧
      Secondary.orbitStep realUtils s (0 + s.porb) = Secondary.orbitStep realUtils s 0 := by
  obtain ⟨s, hs, _, _, hporb, _⟩ :=
    secondary_construct sampleCollaborators realUtils sampleSecondary
  refine ⟨realMod2pi_add_period, s, hs, by rw [hporb, one_mul], ?_⟩
  exact (orbitStep_periodic realUtils realMod2pi_add_period).2.2
    sampleCollaborators sampleSecondary s [] 0 hs

end OrbitClaims

/-! ## Theorems: the true anomaly and the orbital radius -/

section TrueAnomaly

/-- The half-angle formula of the true anomaly: the cosine of twice the
argument of the point `(sqrt(1 - e) * cos(E/2), sqrt(1 + e) * sin(E/2))` is
`(cos E - e) / (1 - e * cos E)`. -/
theorem cos_two_arg_half_angle (e E : ℝ) (h0 : 0 ≤ e) (h1 : e < 1) :
    Real.cos (2 * Complex.arg ⟨Real.sqrt (1 - e) * Real.cos (E / 2),
        Real.sqrt (1 + e) * Real.sin (E / 2)⟩) =
      (Real.cos E - e) / (1 - e * Real.cos E) := by
  have hsm : Real.sqrt (1 - e) ^ 2 = 1 - e := Real.sq_sqrt (by linarith)
  have hsp : Real.sqrt (1 + e) ^ 2 = 1 + e := Real.sq_sqrt (by linarith)
  have hcs : Real.cos (E / 2) ^ 2 + Real.sin (E / 2) ^ 2 = 1 := Real.cos_sq_add_sin_sq _
  have hcE : Real.cos E = 2 * Real.cos (E / 2) ^ 2 - 1 := by
    have h := Real.cos_two_mul (E / 2)
    rwa [show 2 * (E / 2) = E by ring] at h
  have hx2 : (Real.sqrt (1 - e) * Real.cos (E / 2)) ^ 2 = (1 - e) * Real.cos (E / 2) ^ 2 := by
    rw [mul_pow, hsm]
  have hy2 : (Real.sqrt (1 + e) * Real.sin (E / 2)) ^ 2 = (1 + e) * Real.sin (E / 2) ^ 2 := by
    rw [mul_pow, hsp]
  have hsum : (Real.sqrt (1 - e) * Real.cos (E / 2)) ^ 2 +
      (Real.sqrt (1 + e) * Real.sin (E / 2)) ^ 2 = 1 - e * Real.cos E := by
    rw [hx2, hy2, hcE]
    linear_combination (1 + e) * hcs
  have hden : 0 < 1 - e * Real.cos E :=
    kepler_denominator_pos e (Real.cos E) h0 h1 (Real.abs_cos_le_one E)
  have habs : Complex.abs ⟨Real.sqrt (1 - e) * Real.cos (E / 2),
      Real.sqrt (1 + e) * Real.sin (E / 2)⟩ ^ 2 = 1 - e * Real.cos E := by
    rw [Complex.sq_abs, Complex.normSq_mk, ← hsum]
    ring
  have hz : (⟨Real.sqrt (1 - e) * Real.cos (E / 2),
      Real.sqrt (1 + e) * Real.sin (E / 2)⟩ : ℂ) ≠ 0 := by
    intro h
    rw [h, map_zero] at habs
    nlinarith
  rw [Real.cos_two_mul, Complex.cos_arg hz, div_pow, habs]
  show 2 * ((Real.sqrt (1 - e) * Real.cos (E / 2)) ^ 2 / (1 - e * Real.cos E)) - 1 = _
  rw [hx2]
  field_simp
  rw [hcE]
  ring

/-- Claim C25: for every `ecc` in `(0, 1)`, `a > 0` and real `E`, the true
anomaly `f = 2*atan2(sqrt(1+ecc)*sin(E/2), sqrt(1-ecc)*cos(E/2))` satisfies
`cos f = (cos E - ecc)/(1 - ecc*cos E)`; the orbital radius
`a*(1 - ecc^2)/(1 + ecc*cos f)` equals `a*(1 - ecc*cos E)` and lies between
`a*(1 - ecc)` and `a*(1 + ecc)`; and on every `Secondary` with consistent
caches, eccentricity `ecc` and semi-major axis `a`, an `orbitStep` for which
the Kepler solver returns `E` returns with this `f` and with
`rorb = a*(1 - ecc*cos E)`. -/
theorem true_anomaly_radius (ecc a E : ℝ) (h0 : 0 < ecc) (h1 : ecc < 1) (ha : 0 < a) :
    realUtils.cos (2 * realUtils.atan2 (realUtils.sqrt (1 + ecc) * realUtils.sin (E / 2))
        (realUtils.sqrt (1 - ecc) * realUtils.cos (E / 2))) =
      (realUtils.cos E - ecc) / (1 - ecc * realUtils.cos E) ∧
    a * (1 - ecc ^ 2) /
        (1 + ecc * realUtils.cos (2 * realUtils.atan2
          (realUtils.sqrt (1 + ecc) * realUtils.sin (E / 2))
          (realUtils.sqrt (1 - ecc) * realUtils.cos (E / 2)))) =
      a * (1 - ecc * realUtils.cos E) ∧
    a * (1 - ecc) ≤ a * (1 - ecc * realUtils.cos E) ∧
    a * (1 - ecc * realUtils.cos E) ≤ a * (1 + ecc) ∧
    (∀ (s : Secondary ℝ) (time : ℝ), Secondary.CacheConsistent realUtils s →
      s.ecc = ecc → s.a = a →
      EccentricAnomaly realUtils
        (realUtils.mod2pi (s.M0 + s.angvelorb * (time - s.tref))) ecc = Except.ok E →
      ∃ s1, Secondary.orbitStep realUtils s time = Except.ok s1 ∧ s1.E = E ∧
        s1.f = 2 * realUtils.atan2 (realUtils.sqrt (1 + ecc) * realUtils.sin (E / 2))
          (realUtils.sqrt (1 - ecc) * realUtils.cos (E / 2)) ∧
        s1.rorb = a * (1 - ecc * realUtils.cos E)) := by
  have hcos : Real.cos (2 * Complex.arg ⟨Real.sqrt (1 - ecc) * Real.cos (E / 2),
        Real.sqrt (1 + ecc) * Real.sin (E / 2)⟩) =
      (Real.cos E - ecc) / (1 - ecc * Real.cos E) :=
    cos_two_arg_half_angle ecc E (le_of_lt h0) h1
  have hden : 0 < 1 - ecc * Real.cos E :=
    kepler_denominator_pos ecc (Real.cos E) (le_of_lt h0) h1 (Real.abs_cos_le_one E)
  have hcE1 : Real.cos E ≤ 1 := Real.cos_le_one E
  have hcE2 : -1 ≤ Real.cos E := Real.neg_one_le_cos E
  have hrad : a * (1 - ecc ^ 2) /
      (1 + ecc * Real.cos (2 * Complex.arg ⟨Real.sqrt (1 - ecc) * Real.cos (E / 2),
        Real.sqrt (1 + ecc) * Real.sin (E / 2)⟩)) = a * (1 - ecc * Real.cos E) := by
    rw [hcos]
    have hne : (1 - ecc * Real.cos E) ≠ 0 := ne_of_gt hden
    have hsq : (1 - ecc ^ 2) ≠ 0 := by
      have : 0 < 1 - ecc ^ 2 := by nlinarith
      exact ne_of_gt this
    have e1 : 1 + ecc * ((Real.cos E - ecc) / (1 - ecc * Real.cos E)) =
        (1 - ecc ^ 2) / (1 - ecc * Real.cos E) := by
      field_simp
      ring
    rw [e1]
    field_simp
    ring
  refine ⟨hcos, hrad, ?_, ?_, ?_⟩
  · show a * (1 - ecc) ≤ a * (1 - ecc * Real.cos E)
    apply mul_le_mul_of_nonneg_left _ (le_of_lt ha)
    nlinarith
  · show a * (1 - ecc * Real.cos E) ≤ a * (1 + ecc)
    apply mul_le_mul_of_nonneg_left _ (le_of_lt ha)
    nlinarith
  · intro s time hc hecc hsa hE
    obtain ⟨_, _, _, _, _, _, _, _, h9, h10, h11, _⟩ := hc
    obtain ⟨s1, hs1, hE1, hf, hr, _⟩ := orbitStep_ecc_ne_zero realUtils s time E
      (by rw [hecc]; exact ne_of_gt h0) (by rw [hecc]; exact hE)
    have hf' : s1.f = 2 * realUtils.atan2 (realUtils.sqrt (1 + ecc) * realUtils.sin (E / 2))
        (realUtils.sqrt (1 - ecc) * realUtils.cos (E / 2)) := by
      rw [hf, h9, h10, hecc]
    refine ⟨s1, hs1, hE1, hf', ?_⟩
    rw [hr, hf', h11, hecc, hsa]
    exact hrad

/-- Witness for claim C25: the eccentricity `1/2`, the semi-major axis `50`
and the eccentric anomaly `0`, the pericentre, where the orbital radius is
`a * (1 - ecc) = 25`. -/
theorem true_anomaly_radius_witness :
    (0 : ℝ) < 1 / 2 ∧ (1 / 2 : ℝ) < 1 ∧ (0 : ℝ) < 50 ∧
    realUtils.cos (2 * realUtils.atan2 (realUtils.sqrt (1 + 1 / 2) * realUtils.sin (0 / 2))
        (realUtils.sqrt (1 - 1 / 2) * realUtils.cos (0 / 2))) =
      (realUtils.cos 0 - 1 / 2) / (1 - 1 / 2 * realUtils.cos 0) ∧
    (50 : ℝ) * (1 - (1 / 2) ^ 2) /
        (1 + 1 / 2 * realUtils.cos (2 * realUtils.atan2
          (realUtils.sqrt (1 + 1 / 2) * realUtils.sin (0 / 2))
          (realUtils.sqrt (1 - 1 / 2) * realUtils.cos (0 / 2)))) =
      50 * (1 - 1 / 2 * realUtils.cos 0) ∧
    (50 : ℝ) * (1 - 1 / 2 * realUtils.cos 0) = 25 := by
  have h := true_anomaly_radius (1 / 2) 50 0 (by norm_num) (by norm_num) (by norm_num)
  refine ⟨by norm_num, by norm_num, by norm_num, h.1, h.2.1, ?_⟩
  show (50 : ℝ) * (1 - 1 / 2 * Real.cos 0) = 25
  rw [Real.cos_zero]
  norm_num

end TrueAnomaly

/-! ## Theorems: the Newton iteration of the solver -/

section Newton

/-- The residual after one Newton update by `δ`, the quotient of the residual
at `E` by `1 - e * cos E`. -/
theorem newton_update_residual (e M E : ℝ) (hden : 1 - e * Real.cos E ≠ 0) :
    (E - (E - e * Real.sin E - M) / (1 - e * Real.cos E)) -
        e * Real.sin (E - (E - e * Real.sin E - M) / (1 - e * Real.cos E)) - M =
      e * (Real.cos E * (Real.sin ((E - e * Real.sin E - M) / (1 - e * Real.cos E)) -
            (E - e * Real.sin E - M) / (1 - e * Real.cos E)) +
          Real.sin E * (1 - Real.cos ((E - e * Real.sin E - M) / (1 - e * Real.cos E)))) := by
  have h : (E - e * Real.sin E - M) / (1 - e * Real.cos E) * (1 - e * Real.cos E) =
      E - e * Real.sin E - M := by
    field_simp
  generalize (E - e * Real.sin E - M) / (1 - e * Real.cos E) = δ at h ⊢
  rw [Real.sin_sub]
  linear_combination (-1) * h

/-- The sine differs from its argument by at most a quarter of the cube, on
`[-1, 1]`. -/
theorem abs_sin_sub_self_le (x : ℝ) (hx : |x| ≤ 1) : |Real.sin x - x| ≤ |x| ^ 3 / 4 := by
  have h := Real.sin_bound hx
  have habs : 0 ≤ |x| := abs_nonneg x
  have h3 : |x ^ 3| = |x| ^ 3 := abs_pow x 3
  have h4 : |x| ^ 4 ≤ |x| ^ 3 := by
    have e4 : |x| ^ 4 = |x| ^ 3 * |x| := by ring
    rw [e4]
    exact mul_le_of_le_one_right (pow_nonneg habs 3) hx
  have e : Real.sin x - x = (Real.sin x - (x - x ^ 3 / 6)) + (-(x ^ 3 / 6)) := by ring
  rw [e]
  refine le_trans (abs_add _ _) ?_
  rw [abs_neg, abs_div, h3, abs_of_pos (by norm_num : (0 : ℝ) < 6)]
  nlinarith [pow_nonneg habs 3]

/-- The cosine is at least `1 - x^2 / 2`. -/
theorem one_sub_cos_le (x : ℝ) : 1 - Real.cos x ≤ x ^ 2 / 2 := by
  have h := Real.one_sub_sq_div_two_le_cos (x := x)
  linarith

/-- The cosine is at most `1 - x^2 / 4` on `[-1, 1]`. -/
theorem one_sub_cos_ge (x : ℝ) (hx : |x| ≤ 1) : x ^ 2 / 4 ≤ 1 - Real.cos x := by
  have h := Real.cos_bound hx
  have h1 := (abs_le.mp h).2
  have habs : 0 ≤ |x| := abs_nonneg x
  have h2 : |x| ^ 4 ≤ x ^ 2 := by
    have e : |x| ^ 4 = x ^ 2 * |x| ^ 2 := by rw [← sq_abs x]; ring
    rw [e]
    exact mul_le_of_le_one_right (sq_nonneg x) (pow_le_one₀ habs hx)
  nlinarith

/-- One Newton update from an iterate with residual at most `r ≤ 1 - e` leaves
a residual of the order of `r^2`. -/
theorem newton_residual_le (e M E r : ℝ) (he0 : 0 ≤ e) (he1 : e < 1)
    (hr : |E - e * Real.sin E - M| ≤ r) (hr1 : r ≤ 1 - e) :
    |(E - (E - e * Real.sin E - M) / (1 - e * Real.cos E)) -
        e * Real.sin (E - (E - e * Real.sin E - M) / (1 - e * Real.cos E)) - M| ≤
      e * ((r / (1 - e)) ^ 3 / 4 + (r / (1 - e)) ^ 2 / 2) := by
  have hcos : Real.cos E ≤ 1 := Real.cos_le_one E
  have hden : 1 - e ≤ 1 - e * Real.cos E := by nlinarith
  have hpos : 0 < 1 - e := by linarith
  have hdpos : 0 < 1 - e * Real.cos E := by linarith
  rw [newton_update_residual e M E (ne_of_gt hdpos)]
  have hr0 : 0 ≤ r := le_trans (abs_nonneg _) hr
  have hδ : |(E - e * Real.sin E - M) / (1 - e * Real.cos E)| ≤ r / (1 - e) := by
    rw [abs_div, abs_of_pos hdpos]
    calc |E - e * Real.sin E - M| / (1 - e * Real.cos E)
        ≤ r / (1 - e * Real.cos E) := div_le_div_of_nonneg_right hr (le_of_lt hdpos)
      _ ≤ r / (1 - e) := div_le_div_of_nonneg_left hr0 hpos hden
  have hq1 : r / (1 - e) ≤ 1 := (div_le_one hpos).2 hr1
  generalize (E - e * Real.sin E - M) / (1 - e * Real.cos E) = δ at hδ ⊢
  have hδ1 : |δ| ≤ 1 := le_trans hδ hq1
  have hs := abs_sin_sub_self_le δ hδ1
  have hc1 := one_sub_cos_le δ
  have hc0 : 0 ≤ 1 - Real.cos δ := by linarith [Real.cos_le_one δ]
  have hδ0 : 0 ≤ |δ| := abs_nonneg δ
  have hp3 : |δ| ^ 3 ≤ (r / (1 - e)) ^ 3 := pow_le_pow_left₀ hδ0 hδ 3
  have hp2 : δ ^ 2 ≤ (r / (1 - e)) ^ 2 := by
    rw [← sq_abs δ]
    exact pow_le_pow_left₀ hδ0 hδ 2
  rw [abs_mul, abs_of_nonneg he0]
  apply mul_le_mul_of_nonneg_left _ he0
  refine le_trans (abs_add _ _) ?_
  rw [abs_mul, abs_mul]
  have a1 : |Real.cos E| * |Real.sin δ - δ| ≤ (r / (1 - e)) ^ 3 / 4 := by
    calc |Real.cos E| * |Real.sin δ - δ| ≤ 1 * |Real.sin δ - δ| :=
          mul_le_mul_of_nonneg_right (Real.abs_cos_le_one E) (abs_nonneg _)
      _ ≤ (r / (1 - e)) ^ 3 / 4 := by linarith
  have a2 : |Real.sin E| * |1 - Real.cos δ| ≤ (r / (1 - e)) ^ 2 / 2 := by
    rw [abs_of_nonneg hc0]
    calc |Real.sin E| * (1 - Real.cos δ) ≤ 1 * (1 - Real.cos δ) :=
          mul_le_mul_of_nonneg_right (Real.abs_sin_le_one E) hc0
      _ ≤ (r / (1 - e)) ^ 2 / 2 := by linarith
  linarith

/-- For `ecc = 1/2` and a mean anomaly `0 < m ≤ 1`, the first Newton update
from `E = m` moves the iterate up, and leaves a residual of at least
`27/2048 * m^3`. -/
theorem first_update_residual_ge (m : ℝ) (h0 : 0 < m) (h1 : m ≤ 1) :
    m < m - (m - 1 / 2 * Real.sin m - m) / (1 - 1 / 2 * Real.cos m) ∧
    27 / 2048 * m ^ 3 ≤
      (m - (m - 1 / 2 * Real.sin m - m) / (1 - 1 / 2 * Real.cos m)) -
        1 / 2 * Real.sin (m - (m - 1 / 2 * Real.sin m - m) / (1 - 1 / 2 * Real.cos m)) - m := by
  have hs1 : Real.sin m ≤ m := Real.sin_le (le_of_lt h0)
  have hs2 : m - m ^ 3 / 4 < Real.sin m := Real.sin_gt_sub_cube h0 h1
  have hm3 : m ^ 3 ≤ m := by
    have e3 : m ^ 3 = m * m ^ 2 := by ring
    rw [e3]
    exact mul_le_of_le_one_right (le_of_lt h0) (pow_le_one₀ (le_of_lt h0) h1)
  have hs3 : 3 / 4 * m ≤ Real.sin m := by linarith
  have hc1 : Real.cos m ≤ 1 := Real.cos_le_one m
  have hc2 : 1 - m ^ 2 / 2 ≤ Real.cos m := Real.one_sub_sq_div_two_le_cos
  have hm2 : m ^ 2 ≤ 1 := pow_le_one₀ (le_of_lt h0) h1
  have hc3 : 0 ≤ Real.cos m := by linarith
  have hdpos : 0 < 1 - 1 / 2 * Real.cos m := by linarith
  rw [newton_update_residual (1 / 2) m m (ne_of_gt hdpos)]
  have hδ : (m - 1 / 2 * Real.sin m - m) / (1 - 1 / 2 * Real.cos m) =
      -(1 / 2 * Real.sin m / (1 - 1 / 2 * Real.cos m)) := by
    rw [← neg_div]
    congr 1
    ring
  rw [hδ]
  have hspos : 0 < Real.sin m := by linarith
  have hd1 : 1 / 2 * Real.sin m ≤ 1 / 2 * Real.sin m / (1 - 1 / 2 * Real.cos m) := by
    rw [le_div_iff₀ hdpos]
    nlinarith
  have hd2 : 1 / 2 * Real.sin m / (1 - 1 / 2 * Real.cos m) ≤ Real.sin m := by
    rw [div_le_iff₀ hdpos]
    nlinarith
  generalize 1 / 2 * Real.sin m / (1 - 1 / 2 * Real.cos m) = d at hd1 hd2 ⊢
  have hd0 : 0 ≤ d := by linarith
  have hdle : d ≤ 1 := by linarith
  have hsd : Real.sin d ≤ d := Real.sin_le hd0
  have hcd : d ^ 2 / 4 ≤ 1 - Real.cos d :=
    one_sub_cos_ge d (by rw [abs_of_nonneg hd0]; exact hdle)
  rw [Real.sin_neg, Real.cos_neg]
  have hd3 : 3 / 8 * m ≤ d := by linarith
  have hdsq : (3 / 8 * m) ^ 2 ≤ d ^ 2 := pow_le_pow_left₀ (by linarith) hd3 2
  have t1 : 0 ≤ Real.cos m * (-Real.sin d - -d) := mul_nonneg hc3 (by linarith)
  have t2 : 3 / 4 * m * ((3 / 8 * m) ^ 2 / 4) ≤ Real.sin m * (1 - Real.cos d) := by
    apply mul_le_mul hs3 (by linarith) (by positivity) (le_of_lt hspos)
  refine ⟨by linarith, ?_⟩
  nlinarith

/-- With the real sine and cosine and the tolerance `10 * 2^(-52)`, at
`M = 1/10000` and `ecc = 1/2` the first update moves the iterate and misses the
tolerance, the second update meets it, and the solver returns the second
iterate after two updates, whenever its loop has at least two passes. -/
theorem real_two_updates (u : Utils ℝ) (hs : u.sin = Real.sin) (hc : u.cos = Real.cos)
    (heps : u.mach_eps = 1 / 2 ^ 52) (hmax : 1 ≤ u.STARRY_KEPLER_MAX_ITER) :
    1 / 10000 < newtonStep u (1 / 10000) (1 / 2) (1 / 10000) ∧
    ¬ residual u (1 / 10000) (1 / 2) (newtonStep u (1 / 10000) (1 / 2) (1 / 10000)) ≤
      10 * u.mach_eps ∧
    residual u (1 / 10000) (1 / 2)
        (newtonStep u (1 / 10000) (1 / 2) (newtonStep u (1 / 10000) (1 / 2) (1 / 10000))) ≤
      10 * u.mach_eps ∧
    EccentricAnomalyCount u (1 / 10000) (1 / 2) = Except.ok
      (newtonStep u (1 / 10000) (1 / 2) (newtonStep u (1 / 10000) (1 / 2) (1 / 10000)), 2) := by
  have hstep : ∀ E, newtonStep u (1 / 10000) (1 / 2) E =
      E - (E - 1 / 2 * Real.sin E - 1 / 10000) / (1 - 1 / 2 * Real.cos E) := by
    intro E
    unfold newtonStep
    rw [hs, hc]
  have hres : ∀ E, residual u (1 / 10000) (1 / 2) E =
      |E - 1 / 2 * Real.sin E - 1 / 10000| := by
    intro E
    unfold residual
    rw [hs]
  obtain ⟨hmove, hlow⟩ := first_update_residual_ge (1 / 10000) (by norm_num) (by norm_num)
  have h1 : ¬ residual u (1 / 10000) (1 / 2) (newtonStep u (1 / 10000) (1 / 2) (1 / 10000)) ≤
      10 * u.mach_eps := by
    rw [hres, hstep, heps]
    intro hle
    have hup := (abs_le.mp hle).2
    have hnum : (10 : ℝ) * (1 / 2 ^ 52) < 27 / 2048 * (1 / 10000) ^ 3 := by norm_num
    linarith
  have hsin0 : 0 ≤ Real.sin (1 / 10000) := by
    have h := Real.sin_gt_sub_cube (x := 1 / 10000) (by norm_num) (by norm_num)
    have hnum : (0 : ℝ) ≤ 1 / 10000 - (1 / 10000) ^ 3 / 4 := by norm_num
    linarith
  have hsin1 : Real.sin (1 / 10000) ≤ 1 / 10000 := Real.sin_le (by norm_num)
  have hr0 : |(1 / 10000 : ℝ) - 1 / 2 * Real.sin (1 / 10000) - 1 / 10000| ≤ 1 / 20000 := by
    have e : (1 / 10000 : ℝ) - 1 / 2 * Real.sin (1 / 10000) - 1 / 10000 =
        -(1 / 2 * Real.sin (1 / 10000)) := by ring
    rw [e, abs_neg, abs_of_nonneg (by linarith)]
    linarith
  have hb1 := newton_residual_le (1 / 2) (1 / 10000) (1 / 10000) (1 / 20000) (by norm_num)
    (by norm_num) hr0 (by norm_num)
  have hb1' := le_trans hb1 (by norm_num :
    (1 / 2 : ℝ) * ((1 / 20000 / (1 - 1 / 2)) ^ 3 / 4 + (1 / 20000 / (1 - 1 / 2)) ^ 2 / 2) ≤
      3 / 10 ^ 9)
  have hb2 := newton_residual_le (1 / 2) (1 / 10000) _ (3 / 10 ^ 9) (by norm_num)
    (by norm_num) hb1' (by norm_num)
  have h2 : residual u (1 / 10000) (1 / 2)
      (newtonStep u (1 / 10000) (1 / 2) (newtonStep u (1 / 10000) (1 / 2) (1 / 10000))) ≤
        10 * u.mach_eps := by
    rw [hres, hstep, hstep, heps]
    exact le_trans hb2 (by norm_num)
  refine ⟨?_, h1, h2, ?_⟩
  · rw [hstep]
    exact hmove
  · have hcount : EccentricAnomalyCount u (1 / 10000) (1 / 2) =
        newtonLoop u (1 / 10000) (1 / 2) (10 * u.mach_eps)
          (u.STARRY_KEPLER_MAX_ITER + 1) (1 / 10000) 0 := by
      unfold EccentricAnomalyCount
      simp only [gt_iff_lt, if_pos (by norm_num : (0 : ℝ) < 1 / 2)]
    rw [hcount]
    refine (newtonLoop_ok_iff u _ _ _ _ _ _ _ _).2 ⟨2, by norm_num, by omega, rfl, rfl, h2, ?_⟩
    intro j hj1 hj2
    have hj : j = 1 := by omega
    subst hj
    exact h1

end Newton

section NewtonClaim

variable {S : Type} [LinearOrderedField S]

/-- Claim C3, with the iteration budget of the code: let `ecc > 0`, and let
`seq` be the Newton sequence `seq 0 = M`,
`seq (j+1) = seq j - (seq j - ecc*sin(seq j) - M)/(1 - ecc*cos(seq j))`, none
of whose denominators up to the index `STARRY_KEPLER_MAX_ITER` is zero.  Then
`EccentricAnomaly(M, ecc)` returns `E` exactly when `E` is the first of the
updated iterates `seq 1, ..., seq (STARRY_KEPLER_MAX_ITER + 1)` whose residual
`|E - ecc*sin E - M|` is at most `10 * mach_eps`; it throws the convergence
error exactly when none of these `STARRY_KEPLER_MAX_ITER + 1` iterates meets
the tolerance, and it throws no other error; a returned value comes after
between `1` and `STARRY_KEPLER_MAX_ITER + 1` updates and meets the tolerance;
the call always terminates, with a value or with the convergence error; and
each update is the true Newton quotient. -/
theorem EccentricAnomaly_newton (u : Utils S) (M ecc : S) (hecc : 0 < ecc) (seq : Nat → S)
    (h0 : seq 0 = M)
    (hstep : ∀ j, seq (j + 1) =
      seq j - (seq j - ecc * u.sin (seq j) - M) / (1 - ecc * u.cos (seq j)))
    (hden : ∀ j, j ≤ u.STARRY_KEPLER_MAX_ITER → 1 - ecc * u.cos (seq j) ≠ 0) :
    (∀ E, EccentricAnomaly u M ecc = Except.ok E ↔
      ∃ k, 1 ≤ k ∧ k ≤ u.STARRY_KEPLER_MAX_ITER + 1 ∧ E = seq k ∧
        |seq k - ecc * u.sin (seq k) - M| ≤ 10 * u.mach_eps ∧
        ∀ j, 1 ≤ j → j < k → ¬ |seq j - ecc * u.sin (seq j) - M| ≤ 10 * u.mach_eps) ∧
    (EccentricAnomaly u M ecc = Except.error Error.ConvergenceError ↔
      ∀ k, 1 ≤ k → k ≤ u.STARRY_KEPLER_MAX_ITER + 1 →
        ¬ |seq k - ecc * u.sin (seq k) - M| ≤ 10 * u.mach_eps) ∧
    (∀ e, EccentricAnomaly u M ecc = Except.error e → e = Error.ConvergenceError) ∧
    (∀ E n, EccentricAnomalyCount u M ecc = Except.ok (E, n) →
      EccentricAnomaly u M ecc = Except.ok E ∧ 1 ≤ n ∧
        n ≤ u.STARRY_KEPLER_MAX_ITER + 1 ∧ E = seq n ∧
        |E - ecc * u.sin E - M| ≤ 10 * u.mach_eps) ∧
    ((∃ E, EccentricAnomaly u M ecc = Except.ok E) ∨
      EccentricAnomaly u M ecc = Except.error Error.ConvergenceError) ∧
    (∀ j, j ≤ u.STARRY_KEPLER_MAX_ITER →
      (seq j - seq (j + 1)) * (1 - ecc * u.cos (seq j)) =
        seq j - ecc * u.sin (seq j) - M) := by
  have hseq : ∀ k, seq k = newtonIterate u M ecc k := by
    intro k
    induction k with
    | zero => exact h0
    | succ k ih =>
      rw [hstep, ih]
      unfold newtonIterate
      rw [Function.iterate_succ_apply']
      rfl
  have H := EccentricAnomaly_iterates u M ecc hecc
  unfold residual at H
  obtain ⟨H1, H2, H3, H4⟩ := H
  refine ⟨?_, ?_, H3, ?_, ?_, ?_⟩
  · simp only [hseq]
    exact H1
  · simp only [hseq]
    exact H2
  · simp only [hseq]
    exact H4
  · cases h : EccentricAnomaly u M ecc with
    | ok E => exact Or.inl ⟨E, rfl⟩
    | error e =>
      have he := H3 e h
      subst he
      exact Or.inr rfl
  · intro j hj
    rw [hstep j]
    have hd := hden j hj
    field_simp

/-- Witness for claim C3: over the reals, with the cap `100` and the tolerance
`10 * 2^(-52)`, at `M = 1/10000` and `ecc = 1/2` the iterates of the Newton
update form the sequence of the claim and none of its denominators is zero;
the first update moves the iterate and misses the tolerance, and the solver
returns the second iterate after two updates. -/
theorem EccentricAnomaly_newton_witness :
    (0 : ℝ) < 1 / 2 ∧
    newtonIterate realUtils (1 / 10000) (1 / 2) 0 = 1 / 10000 ∧
    (∀ j, newtonIterate realUtils (1 / 10000) (1 / 2) (j + 1) =
      newtonIterate realUtils (1 / 10000) (1 / 2) j -
        (newtonIterate realUtils (1 / 10000) (1 / 2) j -
            1 / 2 * realUtils.sin (newtonIterate realUtils (1 / 10000) (1 / 2) j) - 1 / 10000) /
          (1 - 1 / 2 * realUtils.cos (newtonIterate realUtils (1 / 10000) (1 / 2) j))) ∧
    (∀ j, j ≤ realUtils.STARRY_KEPLER_MAX_ITER →
      1 - 1 / 2 * realUtils.cos (newtonIterate realUtils (1 / 10000) (1 / 2) j) ≠ 0) ∧
    newtonIterate realUtils (1 / 10000) (1 / 2) 0 <
      newtonIterate realUtils (1 / 10000) (1 / 2) 1 ∧
    ¬ |newtonIterate realUtils (1 / 10000) (1 / 2) 1 -
        1 / 2 * realUtils.sin (newtonIterate realUtils (1 / 10000) (1 / 2) 1) - 1 / 10000| ≤
      10 * realUtils.mach_eps ∧
    EccentricAnomalyCount realUtils (1 / 10000) (1 / 2) =
      Except.ok (newtonIterate realUtils (1 / 10000) (1 / 2) 2, 2) ∧
    EccentricAnomaly realUtils (1 / 10000) (1 / 2) =
      Except.ok (newtonIterate realUtils (1 / 10000) (1 / 2) 2) := by
  obtain ⟨hmove, h1, h2, hcount⟩ := real_two_updates realUtils rfl rfl rfl (by decide)
  have hstep : ∀ j, newtonIterate realUtils (1 / 10000) (1 / 2) (j + 1) =
      newtonIterate realUtils (1 / 10000) (1 / 2) j -
        (newtonIterate realUtils (1 / 10000) (1 / 2) j -
            1 / 2 * realUtils.sin (newtonIterate realUtils (1 / 10000) (1 / 2) j) - 1 / 10000) /
          (1 - 1 / 2 * realUtils.cos (newtonIterate realUtils (1 / 10000) (1 / 2) j)) := by
    intro j
    unfold newtonIterate
    rw [Function.iterate_succ_apply']
    rfl
  have hden : ∀ j, j ≤ realUtils.STARRY_KEPLER_MAX_ITER →
      1 - 1 / 2 * realUtils.cos (newtonIterate realUtils (1 / 10000) (1 / 2) j) ≠ 0 :=
    fun j _ => ne_of_gt (kepler_denominator_pos (1 / 2) _ (by norm_num) (by norm_num)
      (Real.abs_cos_le_one _))
  have hthm := EccentricAnomaly_newton realUtils (1 / 10000) (1 / 2) (by norm_num)
    (newtonIterate realUtils (1 / 10000) (1 / 2)) rfl hstep hden
  refine ⟨by norm_num, rfl, hstep, hden, hmove, h1, hcount, ?_⟩
  refine (hthm.1 _).2 ⟨2, by norm_num, by decide, rfl, h2, ?_⟩
  intro j hj1 hj2
  have hj : j = 1 := by omega
  subst hj
  exact h1

/-- Counterexample to claim C3 as stated, with `STARRY_KEPLER_MAX_ITER` updates
as the budget: built with the cap `1`, at `M = 1/10000` and `ecc = 1/2` the
first updated iterate `E1`, the only one within a budget of one update, misses
the tolerance, and yet the solver does not fail: it performs a second update
and returns its result `E2`. -/
theorem EccentricAnomaly_second_update_returned :
    shortUtils.STARRY_KEPLER_MAX_ITER = 1 ∧
    ∃ E1 E2 : ℝ,
      E1 = 1 / 10000 - (1 / 10000 - 1 / 2 * shortUtils.sin (1 / 10000) - 1 / 10000) /
        (1 - 1 / 2 * shortUtils.cos (1 / 10000)) ∧
      E2 = E1 - (E1 - 1 / 2 * shortUtils.sin E1 - 1 / 10000) /
        (1 - 1 / 2 * shortUtils.cos E1) ∧
      ¬ |E1 - 1 / 2 * shortUtils.sin E1 - 1 / 10000| ≤ 10 * shortUtils.mach_eps ∧
      |E2 - 1 / 2 * shortUtils.sin E2 - 1 / 10000| ≤ 10 * shortUtils.mach_eps ∧
      EccentricAnomalyCount shortUtils (1 / 10000) (1 / 2) = Except.ok (E2, 2) ∧
      EccentricAnomaly shortUtils (1 / 10000) (1 / 2) = Except.ok E2 ∧
      EccentricAnomaly shortUtils (1 / 10000) (1 / 2) ≠
        Except.error Error.ConvergenceError := by
  obtain ⟨_, h1, h2, hcount⟩ := real_two_updates shortUtils rfl rfl rfl (le_refl 1)
  have hok := (EccentricAnomaly_ok_iff shortUtils (1 / 10000) (1 / 2) _).2 ⟨2, hcount⟩
  refine ⟨rfl, _, _, rfl, rfl, h1, h2, hcount, hok, ?_⟩
  rw [hok]
  intro h
  cases h

end NewtonClaim

end kepler
